import Mathlib

/-!
# Komrade Karaoke: the real-time playback engine

A shallow embedding of `src/audiomanager/playbackmanager.cpp`, and of the
track list of `src/trackfoldermodel.cpp` (`initTrackData`, `rowCount`,
`getTrackData`).

Conventions of the embedding

* `float` values (samples, volume, gains) are exact rationals.
* `int` members are integers.  The four products that feed the fade ratios
  (`m_currFadeIn * m_currFadeIn`, `m_fadeInSamples * m_fadeInSamples` and the
  fade-out counterparts) are computed in 32-bit two's complement
  (`wrapInt32`), because a fade of about one second at 44.1 kHz already
  leaves the `int` range there.  The index arithmetic (the read offset
  `m_activeSample + m_currFadeOut * numChannels`, `sample + 1`, the aux
  offset, the cursor advance) is exact in `writeNextAudioData`; the second
  embedding `writeNextAudioData32` does it in `int` and lists the exact
  results, and the two agree on every call in which these results are
  `int` values (`writeNextAudioData32_eq`).  The statement that the loads
  are inside the vectors, which speaks of every state, is made on
  `writeNextAudioData32`.
* `unsigned int` index arithmetic (`i*m_outChannels + k`) is modulo `2^32`.
* `QVector::at` is total in the model (`sampleAt` yields `0` outside the
  vector); every read is recorded with the length of the vector it reads,
  so that being in bounds is a property of the recorded trace.
* The callback returns, next to its code and the manager, what it did: the
  stores to `out` (`out`), the loads from the clips (`reads`) and the value
  of the local `volume` of every frame it wrote (`gains`).
* Dereferencing a null track or buffer is outside the model (the accessors
  yield an empty vector and `0` channels); the source guards every such
  access by `trackOk`.  Division by a channel count or a wrapped product
  that is `0` yields `0`, as division does in `Rat` and `Int`; the theorems
  on the claims do not rely on it.
* Qt signals are appended to the list `signals`, oldest first.
* The host audio library is the record `RtAudio`; whether the host rejects
  `openStream` / `startStream` is a field of that record.
-/

set_option maxRecDepth 1000000

namespace Karaoke

/-! ## Data model -/

/-- Modelled from the spec: the class `AudioBuffer`, whose declaration is not
among the sources: the interleaved samples behind `floatData()` and the
channel count behind `numChannels()`, an `int` as the source uses it. -/
structure AudioBuffer where
  floatData : List Rat
  numChannels : Int
deriving DecidableEq

/-- Modelled from the spec: the class `TrackData` (the Clip of the
specification), whose declaration is not among the sources, reduced to what
the playback engine reads: `fileName()`, `buffer()` (a shared pointer that may
be null), `autoPlay()` and `autoStop()`. -/
structure TrackData where
  fileName : String
  buffer : Option AudioBuffer
  autoPlay : Bool
  autoStop : Bool
deriving DecidableEq

/-- The Qt signals of `PlaybackManager` that the source emits;
`errorReported` stands for a call of `reportError`. -/
inductive Signal where
  | opened
  | closed
  | started
  | stopped
  | queueChanged
  | trackStarted (fileName : String)
  | errorReported (message : String)
deriving DecidableEq

/-- The fields of `RtAudio::DeviceInfo` that are read. -/
structure DeviceInfo where
  name : String
  probed : Bool
  outputChannels : Int
deriving DecidableEq

/-- The host audio library as seen by the manager. `openStreamError` and
`startStreamError` say whether the host throws on the next call. -/
structure RtAudio where
  devices : List DeviceInfo
  streamOpen : Bool
  streamRunning : Bool
  openStreamError : Option String
  startStreamError : Option String
deriving DecidableEq

/-- The members of `PlaybackManager` as the constructor initialises them
and the methods use them, with the emitted signals. -/
structure PlaybackManager where
  m_activeTrack : Option TrackData
  m_activeAuxTrack : Option TrackData
  m_queuedTrack : Option TrackData
  m_queuedAuxTrack : Option TrackData
  m_activeSample : Int
  m_outChannels : Int
  m_audio : RtAudio
  m_volume : Rat
  m_fadeOutSamples : Int
  m_currFadeOut : Int
  m_fadeOutStarted : Int
  m_fadeInSamples : Int
  m_currFadeIn : Int
  m_deviceCacheDirty : Bool
  m_deviceCache : List DeviceInfo
  m_currentDevice : String
  signals : List Signal
deriving DecidableEq

/-- Which statement of the mixing loop wrote an output sample. -/
inductive OutSlot where
  | mainLeft
  | mainRight
  | auxLeft
  | auxRight
deriving DecidableEq

/-- One store `out[index] = value`. -/
structure OutWrite where
  slot : OutSlot
  index : Nat
  value : Rat
deriving DecidableEq

/-- One load `floatData().at(index)` from a vector of `size` samples;
`aux` tells the aux clip from the main clip. -/
structure SampleRead where
  aux : Bool
  index : Int
  size : Int
deriving DecidableEq

/-- The local state of one `writeNextAudioData` call: the manager, the
local `auxPlayback`, the stores to `out` and the loads from the clips so
far, and the value of the local `volume` at each frame written so far. -/
structure LoopState where
  pm : PlaybackManager
  auxPlayback : Bool
  out : List OutWrite
  reads : List SampleRead
  gains : List Rat
deriving DecidableEq

/-- The result of one frame of the loop: `return code` or the next iteration. -/
inductive FrameResult where
  | ret (code : Int) (st : LoopState)
  | next (st : LoopState)
deriving DecidableEq

/-- The return value of the callback with everything it left behind. -/
structure CallbackResult where
  code : Int
  st : LoopState
deriving DecidableEq

/-! ## Machine arithmetic -/

/-- A value of `int` after 32-bit two's complement wraparound. -/
def wrapInt32 (x : Int) : Int := (x + 2147483648) % 4294967296 - 2147483648

/-- The conversion `int` to `unsigned int`. -/
def toUInt32 (x : Int) : Nat := (x % 4294967296).toNat

/-- The index `i*m_outChannels + k` in `unsigned int` arithmetic. -/
def outIndex (i : Nat) (outChannels : Int) (k : Nat) : Nat :=
  (i * toUInt32 outChannels + k) % 4294967296

/-- The ratio `float(a * a) / float(b * b)` of two `int` values. -/
def fadeRatio (a b : Int) : Rat :=
  (wrapInt32 (a * a) : Rat) / (wrapInt32 (b * b) : Rat)

/-! ## Accessors through the shared pointers -/

/-- The vector `track->buffer()->floatData()`. -/
def floatDataOf (track : Option TrackData) : List Rat :=
  match track with
  | some t =>
    match t.buffer with
    | some b => b.floatData
    | none => []
  | none => []

/-- The value `track->buffer()->floatData().size()`. -/
def sampleCount (track : Option TrackData) : Int := ((floatDataOf track).length : Int)

/-- The value `track->buffer()->numChannels()`. -/
def numChannelsOf (track : Option TrackData) : Int :=
  match track with
  | some t =>
    match t.buffer with
    | some b => b.numChannels
    | none => 0
  | none => 0

/-- The value `track->autoStop()`. -/
def autoStopOf (track : Option TrackData) : Bool :=
  match track with
  | some t => t.autoStop
  | none => false

/-- The load `floatData().at(i)`. -/
def sampleAt (data : List Rat) (i : Int) : Rat :=
  if 0 ≤ i then data.getD i.toNat 0 else 0

/-! ## Operations of `PlaybackManager` -/

/-- The constructor. -/
def init (host : RtAudio) : PlaybackManager :=
  { m_activeTrack := none, m_activeAuxTrack := none,
    m_queuedTrack := none, m_queuedAuxTrack := none,
    m_activeSample := 0, m_outChannels := 2, m_audio := host, m_volume := 1,
    m_fadeOutSamples := 0, m_currFadeOut := 0, m_fadeOutStarted := 0,
    m_fadeInSamples := 0, m_currFadeIn := 0,
    m_deviceCacheDirty := true, m_deviceCache := [], m_currentDevice := "",
    signals := [] }

/-- Append one signal (`emit`). -/
def emit (s : PlaybackManager) (sig : Signal) : PlaybackManager :=
  { s with signals := s.signals ++ [sig] }

/-- Modelled from the spec: `reportError(message)`, declared outside the
sources; failures are reported to the caller, here as one more signal. -/
def reportError (s : PlaybackManager) (message : String) : PlaybackManager :=
  emit s (Signal.errorReported message)

/-- The method `PlaybackManager::trackOk`. -/
def trackOk (track : Option TrackData) : Bool :=
  match track with
  | none => false
  | some t =>
    match t.buffer with
    | none => false
    | some b => decide ((b.floatData.length : Int) > 512)

/-- The method `PlaybackManager::checkQueue`. -/
def checkQueue (s : PlaybackManager) : PlaybackManager :=
  let s1 := { s with m_activeTrack := none, m_activeAuxTrack := none }
  match s1.m_queuedTrack with
  | some t =>
    let s2 := { s1 with
      m_activeTrack := some t,
      m_activeAuxTrack := s1.m_queuedAuxTrack,
      m_activeSample := 0,
      m_queuedTrack := none,
      m_queuedAuxTrack := none }
    emit (emit s2 (Signal.trackStarted t.fileName)) Signal.queueChanged
  | none => emit s1 Signal.queueChanged

/-- The method `PlaybackManager::endPlayback`; the returned code is `1`. -/
def endPlayback (s : PlaybackManager) : PlaybackManager :=
  emit { s with m_fadeOutStarted := 0, m_fadeOutSamples := 0, m_currFadeOut := 0 }
    Signal.stopped

/-- The method `PlaybackManager::start`. -/
def start (s : PlaybackManager) (fadeInSamples : Int) : PlaybackManager :=
  if s.m_audio.streamOpen && !s.m_audio.streamRunning then
    let s1 := { s with m_fadeInSamples := fadeInSamples, m_currFadeIn := 0 }
    match s1.m_audio.startStreamError with
    | none =>
      emit { s1 with m_audio := { s1.m_audio with streamRunning := true } } Signal.started
    | some msg => reportError s1 ("Error starting audio stream: " ++ msg)
  else s

/-- The method `PlaybackManager::stop`. -/
def stop (s : PlaybackManager) (fadeOutSamples : Int) : PlaybackManager :=
  if s.m_audio.streamOpen && s.m_audio.streamRunning then
    if s.m_fadeOutStarted = 0 then
      let s1 := { s with
        m_fadeOutStarted := 1, m_fadeOutSamples := fadeOutSamples, m_currFadeOut := 0 }
      if fadeOutSamples = 0 then
        emit { s1 with
          m_fadeOutStarted := 0,
          m_audio := { s1.m_audio with streamRunning := false } } Signal.stopped
      else s1
    else s
  else s

/-- The method `PlaybackManager::abort`. -/
def abort (s : PlaybackManager) : PlaybackManager :=
  if s.m_audio.streamOpen && s.m_audio.streamRunning then
    emit { s with m_audio := { s.m_audio with streamRunning := false } } Signal.stopped
  else s

/-- The method `PlaybackManager::isRunning`. -/
def isRunning (s : PlaybackManager) : Bool := s.m_audio.streamRunning

/-- The method `PlaybackManager::close`. -/
def close (s : PlaybackManager) : PlaybackManager :=
  if s.m_audio.streamOpen then
    let s1 := abort s
    emit { s1 with m_audio := { s1.m_audio with streamOpen := false, streamRunning := false } }
      Signal.closed
  else s

/-- The method `PlaybackManager::getDevices`: the manager afterwards and the names. -/
def getDevices (s : PlaybackManager) : PlaybackManager × List String :=
  let s1 :=
    if s.m_deviceCacheDirty then
      { s with
        m_deviceCache := s.m_audio.devices.filter (fun info => info.probed),
        m_deviceCacheDirty := false }
    else s
  (s1, s1.m_deviceCache.map (fun device => device.name))

/-- The method `PlaybackManager::pollDevices`. -/
def pollDevices (s : PlaybackManager) : PlaybackManager × List String :=
  getDevices { s with m_deviceCacheDirty := true }

/-- The method `PlaybackManager::openDevice`: the manager afterwards and the returned flag. -/
def openDevice (s : PlaybackManager) (deviceName : String) : PlaybackManager × Bool :=
  let s1 := close s
  let s2 := { s1 with m_currentDevice := "" }
  let (s3, names) := getDevices s2
  match names.indexOf? deviceName with
  | none =>
    (reportError s3 ("Requested audio device is not available: " ++ deviceName), false)
  | some idx =>
    let info := s3.m_deviceCache.getD idx ⟨"", false, 0⟩
    let s4 := { s3 with m_outChannels := if info.outputChannels ≥ 4 then 4 else 2 }
    match s4.m_audio.openStreamError with
    | none =>
      (emit { s4 with
          m_audio := { s4.m_audio with streamOpen := true },
          m_currentDevice := deviceName } Signal.opened, true)
    | some msg => (reportError s4 ("Error opening audio stream: " ++ msg), false)

/-- The method `PlaybackManager::setQueuedTrack`; `start()` is called with
the default argument `fadeInSamples = 0` of the specification. -/
def setQueuedTrack (s : PlaybackManager) (queuedTrack auxTrack : Option TrackData) :
    PlaybackManager :=
  let s1 := { s with m_queuedTrack := queuedTrack, m_queuedAuxTrack := auxTrack }
  let s2 :=
    match s1.m_queuedTrack with
    | some t => if t.autoPlay then start s1 0 else s1
    | none => s1
  emit s2 Signal.queueChanged

/-- The method `PlaybackManager::clearActiveTrack`. -/
def clearActiveTrack (s : PlaybackManager) : PlaybackManager :=
  emit { s with m_activeTrack := none, m_activeAuxTrack := none, m_activeSample := 0 }
    Signal.queueChanged

/-- The method `PlaybackManager::setOutChannels`. -/
def setOutChannels (s : PlaybackManager) (outChannels : Int) : PlaybackManager :=
  { s with m_outChannels := outChannels }

/-- The method `PlaybackManager::setVolume`. -/
def setVolume (s : PlaybackManager) (volume : Rat) : PlaybackManager :=
  { s with m_volume := volume }

/-! ## The mixing callback -/

/-- The test `m_outChannels == 4 && trackOk(m_activeAuxTrack)`. -/
def auxPlaybackOf (s : PlaybackManager) : Bool :=
  decide (s.m_outChannels = 4) && trackOk s.m_activeAuxTrack

/-- The read offset of a frame: `m_activeSample`, plus
`m_currFadeOut * numChannels` while a fade-out is armed. -/
def readOffset (s : PlaybackManager) : Int :=
  if s.m_fadeOutStarted = 1 then
    s.m_activeSample + s.m_currFadeOut * numChannelsOf s.m_activeTrack
  else s.m_activeSample

/-- The result of the bounds check of a frame: `stopHere` for the two
`return endPlayback()` exits, else the manager, the read offset and the
aux flag the frame goes on with. -/
inductive BoundsResult where
  | stopHere (pm : PlaybackManager)
  | goOn (pm : PlaybackManager) (sample : Int) (auxPlayback : Bool)
deriving DecidableEq

/-- The bounds check at the head of a frame, with the promotion at the end
of the clip. -/
def frameBounds (s : PlaybackManager) (auxPlayback : Bool) : BoundsResult :=
  let sample := readOffset s
  if sample + 1 > sampleCount s.m_activeTrack then
    let s1 := checkQueue { s with m_activeSample := 0 }
    if !trackOk s1.m_activeTrack then
      BoundsResult.stopHere (endPlayback s1)
    else if s1.m_activeTrack.isSome && autoStopOf s1.m_activeTrack then
      BoundsResult.stopHere (endPlayback s1)
    else
      BoundsResult.goOn s1 0 (auxPlaybackOf s1)
  else
    BoundsResult.goOn s sample auxPlayback

/-- The fade-in part of the gain of a frame: the manager with the counter
advanced, and the volume. -/
def fadeInVolume (s : PlaybackManager) : PlaybackManager × Rat :=
  if s.m_currFadeIn < s.m_fadeInSamples then
    let s1 := { s with m_currFadeIn := s.m_currFadeIn + 1 }
    (s1, s.m_volume * fadeRatio s1.m_currFadeIn s1.m_fadeInSamples)
  else (s, s.m_volume)

/-- The gain of a frame; `none` is the exit `return endPlayback()` taken
when the fade-out counter has reached its length. -/
def frameVolume (s : PlaybackManager) : PlaybackManager × Option Rat :=
  let (s1, volume) := fadeInVolume s
  if s1.m_fadeOutStarted = 1 then
    if s1.m_currFadeOut < s1.m_fadeOutSamples then
      let s2 := { s1 with m_currFadeOut := s1.m_currFadeOut + 1 }
      let reduction := fadeRatio s2.m_currFadeOut s2.m_fadeOutSamples
      (s2, some (volume * (1 - reduction)))
    else (s1, none)
  else (s1, some volume)

/-- The stores of a frame on the main bus, and its loads. -/
def mainOutput (s : PlaybackManager) (i : Nat) (sample : Int) (volume : Rat) :
    List OutWrite × List SampleRead :=
  let data := floatDataOf s.m_activeTrack
  let left := sampleAt data sample * volume
  if numChannelsOf s.m_activeTrack < 2 then
    ([⟨OutSlot.mainLeft, outIndex i s.m_outChannels 0, left⟩,
      ⟨OutSlot.mainRight, outIndex i s.m_outChannels 1, left⟩],
     [⟨false, sample, sampleCount s.m_activeTrack⟩])
  else
    ([⟨OutSlot.mainLeft, outIndex i s.m_outChannels 0, left⟩,
      ⟨OutSlot.mainRight, outIndex i s.m_outChannels 1, sampleAt data (sample + 1) * volume⟩],
     [⟨false, sample, sampleCount s.m_activeTrack⟩, ⟨false, sample + 1, sampleCount s.m_activeTrack⟩])

/-- The aux read offset of a frame. -/
def auxOffset (s : PlaybackManager) (sample : Int) : Int :=
  Int.tmod (Int.tdiv sample (numChannelsOf s.m_activeTrack) * numChannelsOf s.m_activeAuxTrack)
    (sampleCount s.m_activeAuxTrack)

/-- The stores of a frame on the aux bus, and its loads. -/
def auxOutput (s : PlaybackManager) (i : Nat) (sample : Int) (volume : Rat) :
    List OutWrite × List SampleRead :=
  let data := floatDataOf s.m_activeAuxTrack
  let auxSample := auxOffset s sample
  let left := sampleAt data auxSample * volume
  if numChannelsOf s.m_activeAuxTrack < 2 then
    ([⟨OutSlot.auxLeft, outIndex i s.m_outChannels 2, left⟩,
      ⟨OutSlot.auxRight, outIndex i s.m_outChannels 3, left⟩],
     [⟨true, auxSample, sampleCount s.m_activeAuxTrack⟩])
  else
    ([⟨OutSlot.auxLeft, outIndex i s.m_outChannels 2, left⟩,
      ⟨OutSlot.auxRight, outIndex i s.m_outChannels 3,
        sampleAt data (auxSample + 1) * volume⟩],
     [⟨true, auxSample, sampleCount s.m_activeAuxTrack⟩,
      ⟨true, auxSample + 1, sampleCount s.m_activeAuxTrack⟩])

/-- The cursor advance that ends a frame. -/
def advanceCursor (s : PlaybackManager) : PlaybackManager :=
  if s.m_fadeOutStarted ≠ 1 then
    { s with m_activeSample := s.m_activeSample + numChannelsOf s.m_activeTrack }
  else s

/-- The tail of an iteration, from the first store to the cursor advance. -/
def frameOutput (st : LoopState) (pm : PlaybackManager) (auxPlayback : Bool) (i : Nat)
    (sample : Int) (volume : Rat) : LoopState :=
  let main := mainOutput pm i sample volume
  let auxOut := if auxPlayback then auxOutput pm i sample volume else ([], [])
  { pm := advanceCursor pm,
    auxPlayback := auxPlayback,
    out := st.out ++ main.1 ++ auxOut.1,
    reads := st.reads ++ main.2 ++ auxOut.2,
    gains := st.gains ++ [volume] }

/-- One iteration `i` of the loop of `writeNextAudioData`. -/
def frame (st : LoopState) (i : Nat) : FrameResult :=
  match frameBounds st.pm st.auxPlayback with
  | BoundsResult.stopHere pm => FrameResult.ret 1 { st with pm := pm }
  | BoundsResult.goOn pm sample auxPlayback =>
    match frameVolume pm with
    | (pm1, none) =>
      FrameResult.ret 1 { st with pm := endPlayback pm1, auxPlayback := auxPlayback }
    | (pm1, some volume) =>
      FrameResult.next (frameOutput st pm1 auxPlayback i sample volume)

/-- The loop `for (i; i < nFrames; i++)`, with `remaining = nFrames - i`. -/
def frameLoop : Nat → Nat → LoopState → CallbackResult
  | 0, _, st => ⟨0, st⟩
  | remaining + 1, i, st =>
    match frame st i with
    | FrameResult.ret code st1 => ⟨code, st1⟩
    | FrameResult.next st1 => frameLoop remaining (i + 1) st1

/-- The method `PlaybackManager::writeNextAudioData`. -/
def writeNextAudioData (s : PlaybackManager) (nFrames : Nat) : CallbackResult :=
  let s1 := if s.m_activeTrack.isNone then checkQueue s else s
  if !trackOk s1.m_activeTrack then
    ⟨1, { pm := endPlayback s1, auxPlayback := false, out := [], reads := [], gains := [] }⟩
  else
    frameLoop nFrames 0
      { pm := s1, auxPlayback := auxPlaybackOf s1, out := [], reads := [], gains := [] }

/-- The function `playbackCallback`: the host calls it and stops the stream on a
non-zero return. -/
def playbackCallback (s : PlaybackManager) (nFrames : Nat) : CallbackResult :=
  writeNextAudioData s nFrames

/-! ## Derived definitions used in the statements -/

/-- The manager after a frame that plays with no fade-out armed. -/
def played (s : PlaybackManager) : PlaybackManager :=
  { s with
    m_activeSample := s.m_activeSample + numChannelsOf s.m_activeTrack,
    m_currFadeIn :=
      if s.m_currFadeIn < s.m_fadeInSamples then s.m_currFadeIn + 1 else s.m_currFadeIn }

/-- A stereo clip of `n` samples, all `1`. -/
def stereoClip (n : Nat) (autoStop : Bool) : TrackData :=
  ⟨"clip.wav", some ⟨List.replicate n 1, 2⟩, false, autoStop⟩

/-- A running manager on a 2-channel device with `active` playing from `cursor`. -/
def playing (active queued : Option TrackData) (cursor : Int) : PlaybackManager :=
  { init ⟨[], true, true, none, none⟩ with
    m_activeTrack := active, m_queuedTrack := queued, m_activeSample := cursor }

/-- The local state at the head of the loop, for the manager `s`. -/
@[reducible] def entry (s : PlaybackManager) : LoopState :=
  { pm := s, auxPlayback := auxPlaybackOf s, out := [], reads := [], gains := [] }

/-- Successive callbacks with the given frame counts, as the host issues
them: the stream goes on while the callback returns `0`.  The result is the
last return code and the manager. -/
def playCallbacks (s : PlaybackManager) : List Nat → Int × PlaybackManager
  | [] => (0, s)
  | n :: ns =>
    if (writeNextAudioData s n).code = 0 then
      playCallbacks (writeNextAudioData s n).st.pm ns
    else ((writeNextAudioData s n).code, (writeNextAudioData s n).st.pm)

/-- A running manager as `playing`, with a fade-out of `total` frames armed
and `elapsed` of them done. -/
def fadingOut (active queued : Option TrackData) (cursor total elapsed : Int) :
    PlaybackManager :=
  { playing active queued cursor with
    m_fadeOutStarted := 1, m_fadeOutSamples := total, m_currFadeOut := elapsed }

/-- The `volume` of the frame that advances the fade-out counter to `k`,
for master volume `v` and a fade-out of `total` frames, once the fade-in
is over. -/
def fadeOutGain (v : Rat) (total k : Int) : Rat := v * (1 - fadeRatio k total)

/-- The gains of the `n` frames that follow `elapsed` frames of fade-out. -/
def fadeOutGains (v : Rat) (total elapsed : Int) (n : Nat) : List Rat :=
  (List.range n).map (fun (j : Nat) => fadeOutGain v total (elapsed + (j : Int) + 1))

/-- The `volume` of the frame that finds the fade-in counter at `k`, for
master volume `v` and a fade-in of `total` frames, with no fade-out armed:
the counter is advanced first, the ratio is taken after. -/
def fadeInGainAt (v : Rat) (total k : Int) : Rat :=
  if k < total then v * fadeRatio (k + 1) total else v

/-- An open stream that is not running, with `active` loaded at cursor 0. -/
def loaded (active : Option TrackData) : PlaybackManager :=
  { init ⟨[], true, false, none, none⟩ with m_activeTrack := active }

/-- The stores frame `j` of a callback may do on a device with `oc`
channels: `out[j*oc]` and `out[j*oc + 1]` for the main bus, and
`out[j*oc + 2]`, `out[j*oc + 3]` for the aux bus when `oc = 4`. -/
def FrameWrite (oc : Int) (j : Nat) (w : OutWrite) : Prop :=
  (w.slot = OutSlot.mainLeft ∧ w.index = outIndex j oc 0) ∨
  (w.slot = OutSlot.mainRight ∧ w.index = outIndex j oc 1) ∨
  (oc = 4 ∧ w.slot = OutSlot.auxLeft ∧ w.index = outIndex j oc 2) ∨
  (oc = 4 ∧ w.slot = OutSlot.auxRight ∧ w.index = outIndex j oc 3)

/-- A running manager on a 2-channel device with a main clip and an aux
clip attached. -/
def playingWithAux (active aux : Option TrackData) (cursor : Int) : PlaybackManager :=
  { playing active none cursor with m_activeAuxTrack := aux }

/-- A running manager with an empty active slot and `queued` in the queue,
in the middle of a fade-in (50 of 200 frames) with a fade-out armed (100 of
300 frames). -/
def midFade (queued queuedAux : Option TrackData) : PlaybackManager :=
  { fadingOut none queued 0 300 100 with
    m_queuedAuxTrack := queuedAux, m_fadeInSamples := 200, m_currFadeIn := 50 }

/-! ## Reachable states -/

/-- One callback issued by the host: the manager after
`playbackCallback`, with the stream stopped by the host when the callback
returned non-zero. -/
def hostCallback (s : PlaybackManager) (nFrames : Nat) : PlaybackManager :=
  if (playbackCallback s nFrames).code = 0 then (playbackCallback s nFrames).st.pm
  else
    { (playbackCallback s nFrames).st.pm with
      m_audio := { (playbackCallback s nFrames).st.pm.m_audio with streamRunning := false } }

/-- The operations that take a manager to its next state: the control
surface and the callback. -/
inductive Op where
  | setQueuedTrack (queuedTrack auxTrack : Option TrackData)
  | clearActiveTrack
  | start (fadeInSamples : Int)
  | stop (fadeOutSamples : Int)
  | abort
  | callback (nFrames : Nat)
  | openDevice (deviceName : String)
  | close
  | setVolume (volume : Rat)
  | setOutChannels (outChannels : Int)

/-- The manager after one operation. -/
def step (s : PlaybackManager) : Op → PlaybackManager
  | Op.setQueuedTrack queuedTrack auxTrack => setQueuedTrack s queuedTrack auxTrack
  | Op.clearActiveTrack => clearActiveTrack s
  | Op.start fadeInSamples => start s fadeInSamples
  | Op.stop fadeOutSamples => stop s fadeOutSamples
  | Op.abort => abort s
  | Op.callback nFrames => hostCallback s nFrames
  | Op.openDevice deviceName => (openDevice s deviceName).1
  | Op.close => close s
  | Op.setVolume volume => setVolume s volume
  | Op.setOutChannels outChannels => setOutChannels s outChannels

/-- The manager after a sequence of operations. -/
def run (s : PlaybackManager) (ops : List Op) : PlaybackManager := ops.foldl step s

/-- A clip that is playable, with at least one channel and a length that is
a multiple of the channel count. -/
def WellFormed (t : TrackData) : Prop :=
  trackOk (some t) = true ∧ 1 ≤ numChannelsOf (some t) ∧
    sampleCount (some t) % numChannelsOf (some t) = 0

/-- The operations whose clips are null or well formed. -/
def OpOk : Op → Prop
  | Op.setQueuedTrack queuedTrack _ => ∀ t, queuedTrack = some t → WellFormed t
  | _ => True

/-- The states reachable from a freshly constructed manager, on any host. -/
def Reachable (s : PlaybackManager) : Prop :=
  ∃ (host : RtAudio) (ops : List Op), (∀ op ∈ ops, OpOk op) ∧ run (init host) ops = s

/-- The cursor invariant: the active and the queued clip are well formed,
and the cursor is a channel-aligned offset between 0 and the length of the
active clip, the length included. -/
def CursorInv (s : PlaybackManager) : Prop :=
  (∀ t, s.m_activeTrack = some t →
    WellFormed t ∧ 0 ≤ s.m_activeSample ∧ s.m_activeSample ≤ sampleCount (some t) ∧
      s.m_activeSample % numChannelsOf (some t) = 0) ∧
  (∀ q, s.m_queuedTrack = some q → WellFormed q)

/-- A host with one 2-channel output device named `dev`. -/
def stereoHost : RtAudio := ⟨[⟨"dev", true, 2⟩], false, false, none, none⟩

/-- A session on `stereoHost`: open the device, queue a stereo clip of 1024
samples (512 frames), start, and let the host issue two callbacks of 256
frames. -/
def twoCallbacks : List Op :=
  [Op.openDevice "dev", Op.setQueuedTrack (some (stereoClip 1024 false)) none, Op.start 0,
    Op.callback 256, Op.callback 256]

/-- The loads of a frame from the main clip `track` at the read offset
`sample`: the left sample, and the right one when the clip has at least two
channels. -/
def mainLoads (track : Option TrackData) (sample : Int) : List SampleRead :=
  ⟨false, sample, sampleCount track⟩ ::
    (if numChannelsOf track < 2 then [] else [⟨false, sample + 1, sampleCount track⟩])

/-- The loads from the main clip among the recorded loads, in order. -/
def mainReads (rs : List SampleRead) : List SampleRead := rs.filter (fun r => !r.aux)

/-- The manager after a frame written during a fade-out: both fade counters
have counted the frame, the cursor has not moved. -/
def armedStep (s : PlaybackManager) : PlaybackManager :=
  { s with
    m_currFadeOut := s.m_currFadeOut + 1,
    m_currFadeIn :=
      if s.m_currFadeIn < s.m_fadeInSamples then s.m_currFadeIn + 1 else s.m_currFadeIn }

/-- The buffer of a clip, when there is one, has at least one channel and a
length that is a multiple of the channel count. -/
def BufferOk (track : Option TrackData) : Prop :=
  ∀ t b, track = some t → t.buffer = some b →
    1 ≤ b.numChannels ∧ (b.floatData.length : Int) % b.numChannels = 0

/-- A recorded load is inside the vector it reads. -/
def InBounds (r : SampleRead) : Prop := 0 ≤ r.index ∧ r.index < r.size

/-- What holds of the manager and the read offset of a frame that goes on
to load samples: the active clip is playable, the aux flag is up to date,
the buffers are well formed, the cursor and the read offset are non-negative
and channel-aligned, and the read offset is before the end. -/
def FramePre (pm : PlaybackManager) (sample : Int) (auxPlayback : Bool) : Prop :=
  trackOk pm.m_activeTrack = true ∧ auxPlayback = auxPlaybackOf pm ∧
  BufferOk pm.m_activeTrack ∧ BufferOk pm.m_activeAuxTrack ∧
  BufferOk pm.m_queuedTrack ∧ BufferOk pm.m_queuedAuxTrack ∧
  0 ≤ pm.m_activeSample ∧ pm.m_activeSample % numChannelsOf pm.m_activeTrack = 0 ∧
  0 ≤ pm.m_currFadeOut ∧
  0 ≤ sample ∧ sample % numChannelsOf pm.m_activeTrack = 0 ∧
  sample + 1 ≤ sampleCount pm.m_activeTrack

/-- The invariant of the loop for the loads: as `FramePre`, without the
read offset. -/
def ReadInv (st : LoopState) : Prop :=
  trackOk st.pm.m_activeTrack = true ∧ st.auxPlayback = auxPlaybackOf st.pm ∧
  BufferOk st.pm.m_activeTrack ∧ BufferOk st.pm.m_activeAuxTrack ∧
  BufferOk st.pm.m_queuedTrack ∧ BufferOk st.pm.m_queuedAuxTrack ∧
  0 ≤ st.pm.m_activeSample ∧ st.pm.m_activeSample % numChannelsOf st.pm.m_activeTrack = 0 ∧
  0 ≤ st.pm.m_currFadeOut

/-- A mono clip of `n` samples, all `1`. -/
def monoClip (n : Nat) : TrackData :=
  ⟨"aux.wav", some ⟨List.replicate n 1, 1⟩, false, false⟩

/-- A running manager on a 4-channel device near the end of a stereo clip
of 600 samples (cursor 596) with a mono aux clip of 513 samples, a fade-out
armed (1 of 300 frames done), and a stereo clip of 514 samples with a stereo
aux clip of 516 samples in the queue. -/
def auxFadeEnd : PlaybackManager :=
  { fadingOut (some (stereoClip 600 false)) (some (stereoClip 514 false)) 596 300 1 with
    m_outChannels := 4,
    m_activeAuxTrack := some (monoClip 513),
    m_queuedAuxTrack := some (stereoClip 516 false) }

/-- The stream started again after `abort()`, on a manager that was
running a stereo clip of 1000 samples with a fade-out of 300 frames armed
and 100 of them done. -/
def restarted : PlaybackManager :=
  start (abort (fadingOut (some (stereoClip 1000 false)) none 0 300 100)) 0

/-- The manager after the callback has promoted a queued stereo clip of 512
samples, which `trackOk` rejects, on a running 2-channel stream. -/
def stuck : PlaybackManager :=
  hostCallback (playing none (some (stereoClip 512 false)) 0) 256

/-- A later session on `stuck`: a playable clip is queued, the stream is
started and the callback runs, a fade-out is asked for, the stream is
started again. -/
def retry : List Op :=
  [Op.setQueuedTrack (some (stereoClip 1024 false)) none, Op.start 0, Op.callback 256,
   Op.stop 10, Op.start 5]

/-- The values of the type `int`: the signed 32-bit range. -/
def FitsInt32 (x : Int) : Prop := -2147483648 ≤ x ∧ x ≤ 2147483647

/-! ## The track folder model -/

/-- The track folder as `TrackFolderModel` sees it: the names
`m_trackFolder.entryList` yields for the filter `*.wav`, files only, sorted
by name, the path `m_trackFolder.filePath(track)` of a name, and the loader
`TrackData::fromFileName`, whose definition is not among the sources and is
a parameter here; it yields a null pointer for a file it cannot load. -/
structure TrackFolder where
  entryList : List String
  filePath : String → String
  fromFileName : String → Option TrackData

/-- The members of `TrackFolderModel` that `initTrackData` sets: the list
`m_tracks` and the map `m_trackDataMap` from names to shared pointers, as a
list of pairs with one pair for a key. -/
structure TrackFolderModel where
  m_tracks : List String
  m_trackDataMap : List (String × Option TrackData)

/-- The method `QMap::contains`. -/
def mapContains (m : List (String × Option TrackData)) (key : String) : Bool :=
  m.any (fun e => e.1 == key)

/-- The method `QMap::value`: the value of the key, a null pointer (the
default-constructed value) when the map has no such key. -/
def mapValue (m : List (String × Option TrackData)) (key : String) : Option TrackData :=
  match m.find? (fun e => e.1 == key) with
  | some e => e.2
  | none => none

/-- The method `QMap::insert`: the value of an existing key is replaced. -/
def mapInsert (m : List (String × Option TrackData)) (key : String)
    (value : Option TrackData) : List (String × Option TrackData) :=
  (key, value) :: m.filter (fun e => e.1 != key)

/-- The loop `for (auto track : m_tracks)` of `initTrackData`, on the names
still to visit and the map so far. -/
def initLoop (folder : TrackFolder) :
    List String → List (String × Option TrackData) → List (String × Option TrackData)
  | [], m => m
  | track :: rest, m =>
    if !mapContains m track then
      match folder.fromFileName (folder.filePath track) with
      | none => initLoop folder rest m
      | some data => initLoop folder rest (mapInsert m track (some data))
    else initLoop folder rest m

/-- The method `TrackFolderModel::initTrackData`, without the watcher and the
model-reset notifications. -/
def initTrackData (folder : TrackFolder) (_s : TrackFolderModel) : TrackFolderModel :=
  { m_tracks := folder.entryList,
    m_trackDataMap := initLoop folder folder.entryList [] }

/-- The method `TrackFolderModel::rowCount`; `parentValid` is
`parent.isValid()`, false for the rows of the table. -/
def rowCount (s : TrackFolderModel) (parentValid : Bool) : Int :=
  if parentValid then 0 else (s.m_tracks.length : Int)

/-- The method `TrackFolderModel::getTrackData(int row)`. -/
def getTrackData (s : TrackFolderModel) (row : Int) : Option TrackData :=
  if row < 0 ∨ row ≥ (s.m_tracks.length : Int) then none
  else mapValue s.m_trackDataMap (s.m_tracks.getD row.toNat "")

/-- A folder with three names, of which `b.wav` does not load. -/
def threeFiles : TrackFolder :=
  { entryList := ["a.wav", "b.wav", "c.wav"],
    filePath := fun name => "/tracks/" ++ name,
    fromFileName := fun path =>
      if path = "/tracks/b.wav" then none else some ⟨path, none, false, false⟩ }

/-! ## The mixing callback with the index arithmetic in `int`

The definitions above take the sums and products of the read offsets as
exact integers.  The definitions below repeat the loop with every index
computation of the source (lines 248, 250, 284, 288-290, 296, 301) done in
`int`, that is wrapped to 32 bits, and hand back, next to their result, the
exact results of these computations in order, so that no overflow in a call
is a property of that list. -/

/-- The read offset of a frame in `int` arithmetic (lines 246-249): the
offset, and the exact results of the product and the sum. -/
def readOffset32 (s : PlaybackManager) : Int × List Int :=
  if s.m_fadeOutStarted = 1 then
    let product := s.m_currFadeOut * numChannelsOf s.m_activeTrack
    let sum := s.m_activeSample + wrapInt32 product
    (wrapInt32 sum, [product, sum])
  else (s.m_activeSample, [])

/-- The bounds check at the head of a frame in `int` arithmetic, with the
promotion at the end of the clip: the result, and the exact results of the
read offset and of `sample + 1`. -/
def frameBounds32 (s : PlaybackManager) (auxPlayback : Bool) : BoundsResult × List Int :=
  let sample := (readOffset32 s).1
  let ints := (readOffset32 s).2 ++ [sample + 1]
  if wrapInt32 (sample + 1) > sampleCount s.m_activeTrack then
    let s1 := checkQueue { s with m_activeSample := 0 }
    if !trackOk s1.m_activeTrack then
      (BoundsResult.stopHere (endPlayback s1), ints)
    else if s1.m_activeTrack.isSome && autoStopOf s1.m_activeTrack then
      (BoundsResult.stopHere (endPlayback s1), ints)
    else
      (BoundsResult.goOn s1 0 (auxPlaybackOf s1), ints)
  else
    (BoundsResult.goOn s sample auxPlayback, ints)

/-- The stores of a frame on the main bus and its loads, with `sample + 1`
in `int` arithmetic, and the exact result of `sample + 1`. -/
def mainOutput32 (s : PlaybackManager) (i : Nat) (sample : Int) (volume : Rat) :
    (List OutWrite × List SampleRead) × List Int :=
  let data := floatDataOf s.m_activeTrack
  let left := sampleAt data sample * volume
  if numChannelsOf s.m_activeTrack < 2 then
    (([⟨OutSlot.mainLeft, outIndex i s.m_outChannels 0, left⟩,
       ⟨OutSlot.mainRight, outIndex i s.m_outChannels 1, left⟩],
      [⟨false, sample, sampleCount s.m_activeTrack⟩]), [])
  else
    (([⟨OutSlot.mainLeft, outIndex i s.m_outChannels 0, left⟩,
       ⟨OutSlot.mainRight, outIndex i s.m_outChannels 1,
         sampleAt data (wrapInt32 (sample + 1)) * volume⟩],
      [⟨false, sample, sampleCount s.m_activeTrack⟩,
       ⟨false, wrapInt32 (sample + 1), sampleCount s.m_activeTrack⟩]), [sample + 1])

/-- The aux read offset of a frame in `int` arithmetic (lines 288-290): the
offset, and the exact results of the quotient and the product. -/
def auxOffset32 (s : PlaybackManager) (sample : Int) : Int × List Int :=
  let quotient := Int.tdiv sample (numChannelsOf s.m_activeTrack)
  let product := wrapInt32 quotient * numChannelsOf s.m_activeAuxTrack
  (Int.tmod (wrapInt32 product) (sampleCount s.m_activeAuxTrack), [quotient, product])

/-- The stores of a frame on the aux bus and its loads in `int` arithmetic,
and the exact results of the aux offset and of `auxSample + 1`. -/
def auxOutput32 (s : PlaybackManager) (i : Nat) (sample : Int) (volume : Rat) :
    (List OutWrite × List SampleRead) × List Int :=
  let data := floatDataOf s.m_activeAuxTrack
  let auxSample := (auxOffset32 s sample).1
  let left := sampleAt data auxSample * volume
  if numChannelsOf s.m_activeAuxTrack < 2 then
    (([⟨OutSlot.auxLeft, outIndex i s.m_outChannels 2, left⟩,
       ⟨OutSlot.auxRight, outIndex i s.m_outChannels 3, left⟩],
      [⟨true, auxSample, sampleCount s.m_activeAuxTrack⟩]), (auxOffset32 s sample).2)
  else
    (([⟨OutSlot.auxLeft, outIndex i s.m_outChannels 2, left⟩,
       ⟨OutSlot.auxRight, outIndex i s.m_outChannels 3,
         sampleAt data (wrapInt32 (auxSample + 1)) * volume⟩],
      [⟨true, auxSample, sampleCount s.m_activeAuxTrack⟩,
       ⟨true, wrapInt32 (auxSample + 1), sampleCount s.m_activeAuxTrack⟩]),
     (auxOffset32 s sample).2 ++ [auxSample + 1])

/-- The cursor advance that ends a frame in `int` arithmetic (line 301), and
the exact result of the sum. -/
def advanceCursor32 (s : PlaybackManager) : PlaybackManager × List Int :=
  if s.m_fadeOutStarted ≠ 1 then
    ({ s with m_activeSample := wrapInt32 (s.m_activeSample + numChannelsOf s.m_activeTrack) },
     [s.m_activeSample + numChannelsOf s.m_activeTrack])
  else (s, [])

/-- The tail of an iteration in `int` arithmetic, from the first store to
the cursor advance. -/
def frameOutput32 (st : LoopState) (pm : PlaybackManager) (auxPlayback : Bool) (i : Nat)
    (sample : Int) (volume : Rat) : LoopState × List Int :=
  let main := mainOutput32 pm i sample volume
  let auxOut := if auxPlayback then auxOutput32 pm i sample volume else (([], []), [])
  ({ pm := (advanceCursor32 pm).1,
     auxPlayback := auxPlayback,
     out := st.out ++ main.1.1 ++ auxOut.1.1,
     reads := st.reads ++ main.1.2 ++ auxOut.1.2,
     gains := st.gains ++ [volume] },
   main.2 ++ auxOut.2 ++ (advanceCursor32 pm).2)

/-- One iteration `i` of the loop of `writeNextAudioData` in `int`
arithmetic. -/
def frame32 (st : LoopState) (i : Nat) : FrameResult × List Int :=
  match frameBounds32 st.pm st.auxPlayback with
  | (BoundsResult.stopHere pm, ints) => (FrameResult.ret 1 { st with pm := pm }, ints)
  | (BoundsResult.goOn pm sample auxPlayback, ints) =>
    match frameVolume pm with
    | (pm1, none) =>
      (FrameResult.ret 1 { st with pm := endPlayback pm1, auxPlayback := auxPlayback }, ints)
    | (pm1, some volume) =>
      (FrameResult.next (frameOutput32 st pm1 auxPlayback i sample volume).1,
       ints ++ (frameOutput32 st pm1 auxPlayback i sample volume).2)

/-- The loop `for (i; i < nFrames; i++)` in `int` arithmetic, with
`remaining = nFrames - i`. -/
def frameLoop32 : Nat → Nat → LoopState → CallbackResult × List Int
  | 0, _, st => (⟨0, st⟩, [])
  | remaining + 1, i, st =>
    match frame32 st i with
    | (FrameResult.ret code st1, ints) => (⟨code, st1⟩, ints)
    | (FrameResult.next st1, ints) =>
      ((frameLoop32 remaining (i + 1) st1).1, ints ++ (frameLoop32 remaining (i + 1) st1).2)

/-- The method `PlaybackManager::writeNextAudioData` with the index
arithmetic in `int`: the result, and the exact results of the index
computations of the call. -/
def writeNextAudioData32 (s : PlaybackManager) (nFrames : Nat) : CallbackResult × List Int :=
  let s1 := if s.m_activeTrack.isNone then checkQueue s else s
  if !trackOk s1.m_activeTrack then
    (⟨1, { pm := endPlayback s1, auxPlayback := false, out := [], reads := [], gains := [] }⟩,
     [])
  else
    frameLoop32 nFrames 0
      { pm := s1, auxPlayback := auxPlaybackOf s1, out := [], reads := [], gains := [] }

/-- A running stereo clip of 1000 samples at cursor 0 with a fade-out armed
whose counter is at `2^30`. -/
def fadeWrap : PlaybackManager :=
  fadingOut (some (stereoClip 1000 false)) none 0 2147483647 1073741824

/-- A running mono clip of 1000 samples, no fade-out armed, with the cursor
at the largest `int`. -/
def cursorWrap : PlaybackManager := playing (some (monoClip 1000)) none 2147483647

/-! ## The mutex

Every method is given the sequence of what it does to `m_mutex` and to the
members behind the play state, in the order of the source, for the branch
the method takes in the given state. -/

/-- The members of `PlaybackManager` behind the play state: the active and
the queued pair, the cursor and the five fade members. -/
inductive Member where
  | activeTrack
  | activeAuxTrack
  | queuedTrack
  | queuedAuxTrack
  | activeSample
  | fadeOutSamples
  | currFadeOut
  | fadeOutStarted
  | fadeInSamples
  | currFadeIn
deriving DecidableEq

/-- A read or a write of a member. -/
inductive Access where
  | read (m : Member)
  | write (m : Member)
deriving DecidableEq

/-- What a method does, as far as the mutex is concerned: `m_mutex.lock()`
(or the constructor of a `QMutexLocker`), `m_mutex.unlock()` (or its
destructor), or an access. -/
inductive Event where
  | lock
  | unlock
  | access (a : Access)
deriving DecidableEq

/-- The accesses of `start` (lines 113-115). -/
def startAccesses (s : PlaybackManager) : List Access :=
  if s.m_audio.streamOpen && !s.m_audio.streamRunning then
    [Access.write Member.fadeInSamples, Access.write Member.currFadeIn]
  else []

/-- The events of `start`: it does not touch the mutex. -/
def startEvents (s : PlaybackManager) : List Event := (startAccesses s).map Event.access

/-- The accesses of `stop` (lines 128-135). -/
def stopAccesses (s : PlaybackManager) (fadeOutSamples : Int) : List Access :=
  if s.m_audio.streamOpen && s.m_audio.streamRunning then
    Access.read Member.fadeOutStarted ::
      (if s.m_fadeOutStarted = 0 then
        [Access.write Member.fadeOutStarted, Access.write Member.fadeOutSamples,
         Access.write Member.currFadeOut] ++
          (if fadeOutSamples = 0 then [Access.write Member.fadeOutStarted] else [])
      else [])
  else []

/-- The events of `stop`: it does not touch the mutex. -/
def stopEvents (s : PlaybackManager) (fadeOutSamples : Int) : List Event :=
  (stopAccesses s fadeOutSamples).map Event.access

/-- The events of `setQueuedTrack` (lines 163-170): the two assignments
between `lock()` and `unlock()`, then the test
`!m_queuedTrack.isNull() && m_queuedTrack->autoPlay()` and the call of
`start()`. -/
def setQueuedTrackEvents (s : PlaybackManager) (queuedTrack auxTrack : Option TrackData) :
    List Event :=
  let s1 := { s with m_queuedTrack := queuedTrack, m_queuedAuxTrack := auxTrack }
  [Event.lock, Event.access (Access.write Member.queuedTrack),
   Event.access (Access.write Member.queuedAuxTrack), Event.unlock,
   Event.access (Access.read Member.queuedTrack)] ++
    (match s1.m_queuedTrack with
     | some t =>
       Event.access (Access.read Member.queuedTrack) ::
         (if t.autoPlay then startEvents s1 else [])
     | none => [])

/-- The events of `clearActiveTrack` (lines 177-181), under a
`QMutexLocker`. -/
def clearActiveTrackEvents : List Event :=
  [Event.lock, Event.access (Access.write Member.activeTrack),
   Event.access (Access.write Member.activeAuxTrack),
   Event.access (Access.write Member.activeSample), Event.unlock]

/-- The events of the getter `activeTrack` (line 186). -/
def activeTrackEvents : List Event := [Event.access (Access.read Member.activeTrack)]

/-- The events of the getter `activeSample` (line 191). -/
def activeSampleEvents : List Event := [Event.access (Access.read Member.activeSample)]

/-- The accesses of `checkQueue` (lines 196-205). -/
def checkQueueAccesses (s : PlaybackManager) : List Access :=
  [Access.write Member.activeTrack, Access.write Member.activeAuxTrack,
   Access.read Member.queuedTrack] ++
    (if s.m_queuedTrack.isSome then
      [Access.read Member.queuedTrack, Access.write Member.activeTrack,
       Access.read Member.queuedAuxTrack, Access.write Member.activeAuxTrack,
       Access.write Member.activeSample, Access.write Member.queuedTrack,
       Access.write Member.queuedAuxTrack, Access.read Member.activeTrack]
    else [])

/-- The accesses of `endPlayback` (lines 310-312). -/
def endPlaybackAccesses : List Access :=
  [Access.write Member.fadeOutStarted, Access.write Member.fadeOutSamples,
   Access.write Member.currFadeOut]

/-- The accesses of the bounds check of a frame (lines 246-260). -/
def boundsAccesses (s : PlaybackManager) : List Access :=
  [Access.read Member.activeSample, Access.read Member.fadeOutStarted] ++
    (if s.m_fadeOutStarted = 1 then
      [Access.read Member.currFadeOut, Access.read Member.activeTrack]
    else []) ++
    [Access.read Member.activeTrack] ++
    (if readOffset s + 1 > sampleCount s.m_activeTrack then
      [Access.write Member.activeSample, Access.read Member.activeSample] ++
        checkQueueAccesses { s with m_activeSample := 0 } ++
        [Access.read Member.activeTrack] ++
        (if trackOk (checkQueue { s with m_activeSample := 0 }).m_activeTrack then
          Access.read Member.activeTrack ::
            (if autoStopOf (checkQueue { s with m_activeSample := 0 }).m_activeTrack then []
             else [Access.read Member.activeAuxTrack])
        else [])
    else [])

/-- The accesses of the gain of a frame (lines 264-271). -/
def volumeAccesses (s : PlaybackManager) : List Access :=
  [Access.read Member.currFadeIn, Access.read Member.fadeInSamples] ++
    (if s.m_currFadeIn < s.m_fadeInSamples then
      [Access.write Member.currFadeIn, Access.read Member.currFadeIn,
       Access.read Member.fadeInSamples]
    else []) ++
    [Access.read Member.fadeOutStarted] ++
    (if s.m_fadeOutStarted = 1 then
      [Access.read Member.currFadeOut, Access.read Member.fadeOutSamples] ++
        (if s.m_currFadeOut < s.m_fadeOutSamples then
          [Access.write Member.currFadeOut, Access.read Member.currFadeOut,
           Access.read Member.fadeOutSamples]
        else [])
    else [])

/-- The accesses of the stores of a frame and of the cursor advance (lines
279-301). -/
def outputAccesses (s : PlaybackManager) (auxPlayback : Bool) : List Access :=
  [Access.read Member.activeTrack] ++
    (if auxPlayback then [Access.read Member.activeTrack, Access.read Member.activeAuxTrack]
     else []) ++
    [Access.read Member.fadeOutStarted] ++
    (if s.m_fadeOutStarted ≠ 1 then
      [Access.read Member.activeTrack, Access.write Member.activeSample]
    else [])

/-- The accesses of one iteration of the loop, for the branch `frame`
takes. -/
def frameAccesses (st : LoopState) : List Access :=
  boundsAccesses st.pm ++
    (match frameBounds st.pm st.auxPlayback with
     | BoundsResult.stopHere _ => endPlaybackAccesses
     | BoundsResult.goOn pm _ auxPlayback =>
       volumeAccesses pm ++
         (match frameVolume pm with
          | (_, none) => endPlaybackAccesses
          | (pm1, some _) => outputAccesses pm1 auxPlayback))

/-- The accesses of the loop, with `remaining = nFrames - i`. -/
def frameLoopAccesses : Nat → Nat → LoopState → List Access
  | 0, _, _ => []
  | remaining + 1, i, st =>
    frameAccesses st ++
      (match frame st i with
       | FrameResult.ret _ _ => []
       | FrameResult.next st1 => frameLoopAccesses remaining (i + 1) st1)

/-- The accesses of `writeNextAudioData` (lines 235-305). -/
def writeNextAudioDataAccesses (s : PlaybackManager) (nFrames : Nat) : List Access :=
  let s1 := if s.m_activeTrack.isNone then checkQueue s else s
  [Access.read Member.activeTrack] ++
    (if s.m_activeTrack.isNone then checkQueueAccesses s else []) ++
    [Access.read Member.activeTrack] ++
    (if !trackOk s1.m_activeTrack then endPlaybackAccesses
     else
      Access.read Member.activeAuxTrack ::
        frameLoopAccesses nFrames 0
          { pm := s1, auxPlayback := auxPlaybackOf s1, out := [], reads := [], gains := [] })

/-- The events of `writeNextAudioData`: its accesses under the
`QMutexLocker` of line 232, which unlocks at every return. -/
def writeNextAudioDataEvents (s : PlaybackManager) (nFrames : Nat) : List Event :=
  Event.lock :: (writeNextAudioDataAccesses s nFrames).map Event.access ++ [Event.unlock]

/-- The accesses a sequence of events makes while the mutex is not held;
`held` tells whether it is held at the start. -/
def unguarded : Bool → List Event → List Access
  | _, [] => []
  | _, Event.lock :: es => unguarded true es
  | _, Event.unlock :: es => unguarded false es
  | held, Event.access a :: es => if held then unguarded held es else a :: unguarded held es

/-! # Theorems -/

/-! ## Basic facts about one frame -/

theorem fadeInVolume_fst (s : PlaybackManager) :
    (fadeInVolume s).1 =
      { s with m_currFadeIn :=
          if s.m_currFadeIn < s.m_fadeInSamples then s.m_currFadeIn + 1 else s.m_currFadeIn } := by
  unfold fadeInVolume
  split <;> rfl

theorem frameBounds_inside (s : PlaybackManager) (auxPlayback : Bool)
    (h : readOffset s + 1 ≤ sampleCount s.m_activeTrack) :
    frameBounds s auxPlayback = BoundsResult.goOn s (readOffset s) auxPlayback := by
  unfold frameBounds
  simp [not_lt.mpr h]

theorem readOffset_noFadeOut (s : PlaybackManager) (h : s.m_fadeOutStarted ≠ 1) :
    readOffset s = s.m_activeSample := by
  simp [readOffset, h]

theorem frameVolume_noFadeOut (s : PlaybackManager) (h : s.m_fadeOutStarted ≠ 1) :
    frameVolume s = ((fadeInVolume s).1, some (fadeInVolume s).2) := by
  have h1 : (fadeInVolume s).1.m_fadeOutStarted ≠ 1 := by
    rw [fadeInVolume_fst]; exact h
  unfold frameVolume
  simp [h1]

theorem advanceCursor_fadeInVolume (s : PlaybackManager) (h : s.m_fadeOutStarted ≠ 1) :
    advanceCursor (fadeInVolume s).1 = played s := by
  rw [fadeInVolume_fst]
  simp [advanceCursor, h, played]

/-- A frame that starts inside the clip with no fade-out armed goes on to
the next frame; it moves the cursor by one frame and may count one step of
the fade-in, and changes no other member. -/
theorem frame_play (st : LoopState) (i : Nat)
    (hfo : st.pm.m_fadeOutStarted ≠ 1)
    (hb : st.pm.m_activeSample + 1 ≤ sampleCount st.pm.m_activeTrack) :
    frame st i =
      FrameResult.next
        (frameOutput st (fadeInVolume st.pm).1 st.auxPlayback i st.pm.m_activeSample
          (fadeInVolume st.pm).2) := by
  have hb1 : readOffset st.pm + 1 ≤ sampleCount st.pm.m_activeTrack := by
    rw [readOffset_noFadeOut _ hfo]; exact hb
  unfold frame
  rw [frameBounds_inside _ _ hb1]
  simp only [frameVolume_noFadeOut _ hfo, readOffset_noFadeOut _ hfo]

theorem frameOutput_pm (st : LoopState) (pm : PlaybackManager) (aux : Bool) (i : Nat)
    (sample : Int) (volume : Rat) :
    (frameOutput st pm aux i sample volume).pm = advanceCursor pm := rfl

theorem frameOutput_auxPlayback (st : LoopState) (pm : PlaybackManager) (aux : Bool) (i : Nat)
    (sample : Int) (volume : Rat) :
    (frameOutput st pm aux i sample volume).auxPlayback = aux := rfl

theorem frameOutput_reads (st : LoopState) (pm : PlaybackManager) (aux : Bool) (i : Nat)
    (sample : Int) (volume : Rat) :
    (frameOutput st pm aux i sample volume).reads =
      st.reads ++ (mainOutput pm i sample volume).2 ++
        (if aux then auxOutput pm i sample volume else ([], [])).2 := rfl

theorem frameOutput_out (st : LoopState) (pm : PlaybackManager) (aux : Bool) (i : Nat)
    (sample : Int) (volume : Rat) :
    (frameOutput st pm aux i sample volume).out =
      st.out ++ (mainOutput pm i sample volume).1 ++
        (if aux then auxOutput pm i sample volume else ([], [])).1 := rfl

theorem frameOutput_gains (st : LoopState) (pm : PlaybackManager) (aux : Bool) (i : Nat)
    (sample : Int) (volume : Rat) :
    (frameOutput st pm aux i sample volume).gains = st.gains ++ [volume] := rfl

/-- Running `n` frames that all start inside the clip, with no fade-out
armed: the loop returns `0` and only the cursor and the fade-in counter move. -/
theorem frameLoop_play (n : Nat) :
    ∀ (i : Nat) (st : LoopState),
      st.pm.m_fadeOutStarted ≠ 1 →
      1 ≤ numChannelsOf st.pm.m_activeTrack →
      st.pm.m_activeSample + n * numChannelsOf st.pm.m_activeTrack
        ≤ sampleCount st.pm.m_activeTrack →
      (frameLoop n i st).code = 0 ∧
      (frameLoop n i st).st.auxPlayback = st.auxPlayback ∧
      (frameLoop n i st).st.pm =
        { st.pm with
          m_activeSample := st.pm.m_activeSample + n * numChannelsOf st.pm.m_activeTrack,
          m_currFadeIn := (frameLoop n i st).st.pm.m_currFadeIn } := by
  induction n with
  | zero =>
    intro i st _ _ _
    simp [frameLoop]
  | succ n ih =>
    intro i st hfo hch hb
    have hb1 : st.pm.m_activeSample + 1 ≤ sampleCount st.pm.m_activeTrack := by
      push_cast at hb
      nlinarith [Int.ofNat_nonneg n]
    have hf := frame_play st i hfo hb1
    have hpl : (frameOutput st (fadeInVolume st.pm).1 st.auxPlayback i st.pm.m_activeSample
        (fadeInVolume st.pm).2).pm = played st.pm := by
      rw [frameOutput_pm, advanceCursor_fadeInVolume _ hfo]
    obtain ⟨h1, h2, h3⟩ := ih (i + 1)
      (frameOutput st (fadeInVolume st.pm).1 st.auxPlayback i st.pm.m_activeSample
        (fadeInVolume st.pm).2)
      (by rw [hpl]; simpa [played] using hfo) (by rw [hpl]; simpa [played] using hch)
      (by
        rw [hpl]
        simp only [played]
        push_cast at hb
        linarith)
    simp only [frameLoop, hf]
    refine ⟨h1, by rw [h2, frameOutput_auxPlayback], ?_⟩
    rw [h3, hpl]
    simp only [played]
    congr 1
    push_cast
    ring

theorem trackOk_isSome (t : Option TrackData) (h : trackOk t = true) : t.isSome = true := by
  cases t with
  | none => simp [trackOk] at h
  | some t => rfl

/-- With a playable active clip the head of `writeNextAudioData` neither
promotes nor stops: the call is the loop on the unchanged manager. -/
theorem writeNextAudioData_playable (s : PlaybackManager) (N : Nat)
    (hok : trackOk s.m_activeTrack = true) :
    writeNextAudioData s N =
      frameLoop N 0 (entry s) := by
  have hsome := trackOk_isSome _ hok
  have hnone : s.m_activeTrack.isNone = false := by
    cases h : s.m_activeTrack with
    | none => simp [h] at hsome
    | some t => rfl
  simp [writeNextAudioData, hnone, hok, entry]

/-- The callback on a playable active clip with no fade-out armed and `N`
frames left in the clip. -/
theorem writeNextAudioData_play (s : PlaybackManager) (N : Nat)
    (hok : trackOk s.m_activeTrack = true)
    (hch : 1 ≤ numChannelsOf s.m_activeTrack)
    (hfit : s.m_activeSample + N * numChannelsOf s.m_activeTrack ≤ sampleCount s.m_activeTrack)
    (hfo : s.m_fadeOutStarted ≠ 1) :
    (writeNextAudioData s N).code = 0 ∧
    (writeNextAudioData s N).st.pm =
      { s with
        m_activeSample := s.m_activeSample + N * numChannelsOf s.m_activeTrack,
        m_currFadeIn := (writeNextAudioData s N).st.pm.m_currFadeIn } := by
  rw [writeNextAudioData_playable s N hok]
  have h := frameLoop_play N 0
    (entry s) hfo hch hfit
  exact ⟨h.1, h.2.2⟩

/-! ## C1 -/

/-- C1: for a playable active clip with `numChannels ≥ 1`, a cursor `c` and
a frame count `N` with `c + N * numChannels ≤ size`, and no fade-out armed,
`writeNextAudioData` returns `0`, leaves the active clip, the queued clip and
both aux clips unchanged and leaves `m_activeSample = c + N * numChannels`.
(Neither the alignment of `c` nor the divisibility of the length is needed.) -/
theorem C1_cursor_advances (s : PlaybackManager) (N : Nat)
    (hok : trackOk s.m_activeTrack = true)
    (hch : 1 ≤ numChannelsOf s.m_activeTrack)
    (hfit : s.m_activeSample + N * numChannelsOf s.m_activeTrack ≤ sampleCount s.m_activeTrack)
    (hfo : s.m_fadeOutStarted ≠ 1) :
    (writeNextAudioData s N).code = 0 ∧
    (writeNextAudioData s N).st.pm.m_activeTrack = s.m_activeTrack ∧
    (writeNextAudioData s N).st.pm.m_activeAuxTrack = s.m_activeAuxTrack ∧
    (writeNextAudioData s N).st.pm.m_queuedTrack = s.m_queuedTrack ∧
    (writeNextAudioData s N).st.pm.m_queuedAuxTrack = s.m_queuedAuxTrack ∧
    (writeNextAudioData s N).st.pm.m_activeSample =
      s.m_activeSample + N * numChannelsOf s.m_activeTrack := by
  obtain ⟨h1, h2⟩ := writeNextAudioData_play s N hok hch hfit hfo
  refine ⟨h1, ?_, ?_, ?_, ?_, ?_⟩ <;> rw [h2]

/-- C1 at a clip of 1000 stereo samples, cursor 100 and 256 frames: the
cursor ends at 612. -/
theorem C1_cursor_advances_witness :
    (writeNextAudioData (playing (some (stereoClip 1000 false)) none 100) 256).code = 0 ∧
    (writeNextAudioData (playing (some (stereoClip 1000 false)) none 100) 256).st.pm.m_activeSample
      = 612 := by
  have h := C1_cursor_advances (playing (some (stereoClip 1000 false)) none 100) 256
    (by decide) (by decide) (by decide) (by decide)
  exact ⟨h.1, h.2.2.2.2.2.trans (by decide)⟩

/-! ## Splitting the loop, and the promotion frame -/

theorem frame_ret_code (st : LoopState) (i : Nat) (code : Int) (st1 : LoopState)
    (h : frame st i = FrameResult.ret code st1) : code = 1 := by
  unfold frame at h
  split at h
  · injection h with h1 _; exact h1.symm
  · split at h
    · injection h with h1 _; exact h1.symm
    · cases h

theorem frameLoop_add (a b : Nat) :
    ∀ (i : Nat) (st : LoopState), (frameLoop a i st).code = 0 →
      frameLoop (a + b) i st = frameLoop b (i + a) (frameLoop a i st).st := by
  induction a with
  | zero => intro i st _; simp [frameLoop]
  | succ a ih =>
    intro i st h
    rw [Nat.add_right_comm]
    simp only [frameLoop] at h ⊢
    cases hf : frame st i with
    | ret code st1 =>
      rw [hf] at h
      have := frame_ret_code st i code st1 hf
      simp only at h
      omega
    | next st1 =>
      rw [hf] at h
      simp only at h ⊢
      rw [ih (i + 1) st1 h]
      congr 1
      omega

/-- The manager right after the promotion at the end of a clip. -/
theorem checkQueue_some (s : PlaybackManager) (q : TrackData) (h : s.m_queuedTrack = some q) :
    checkQueue s =
      { s with
        m_activeTrack := some q,
        m_activeAuxTrack := s.m_queuedAuxTrack,
        m_activeSample := 0,
        m_queuedTrack := none,
        m_queuedAuxTrack := none,
        signals := s.signals ++ [Signal.trackStarted q.fileName] ++ [Signal.queueChanged] } := by
  simp [checkQueue, h, emit]

theorem checkQueue_none (s : PlaybackManager) (h : s.m_queuedTrack = none) :
    checkQueue s =
      { s with
        m_activeTrack := none,
        m_activeAuxTrack := none,
        signals := s.signals ++ [Signal.queueChanged] } := by
  simp [checkQueue, h, emit]

/-- The bounds check of a frame whose read offset is past the last sample:
the cursor is reset, the queue is promoted, and the frame goes on exactly
when the promoted clip is playable and has `autoStop = false`. -/
theorem frameBounds_end (s : PlaybackManager) (auxPlayback : Bool)
    (h : sampleCount s.m_activeTrack < readOffset s + 1) :
    frameBounds s auxPlayback =
      if trackOk (checkQueue { s with m_activeSample := 0 }).m_activeTrack = true ∧
          autoStopOf (checkQueue { s with m_activeSample := 0 }).m_activeTrack = false then
        BoundsResult.goOn (checkQueue { s with m_activeSample := 0 }) 0
          (auxPlaybackOf (checkQueue { s with m_activeSample := 0 }))
      else
        BoundsResult.stopHere (endPlayback (checkQueue { s with m_activeSample := 0 })) := by
  unfold frameBounds
  simp only [gt_iff_lt, h, if_true]
  cases hok : trackOk (checkQueue { s with m_activeSample := 0 }).m_activeTrack with
  | false => simp
  | true =>
    have hsome := trackOk_isSome _ hok
    cases hstop : autoStopOf (checkQueue { s with m_activeSample := 0 }).m_activeTrack <;>
      simp [hsome]

/-- The frame at the end of the clip, with no fade-out armed and a playable
clip with `autoStop = false` in the queue: the clip is promoted and the frame
plays its first frame. -/
theorem frame_promote (st : LoopState) (i : Nat) (q : TrackData)
    (hfo : st.pm.m_fadeOutStarted ≠ 1)
    (hend : sampleCount st.pm.m_activeTrack < st.pm.m_activeSample + 1)
    (hq : st.pm.m_queuedTrack = some q)
    (hok : trackOk (some q) = true)
    (hstop : q.autoStop = false) :
    frame st i =
      FrameResult.next
        (frameOutput st (fadeInVolume (checkQueue { st.pm with m_activeSample := 0 })).1
          (auxPlaybackOf (checkQueue { st.pm with m_activeSample := 0 })) i 0
          (fadeInVolume (checkQueue { st.pm with m_activeSample := 0 })).2) := by
  have hq1 : ({ st.pm with m_activeSample := 0 } : PlaybackManager).m_queuedTrack = some q := hq
  have hcq := checkQueue_some _ q hq1
  have hact : (checkQueue { st.pm with m_activeSample := 0 }).m_activeTrack = some q := by
    rw [hcq]
  have hfo1 : (checkQueue { st.pm with m_activeSample := 0 }).m_fadeOutStarted ≠ 1 := by
    rw [hcq]; exact hfo
  have hend1 : sampleCount st.pm.m_activeTrack < readOffset st.pm + 1 := by
    rw [readOffset_noFadeOut _ hfo]; exact hend
  unfold frame
  rw [frameBounds_end _ _ hend1]
  simp only [hact, hok, autoStopOf, hstop, and_self, if_true]
  simp only [frameVolume_noFadeOut _ hfo1]

/-! ## The loop does not depend on the frame index or on the trace -/

theorem frameVolume_tracks (s : PlaybackManager) :
    (frameVolume s).1.m_activeTrack = s.m_activeTrack ∧
    (frameVolume s).1.m_activeAuxTrack = s.m_activeAuxTrack ∧
    (frameVolume s).1.m_queuedTrack = s.m_queuedTrack ∧
    (frameVolume s).1.m_queuedAuxTrack = s.m_queuedAuxTrack ∧
    (frameVolume s).1.m_outChannels = s.m_outChannels ∧
    (frameVolume s).1.m_activeSample = s.m_activeSample ∧
    (frameVolume s).1.signals = s.signals := by
  have h1 := fadeInVolume_fst s
  unfold frameVolume
  rcases hv : fadeInVolume s with ⟨s1, v⟩
  rw [hv] at h1
  simp only at h1
  subst h1
  dsimp only
  split_ifs <;> simp

theorem advanceCursor_tracks (s : PlaybackManager) :
    (advanceCursor s).m_activeTrack = s.m_activeTrack ∧
    (advanceCursor s).m_activeAuxTrack = s.m_activeAuxTrack ∧
    (advanceCursor s).m_queuedTrack = s.m_queuedTrack ∧
    (advanceCursor s).m_queuedAuxTrack = s.m_queuedAuxTrack ∧
    (advanceCursor s).m_outChannels = s.m_outChannels ∧
    (advanceCursor s).signals = s.signals := by
  unfold advanceCursor
  split_ifs <;> simp

/-- What a frame leaves in the manager and in the aux flag depends only on
the manager and the aux flag it starts from. -/
theorem frame_congr (st st1 : LoopState) (i j : Nat)
    (hpm : st.pm = st1.pm) (haux : st.auxPlayback = st1.auxPlayback) :
    (∀ code r, frame st i = FrameResult.ret code r →
      ∃ r1, frame st1 j = FrameResult.ret code r1 ∧ r.pm = r1.pm ∧
        r.auxPlayback = r1.auxPlayback) ∧
    (∀ r, frame st i = FrameResult.next r →
      ∃ r1, frame st1 j = FrameResult.next r1 ∧ r.pm = r1.pm ∧
        r.auxPlayback = r1.auxPlayback) := by
  unfold frame
  rw [← hpm, ← haux]
  cases frameBounds st.pm st.auxPlayback with
  | stopHere pm =>
    dsimp only
    constructor
    · intro code r h
      injection h with h1 h2
      exact ⟨_, by rw [h1], by rw [← h2], by rw [← h2]⟩
    · intro r h; cases h
  | goOn pm sample auxPlayback =>
    dsimp only
    rcases frameVolume pm with ⟨pm1, _ | volume⟩
    · dsimp only
      constructor
      · intro code r h
        injection h with h1 h2
        exact ⟨_, by rw [h1], by rw [← h2], by rw [← h2]⟩
      · intro r h; cases h
    · dsimp only
      constructor
      · intro code r h; cases h
      · intro r h
        injection h with h1
        exact ⟨_, rfl, by rw [← h1]; rfl, by rw [← h1]; rfl⟩

theorem frameLoop_congr (n : Nat) :
    ∀ (i j : Nat) (st st1 : LoopState),
      st.pm = st1.pm → st.auxPlayback = st1.auxPlayback →
      (frameLoop n i st).code = (frameLoop n j st1).code ∧
      (frameLoop n i st).st.pm = (frameLoop n j st1).st.pm ∧
      (frameLoop n i st).st.auxPlayback = (frameLoop n j st1).st.auxPlayback := by
  induction n with
  | zero => intro i j st st1 hpm haux; exact ⟨rfl, hpm, haux⟩
  | succ n ih =>
    intro i j st st1 hpm haux
    obtain ⟨hret, hnext⟩ := frame_congr st st1 i j hpm haux
    simp only [frameLoop]
    cases hf : frame st i with
    | ret code r =>
      obtain ⟨r1, hr1, hpm1, haux1⟩ := hret code r hf
      rw [hr1]
      exact ⟨rfl, hpm1, haux1⟩
    | next r =>
      obtain ⟨r1, hr1, hpm1, haux1⟩ := hnext r hf
      rw [hr1]
      exact ih (i + 1) (j + 1) r r1 hpm1 haux1

/-! ## What every frame that goes on leaves behind -/

theorem checkQueue_fields (s : PlaybackManager) :
    (checkQueue s).m_outChannels = s.m_outChannels ∧
    (checkQueue s).m_fadeOutStarted = s.m_fadeOutStarted ∧
    (checkQueue s).m_fadeOutSamples = s.m_fadeOutSamples ∧
    (checkQueue s).m_currFadeOut = s.m_currFadeOut ∧
    (checkQueue s).m_fadeInSamples = s.m_fadeInSamples ∧
    (checkQueue s).m_currFadeIn = s.m_currFadeIn ∧
    (checkQueue s).m_volume = s.m_volume ∧
    (checkQueue s).m_audio = s.m_audio := by
  cases h : s.m_queuedTrack with
  | none => rw [checkQueue_none s h]; simp
  | some q => rw [checkQueue_some s q h]; simp

/-- The two ways a bounds check lets the frame go on: inside the clip, on
the unchanged manager, or at its end, on the promoted clip from sample 0. -/
theorem frameBounds_goOn (s pm : PlaybackManager) (aux aux1 : Bool) (sample : Int)
    (h : frameBounds s aux = BoundsResult.goOn pm sample aux1) :
    (readOffset s + 1 ≤ sampleCount s.m_activeTrack ∧ pm = s ∧ sample = readOffset s ∧ aux1 = aux) ∨
    (sampleCount s.m_activeTrack < readOffset s + 1 ∧
      pm = checkQueue { s with m_activeSample := 0 } ∧ sample = 0 ∧
      aux1 = auxPlaybackOf pm ∧ trackOk pm.m_activeTrack = true ∧
      autoStopOf pm.m_activeTrack = false) := by
  by_cases hin : readOffset s + 1 ≤ sampleCount s.m_activeTrack
  · rw [frameBounds_inside s aux hin] at h
    injection h with e1 e2 e3
    exact Or.inl ⟨hin, e1.symm, e2.symm, e3.symm⟩
  · have hend := not_le.mp hin
    rw [frameBounds_end s aux hend] at h
    split_ifs at h with hc
    injection h with e1 e2 e3
    subst e1
    exact Or.inr ⟨hend, rfl, e2.symm, e3.symm, hc.1, hc.2⟩

/-- The active clip is playable and the aux flag is up to date after every
frame that goes on, provided they were before it. -/
theorem frame_next_ok (st st1 : LoopState) (i : Nat)
    (hok : trackOk st.pm.m_activeTrack = true)
    (haux : st.auxPlayback = auxPlaybackOf st.pm)
    (h : frame st i = FrameResult.next st1) :
    trackOk st1.pm.m_activeTrack = true ∧ st1.auxPlayback = auxPlaybackOf st1.pm := by
  unfold frame at h
  have key : ∀ pm sample aux, frameBounds st.pm st.auxPlayback = BoundsResult.goOn pm sample aux →
      trackOk pm.m_activeTrack = true ∧ aux = auxPlaybackOf pm := by
    intro pm sample aux hb
    rcases frameBounds_goOn _ _ _ _ _ hb with ⟨_, e1, _, e3⟩ | ⟨_, _, _, e3, e4, _⟩
    · subst e1
      exact ⟨hok, by rw [e3, haux]⟩
    · exact ⟨e4, e3⟩
  cases hb : frameBounds st.pm st.auxPlayback with
  | stopHere pm => rw [hb] at h; cases h
  | goOn pm sample aux =>
    rw [hb] at h
    dsimp only at h
    obtain ⟨hk1, hk2⟩ := key pm sample aux hb
    have ht := frameVolume_tracks pm
    rcases hv : frameVolume pm with ⟨pm1, _ | volume⟩
    · rw [hv] at h; cases h
    · rw [hv] at h ht
      dsimp only at h ht
      injection h with h1
      subst h1
      have ha := advanceCursor_tracks pm1
      rw [frameOutput_pm, frameOutput_auxPlayback]
      constructor
      · rw [ha.1, ht.1]; exact hk1
      · rw [hk2]
        simp only [auxPlaybackOf, ha.2.1, ha.2.2.2.2.1, ht.2.1, ht.2.2.2.2.1]

theorem frameLoop_ok (n : Nat) :
    ∀ (i : Nat) (st : LoopState),
      trackOk st.pm.m_activeTrack = true →
      st.auxPlayback = auxPlaybackOf st.pm →
      (frameLoop n i st).code = 0 →
      trackOk (frameLoop n i st).st.pm.m_activeTrack = true ∧
      (frameLoop n i st).st.auxPlayback = auxPlaybackOf (frameLoop n i st).st.pm := by
  induction n with
  | zero => intro i st hok haux _; exact ⟨hok, haux⟩
  | succ n ih =>
    intro i st hok haux hcode
    simp only [frameLoop] at hcode ⊢
    cases hf : frame st i with
    | ret code r =>
      rw [hf] at hcode
      have := frame_ret_code st i code r hf
      simp only at hcode
      omega
    | next r =>
      rw [hf] at hcode
      obtain ⟨h1, h2⟩ := frame_next_ok st r i hok haux hf
      exact ih (i + 1) r h1 h2 hcode

theorem frameLoop_add_ret (a b : Nat) :
    ∀ (i : Nat) (st : LoopState), (frameLoop a i st).code ≠ 0 →
      frameLoop (a + b) i st = frameLoop a i st := by
  induction a with
  | zero => intro i st h; simp [frameLoop] at h
  | succ a ih =>
    intro i st h
    rw [Nat.add_right_comm]
    simp only [frameLoop] at h ⊢
    cases hf : frame st i with
    | ret code st1 => rfl
    | next st1 =>
      rw [hf] at h
      exact ih (i + 1) st1 h

/-- Successive callbacks on a playable clip leave the same return code and
manager as one callback over the total number of frames. -/
theorem playCallbacks_sum (ns : List Nat) :
    ∀ (s : PlaybackManager), trackOk s.m_activeTrack = true →
      playCallbacks s ns =
        ((writeNextAudioData s ns.sum).code, (writeNextAudioData s ns.sum).st.pm) := by
  induction ns with
  | nil =>
    intro s hok
    rw [writeNextAudioData_playable s _ hok]
    simp [playCallbacks, frameLoop, entry]
  | cons n ns ih =>
    intro s hok
    simp only [playCallbacks, List.sum_cons]
    rw [writeNextAudioData_playable s n hok, writeNextAudioData_playable s (n + ns.sum) hok]
    by_cases hc : (frameLoop n 0 (entry s)).code = 0
    · obtain ⟨h1, h2⟩ := frameLoop_ok n 0 _ hok rfl hc
      rw [if_pos hc, ih _ h1, frameLoop_add n ns.sum 0 _ hc, writeNextAudioData_playable _ _ h1]
      obtain ⟨c1, c2, _⟩ := frameLoop_congr ns.sum 0 (0 + n)
        (entry (frameLoop n 0 (entry s)).st.pm) (frameLoop n 0 (entry s)).st rfl h2.symm
      rw [c1, c2]
    · rw [if_neg hc, frameLoop_add_ret n ns.sum 0 _ hc]

/-! ## The loads of the frames -/

theorem mainOutput_reads (pm : PlaybackManager) (i : Nat) (sample : Int) (volume : Rat) :
    (mainOutput pm i sample volume).2 =
      ⟨false, sample, sampleCount pm.m_activeTrack⟩ ::
        (if numChannelsOf pm.m_activeTrack < 2 then []
         else [⟨false, sample + 1, sampleCount pm.m_activeTrack⟩]) := by
  unfold mainOutput
  split_ifs <;> rfl

theorem auxOutput_reads (pm : PlaybackManager) (i : Nat) (sample : Int) (volume : Rat) :
    (auxOutput pm i sample volume).2 =
      ⟨true, auxOffset pm sample, sampleCount pm.m_activeAuxTrack⟩ ::
        (if numChannelsOf pm.m_activeAuxTrack < 2 then []
         else [⟨true, auxOffset pm sample + 1, sampleCount pm.m_activeAuxTrack⟩]) := by
  unfold auxOutput
  split_ifs <;> rfl

theorem fadeInVolume_activeTrack (s : PlaybackManager) :
    (fadeInVolume s).1.m_activeTrack = s.m_activeTrack := by
  rw [fadeInVolume_fst]

/-- The loads of `n` frames played inside the clip with no fade-out armed:
the loads from the main clip are loads from the active clip, at indices
between the cursor and the cursor after the `n` frames. -/
theorem frameLoop_play_reads (n : Nat) :
    ∀ (i : Nat) (st : LoopState),
      st.pm.m_fadeOutStarted ≠ 1 →
      1 ≤ numChannelsOf st.pm.m_activeTrack →
      st.pm.m_activeSample + n * numChannelsOf st.pm.m_activeTrack
        ≤ sampleCount st.pm.m_activeTrack →
      ∃ rs, (frameLoop n i st).st.reads = st.reads ++ rs ∧
        ∀ r ∈ rs, r.aux = false →
          r.size = sampleCount st.pm.m_activeTrack ∧ st.pm.m_activeSample ≤ r.index ∧
          r.index < st.pm.m_activeSample + n * numChannelsOf st.pm.m_activeTrack := by
  induction n with
  | zero =>
    intro i st _ _ _
    exact ⟨[], by simp [frameLoop], by simp⟩
  | succ n ih =>
    intro i st hfo hch hb
    have hn : (0 : Int) ≤ n := Int.ofNat_nonneg n
    have hb1 : st.pm.m_activeSample + 1 ≤ sampleCount st.pm.m_activeTrack := by
      push_cast at hb
      nlinarith
    have hf := frame_play st i hfo hb1
    have hpl : (frameOutput st (fadeInVolume st.pm).1 st.auxPlayback i st.pm.m_activeSample
        (fadeInVolume st.pm).2).pm = played st.pm := by
      rw [frameOutput_pm, advanceCursor_fadeInVolume _ hfo]
    simp only [frameLoop, hf]
    obtain ⟨rs, hrs, hall⟩ := ih (i + 1)
      (frameOutput st (fadeInVolume st.pm).1 st.auxPlayback i st.pm.m_activeSample
        (fadeInVolume st.pm).2)
      (by rw [hpl]; simpa [played] using hfo) (by rw [hpl]; simpa [played] using hch)
      (by
        rw [hpl]
        simp only [played]
        push_cast at hb
        linarith)
    rw [frameOutput_reads] at hrs
    rw [hpl] at hall
    refine ⟨_, by rw [hrs, List.append_assoc, List.append_assoc], ?_⟩
    intro r hr hmain
    simp only [played] at hall
    clear hrs
    rcases List.mem_append.mp hr with hr2 | hr1
    · rw [mainOutput_reads, fadeInVolume_activeTrack] at hr2
      push_cast
      rcases List.mem_cons.mp hr2 with e | hr3
      · subst e
        dsimp only
        refine ⟨rfl, le_refl _, ?_⟩
        nlinarith
      · split_ifs at hr3 with h2
        · simp at hr3
        · rcases List.mem_singleton.mp hr3 with e
          subst e
          dsimp only
          refine ⟨rfl, by linarith, ?_⟩
          nlinarith
    · rcases List.mem_append.mp hr1 with hr2 | hr2
      · split_ifs at hr2 with haux
        · rw [auxOutput_reads] at hr2
          rcases List.mem_cons.mp hr2 with e | hr3
          · subst e; simp at hmain
          · split_ifs at hr3 with h2
            · simp at hr3
            · rcases List.mem_singleton.mp hr3 with e
              subst e; simp at hmain
        · simp at hr2
      · obtain ⟨h1, h2, h3⟩ := hall r hr2 hmain
        push_cast
        refine ⟨h1, by linarith, by linarith⟩

/-! ## Playing over the end of a clip into the queued clip -/

/-- The loop over the last `a` frames of the active clip and the first
`m + 1` frames of the queued clip `q` (playable, `autoStop = false`), with
no fade-out armed. -/
theorem frameLoop_promote (a m : Nat) (i : Nat) (st : LoopState) (q : TrackData)
    (hfo : st.pm.m_fadeOutStarted ≠ 1)
    (hch : 1 ≤ numChannelsOf st.pm.m_activeTrack)
    (hexact : st.pm.m_activeSample + a * numChannelsOf st.pm.m_activeTrack
      = sampleCount st.pm.m_activeTrack)
    (hq : st.pm.m_queuedTrack = some q)
    (hqok : trackOk (some q) = true)
    (hqstop : q.autoStop = false)
    (hqch : 1 ≤ numChannelsOf (some q))
    (hfit : ((m + 1 : Nat) : Int) * numChannelsOf (some q) ≤ sampleCount (some q)) :
    (frameLoop (a + (m + 1)) i st).code = 0 ∧
    (frameLoop (a + (m + 1)) i st).st.pm =
      { st.pm with
        m_activeTrack := some q,
        m_activeAuxTrack := st.pm.m_queuedAuxTrack,
        m_activeSample := ((m + 1 : Nat) : Int) * numChannelsOf (some q),
        m_queuedTrack := none,
        m_queuedAuxTrack := none,
        signals := st.pm.signals ++ [Signal.trackStarted q.fileName] ++ [Signal.queueChanged],
        m_currFadeIn := (frameLoop (a + (m + 1)) i st).st.pm.m_currFadeIn } := by
  obtain ⟨hc, _, hpm⟩ := frameLoop_play a i st hfo hch (le_of_eq hexact)
  rw [frameLoop_add a (m + 1) i st hc]
  generalize (frameLoop a i st).st = stA at hpm
  have hfoA : stA.pm.m_fadeOutStarted ≠ 1 := by rw [hpm]; exact hfo
  have hendA : sampleCount stA.pm.m_activeTrack < stA.pm.m_activeSample + 1 := by
    rw [hpm]; dsimp only; rw [hexact]; exact Int.lt_succ_self _
  have hqA : stA.pm.m_queuedTrack = some q := by rw [hpm]; exact hq
  have hq0 : ({ stA.pm with m_activeSample := 0 } : PlaybackManager).m_queuedTrack = some q := hqA
  have hf := frame_promote stA (i + a) q hfoA hendA hqA hqok hqstop
  have hcq := checkQueue_some _ q hq0
  have hplayed : (played (checkQueue { stA.pm with m_activeSample := 0 })) =
      { st.pm with
        m_activeTrack := some q,
        m_activeAuxTrack := st.pm.m_queuedAuxTrack,
        m_activeSample := numChannelsOf (some q),
        m_queuedTrack := none,
        m_queuedAuxTrack := none,
        signals := st.pm.signals ++ [Signal.trackStarted q.fileName] ++ [Signal.queueChanged],
        m_currFadeIn := (played (checkQueue { stA.pm with m_activeSample := 0 })).m_currFadeIn } := by
    rw [hcq, hpm]; simp [played]
  have key : ∀ stB : LoopState,
      stB.pm = played (checkQueue { stA.pm with m_activeSample := 0 }) →
      (frameLoop m (i + a + 1) stB).code = 0 ∧
      (frameLoop m (i + a + 1) stB).st.pm =
        { st.pm with
          m_activeTrack := some q,
          m_activeAuxTrack := st.pm.m_queuedAuxTrack,
          m_activeSample := ((m + 1 : Nat) : Int) * numChannelsOf (some q),
          m_queuedTrack := none,
          m_queuedAuxTrack := none,
          signals := st.pm.signals ++ [Signal.trackStarted q.fileName] ++ [Signal.queueChanged],
          m_currFadeIn := (frameLoop m (i + a + 1) stB).st.pm.m_currFadeIn } := by
    intro stB hB
    rw [hplayed] at hB
    have hfoB : stB.pm.m_fadeOutStarted ≠ 1 := by rw [hB]; exact hfo
    have hactB : stB.pm.m_activeTrack = some q := by rw [hB]
    have hcurB : stB.pm.m_activeSample = numChannelsOf (some q) := by rw [hB]
    obtain ⟨c1, _, c3⟩ := frameLoop_play m (i + a + 1) stB hfoB (by rw [hactB]; exact hqch)
      (by rw [hactB, hcurB]; push_cast at hfit; linarith)
    refine ⟨c1, ?_⟩
    rw [c3, hactB, hcurB, hB]
    dsimp only
    congr 1
    push_cast
    ring
  simp only [frameLoop, hf]
  have hfo1 : (checkQueue { stA.pm with m_activeSample := 0 }).m_fadeOutStarted ≠ 1 := by
    rw [hcq]; exact hfoA
  refine key _ ?_
  rw [frameOutput_pm, advanceCursor_fadeInVolume _ hfo1]

/-! ## C2 -/

/-- C2: an active clip of `F` frames (`size = F * numChannels`) plays from
cursor `0` with no fade-out armed, and a playable clip `q` with
`autoStop = false` is queued.  Then (1) callbacks of at most `F` frames in
total return `0`, keep the old clip active and `q` queued, emit nothing and
leave the cursor at `frames * numChannels`, and every load from the main
clip within the first `F` frames is a load from the old clip; (2) frame `F`
loads sample `0` of `q`; (3) callbacks of `n > F` frames in total (while `q`
lasts) return `0`, leave `q` active with the queue slot empty, the cursor at
`(n - F) * q.numChannels`, and have emitted `trackStarted` once. -/
theorem C2_promotion_at_end_of_clip (s : PlaybackManager) (t q : TrackData) (F : Nat)
    (hact : s.m_activeTrack = some t)
    (hok : trackOk (some t) = true)
    (hch : 1 ≤ numChannelsOf (some t))
    (hF : sampleCount (some t) = F * numChannelsOf (some t))
    (hcur : s.m_activeSample = 0)
    (hfo : s.m_fadeOutStarted ≠ 1)
    (hq : s.m_queuedTrack = some q)
    (hqok : trackOk (some q) = true)
    (hqstop : q.autoStop = false)
    (hqch : 1 ≤ numChannelsOf (some q)) :
    (∀ ns : List Nat, ns.sum ≤ F →
      (playCallbacks s ns).1 = 0 ∧
      (playCallbacks s ns).2.m_activeTrack = some t ∧
      (playCallbacks s ns).2.m_queuedTrack = some q ∧
      (playCallbacks s ns).2.signals = s.signals ∧
      (playCallbacks s ns).2.m_activeSample = ns.sum * numChannelsOf (some t)) ∧
    (∀ r ∈ (writeNextAudioData s F).st.reads, r.aux = false →
      r.size = sampleCount (some t) ∧ 0 ≤ r.index ∧ r.index < sampleCount (some t)) ∧
    (∃ rest, (writeNextAudioData s (F + 1)).st.reads =
      (writeNextAudioData s F).st.reads ++ ⟨false, 0, sampleCount (some q)⟩ :: rest) ∧
    (∀ (ns : List Nat) (n : Nat), ns.sum = n → F < n →
      ((n - F : Nat) : Int) * numChannelsOf (some q) ≤ sampleCount (some q) →
      (playCallbacks s ns).1 = 0 ∧
      (playCallbacks s ns).2.m_activeTrack = some q ∧
      (playCallbacks s ns).2.m_activeAuxTrack = s.m_queuedAuxTrack ∧
      (playCallbacks s ns).2.m_queuedTrack = none ∧
      (playCallbacks s ns).2.m_queuedAuxTrack = none ∧
      (playCallbacks s ns).2.m_activeSample = ((n - F : Nat) : Int) * numChannelsOf (some q) ∧
      (playCallbacks s ns).2.signals =
        s.signals ++ [Signal.trackStarted q.fileName, Signal.queueChanged]) := by
  have hoks : trackOk s.m_activeTrack = true := by rw [hact]; exact hok
  refine ⟨?_, ?_, ?_, ?_⟩
  · intro ns hns
    rw [playCallbacks_sum ns s hoks]
    dsimp only
    obtain ⟨h1, h2⟩ := writeNextAudioData_play s ns.sum hoks (by rw [hact]; exact hch)
      (by
        rw [hact, hcur, hF, zero_add]
        have : ((ns.sum : Nat) : Int) ≤ F := by exact_mod_cast hns
        nlinarith) hfo
    refine ⟨h1, ?_, ?_, ?_, ?_⟩
    · rw [h2]; exact hact
    · rw [h2]; exact hq
    · rw [h2]
    · rw [h2]; dsimp only; rw [hact, hcur, zero_add]
  · intro r hr hmain
    rw [writeNextAudioData_playable s F hoks] at hr
    obtain ⟨rs, hrs, hall⟩ := frameLoop_play_reads F 0
      (entry s) hfo
      (by rw [hact]; exact hch) (by dsimp only; rw [hact, hcur, hF, zero_add])
    rw [hrs] at hr
    have h := hall r (by simpa using hr) hmain
    dsimp only at h
    rw [hact, hcur, zero_add, ← hF] at h
    exact h
  · rw [writeNextAudioData_playable s F hoks, writeNextAudioData_playable s (F + 1) hoks]
    obtain ⟨hc, _, hpm⟩ := frameLoop_play F 0
      (entry s) hfo
      (by rw [hact]; exact hch) (by dsimp only; rw [hact, hcur, hF, zero_add])
    rw [frameLoop_add F 1 0 _ hc]
    generalize (frameLoop F 0
      (entry s)).st = stF at hpm
    dsimp only at hpm
    have hfoF : stF.pm.m_fadeOutStarted ≠ 1 := by rw [hpm]; exact hfo
    have hendF : sampleCount stF.pm.m_activeTrack < stF.pm.m_activeSample + 1 := by
      rw [hpm]; dsimp only; rw [hact, hcur, hF, zero_add]; exact Int.lt_succ_self _
    have hqF : stF.pm.m_queuedTrack = some q := by rw [hpm]; exact hq
    have hq0 : ({ stF.pm with m_activeSample := 0 } : PlaybackManager).m_queuedTrack = some q :=
      hqF
    have hf := frame_promote stF (0 + F) q hfoF hendF hqF hqok hqstop
    have hact0 : (checkQueue { stF.pm with m_activeSample := 0 }).m_activeTrack = some q := by
      rw [checkQueue_some _ q hq0]
    simp only [frameLoop, hf, frameOutput_reads, mainOutput_reads, fadeInVolume_activeTrack,
      hact0, List.append_assoc, List.cons_append]
    exact ⟨_, rfl⟩
  · intro ns n hsum hn hfit
    rw [playCallbacks_sum ns s hoks, hsum]
    dsimp only
    obtain ⟨m, hm⟩ : ∃ m, n = F + (m + 1) := ⟨n - F - 1, by omega⟩
    have hnF : n - F = m + 1 := by omega
    rw [hnF] at hfit ⊢
    rw [hm, writeNextAudioData_playable s _ hoks]
    obtain ⟨h1, h2⟩ := frameLoop_promote F m 0
      (entry s) q hfo
      (by rw [hact]; exact hch) (by dsimp only; rw [hact, hcur, hF, zero_add]) hq hqok hqstop
      hqch hfit
    refine ⟨h1, ?_, ?_, ?_, ?_, ?_, ?_⟩ <;> rw [h2]
    simp

/-- C2 at the scenario of the specification: 1000 interleaved stereo
samples (500 frames), the same clip queued again, two callbacks of 256
frames: the clip is promoted, `trackStarted` is emitted once and the cursor
is left at 24. -/
theorem C2_promotion_at_end_of_clip_witness :
    (playCallbacks
      (playing (some (stereoClip 1000 false)) (some (stereoClip 1000 false)) 0) [256, 256]).1 = 0 ∧
    (playCallbacks
      (playing (some (stereoClip 1000 false)) (some (stereoClip 1000 false)) 0)
      [256, 256]).2.m_activeSample = 24 ∧
    (playCallbacks
      (playing (some (stereoClip 1000 false)) (some (stereoClip 1000 false)) 0)
      [256, 256]).2.signals = [Signal.trackStarted "clip.wav", Signal.queueChanged] := by
  have h := (C2_promotion_at_end_of_clip
    (playing (some (stereoClip 1000 false)) (some (stereoClip 1000 false)) 0)
    (stereoClip 1000 false) (stereoClip 1000 false) 500
    rfl (by decide) (by decide) (by decide) rfl (by decide) rfl (by decide) rfl
    (by decide)).2.2.2 [256, 256] 512 (by decide) (by decide) (by decide)
  exact ⟨h.1, h.2.2.2.2.2.1.trans (by decide), h.2.2.2.2.2.2⟩

/-! ## C3 -/

/-- The frame at the end of the clip when the queued clip is playable and
has `autoStop = true`: the clip is promoted and the callback returns `1`. -/
theorem frame_promote_stop (st : LoopState) (i : Nat) (q : TrackData)
    (hend : sampleCount st.pm.m_activeTrack < readOffset st.pm + 1)
    (hq : st.pm.m_queuedTrack = some q)
    (hok : trackOk (some q) = true)
    (hstop : q.autoStop = true) :
    frame st i =
      FrameResult.ret 1
        { st with pm := endPlayback (checkQueue { st.pm with m_activeSample := 0 }) } := by
  have hq1 : ({ st.pm with m_activeSample := 0 } : PlaybackManager).m_queuedTrack = some q := hq
  have hact : (checkQueue { st.pm with m_activeSample := 0 }).m_activeTrack = some q := by
    rw [checkQueue_some _ q hq1]
  unfold frame
  rw [frameBounds_end _ _ hend]
  simp [hact, hok, autoStopOf, hstop]

/-- C3, refuted as stated.  A stereo clip of 600 samples reaches its end at
frame 300 of a callback of 301 frames, with a playable clip queued.
(1) The ended clip has `autoStop = true`, the queued one `false`: the
callback returns `0`.  (2) The ended clip has `autoStop = false`, the queued
one `true`: the callback returns `1`.  (3) Both flags are `false` and a
fade-out of 300 frames is armed: the callback returns `1`. -/
theorem C3_counterexample :
    ((stereoClip 600 true).autoStop = true ∧
      (writeNextAudioData
        (playing (some (stereoClip 600 true)) (some (stereoClip 600 false)) 0) 301).code = 0) ∧
    ((stereoClip 600 false).autoStop = false ∧
      (writeNextAudioData
        (playing (some (stereoClip 600 false)) (some (stereoClip 600 true)) 0) 301).code = 1) ∧
    ((stereoClip 600 false).autoStop = false ∧
      (writeNextAudioData
        (fadingOut (some (stereoClip 600 false)) (some (stereoClip 600 false)) 0 300 0) 301).code
        = 1 ∧
      (writeNextAudioData
        (fadingOut (some (stereoClip 600 false)) (some (stereoClip 600 false)) 0 300 0)
        301).st.pm.signals
        = [Signal.trackStarted "clip.wav", Signal.queueChanged, Signal.stopped]) := by
  decide

/-- C3, amended: the active clip reaches its end inside `writeNextAudioData`
after `a` frames, with no fade-out armed, and a playable clip `q` is queued
(lasting for the `m + 1` frames that are left).  The callback stops, with a
non-zero return, if and only if the promoted clip `q` has `autoStop = true`;
the flag of the clip that ended is not looked at.  In both cases `q` is
the active clip afterwards. -/
theorem C3_stop_follows_promoted_clip (s : PlaybackManager) (q : TrackData) (a m : Nat)
    (hok : trackOk s.m_activeTrack = true)
    (hch : 1 ≤ numChannelsOf s.m_activeTrack)
    (hexact : s.m_activeSample + a * numChannelsOf s.m_activeTrack = sampleCount s.m_activeTrack)
    (hfo : s.m_fadeOutStarted ≠ 1)
    (hq : s.m_queuedTrack = some q)
    (hqok : trackOk (some q) = true)
    (hqch : 1 ≤ numChannelsOf (some q))
    (hfit : ((m + 1 : Nat) : Int) * numChannelsOf (some q) ≤ sampleCount (some q)) :
    ((writeNextAudioData s (a + (m + 1))).code ≠ 0 ↔ q.autoStop = true) ∧
    (writeNextAudioData s (a + (m + 1))).st.pm.m_activeTrack = some q := by
  rw [writeNextAudioData_playable s _ hok]
  cases hstop : q.autoStop with
  | false =>
    obtain ⟨h1, h2⟩ := frameLoop_promote a m 0
      (entry s) q hfo hch hexact hq
      hqok hstop hqch hfit
    refine ⟨by simp [h1], by rw [h2]⟩
  | true =>
    obtain ⟨hc, _, hpm⟩ := frameLoop_play a 0
      (entry s) hfo hch
      (le_of_eq hexact)
    rw [frameLoop_add a (m + 1) 0 _ hc]
    generalize (frameLoop a 0
      (entry s)).st = stA at hpm
    dsimp only at hpm
    have hfoA : stA.pm.m_fadeOutStarted ≠ 1 := by rw [hpm]; exact hfo
    have hendA : sampleCount stA.pm.m_activeTrack < readOffset stA.pm + 1 := by
      rw [readOffset_noFadeOut _ hfoA, hpm]; dsimp only; rw [hexact]; exact Int.lt_succ_self _
    have hqA : stA.pm.m_queuedTrack = some q := by rw [hpm]; exact hq
    have hq0 : ({ stA.pm with m_activeSample := 0 } : PlaybackManager).m_queuedTrack = some q :=
      hqA
    simp only [frameLoop, frame_promote_stop stA (0 + a) q hendA hqA hqok hstop]
    refine ⟨by simp, ?_⟩
    rw [checkQueue_some _ q hq0]
    rfl

/-- C3 amended, at two stereo clips of 600 samples: the clip that ends has
`autoStop = true`, the promoted one has not, and the callback goes on. -/
theorem C3_stop_follows_promoted_clip_witness :
    ((writeNextAudioData
        (playing (some (stereoClip 600 true)) (some (stereoClip 600 false)) 0) (300 + (0 + 1))).code
        ≠ 0 ↔ (stereoClip 600 false).autoStop = true) ∧
    (writeNextAudioData
        (playing (some (stereoClip 600 true)) (some (stereoClip 600 false)) 0)
        (300 + (0 + 1))).st.pm.m_activeTrack = some (stereoClip 600 false) :=
  C3_stop_follows_promoted_clip
    (playing (some (stereoClip 600 true)) (some (stereoClip 600 false)) 0)
    (stereoClip 600 false) 300 0 (by decide) (by decide) (by decide) (by decide) rfl
    (by decide) (by decide) (by decide)

/-! ## Frames of a fade-out -/

theorem fadeInVolume_done (s : PlaybackManager) (h : ¬ s.m_currFadeIn < s.m_fadeInSamples) :
    fadeInVolume s = (s, s.m_volume) := by
  simp [fadeInVolume, h]

theorem frameVolume_fadeOut (s : PlaybackManager)
    (hfi : ¬ s.m_currFadeIn < s.m_fadeInSamples)
    (hfo : s.m_fadeOutStarted = 1)
    (he : s.m_currFadeOut < s.m_fadeOutSamples) :
    frameVolume s =
      ({ s with m_currFadeOut := s.m_currFadeOut + 1 },
        some (fadeOutGain s.m_volume s.m_fadeOutSamples (s.m_currFadeOut + 1))) := by
  unfold frameVolume
  rw [fadeInVolume_done s hfi]
  simp [hfo, he, fadeOutGain]

theorem frameVolume_fadeOut_done (s : PlaybackManager)
    (hfi : ¬ s.m_currFadeIn < s.m_fadeInSamples)
    (hfo : s.m_fadeOutStarted = 1)
    (he : ¬ s.m_currFadeOut < s.m_fadeOutSamples) :
    frameVolume s = (s, none) := by
  unfold frameVolume
  rw [fadeInVolume_done s hfi]
  simp [hfo, he]

theorem readOffset_fadeOut (s : PlaybackManager) (h : s.m_fadeOutStarted = 1) :
    readOffset s = s.m_activeSample + s.m_currFadeOut * numChannelsOf s.m_activeTrack := by
  simp [readOffset, h]

/-- A frame of a running fade-out, inside the clip and after the fade-in:
it reads at the cursor plus `m_currFadeOut` frames, counts one step of the
fade-out and leaves the cursor where it is. -/
theorem frame_fadeOut (st : LoopState) (i : Nat)
    (hfi : ¬ st.pm.m_currFadeIn < st.pm.m_fadeInSamples)
    (hfo : st.pm.m_fadeOutStarted = 1)
    (he : st.pm.m_currFadeOut < st.pm.m_fadeOutSamples)
    (hb : readOffset st.pm + 1 ≤ sampleCount st.pm.m_activeTrack) :
    frame st i =
      FrameResult.next
        (frameOutput st { st.pm with m_currFadeOut := st.pm.m_currFadeOut + 1 } st.auxPlayback i
          (st.pm.m_activeSample + st.pm.m_currFadeOut * numChannelsOf st.pm.m_activeTrack)
          (fadeOutGain st.pm.m_volume st.pm.m_fadeOutSamples (st.pm.m_currFadeOut + 1))) := by
  unfold frame
  rw [frameBounds_inside _ _ hb]
  simp only [frameVolume_fadeOut _ hfi hfo he, readOffset_fadeOut _ hfo]

/-- The frame that finds the fade-out counter at its length, inside the
clip: `return endPlayback()` before any store. -/
theorem frame_fadeOut_done (st : LoopState) (i : Nat)
    (hfi : ¬ st.pm.m_currFadeIn < st.pm.m_fadeInSamples)
    (hfo : st.pm.m_fadeOutStarted = 1)
    (he : ¬ st.pm.m_currFadeOut < st.pm.m_fadeOutSamples)
    (hb : readOffset st.pm + 1 ≤ sampleCount st.pm.m_activeTrack) :
    frame st i = FrameResult.ret 1 { st with pm := endPlayback st.pm } := by
  unfold frame
  rw [frameBounds_inside _ _ hb]
  simp only [frameVolume_fadeOut_done _ hfi hfo he]

theorem advanceCursor_fadeOut (s : PlaybackManager) (h : s.m_fadeOutStarted = 1) :
    advanceCursor s = s := by
  simp [advanceCursor, h]

theorem fadeOutGains_succ (v : Rat) (total elapsed : Int) (n : Nat) :
    fadeOutGains v total elapsed (n + 1) =
      fadeOutGain v total (elapsed + 1) :: fadeOutGains v total (elapsed + 1) n := by
  simp only [fadeOutGains, List.range_succ_eq_map, List.map_cons, List.map_map]
  congr 1
  · simp
  · apply List.map_congr_left
    intro j _
    simp only [Function.comp, Nat.succ_eq_add_one]
    congr 1
    push_cast
    ring

/-- The loop over `n` frames of a running fade-out that has at least `n`
frames to go, inside the clip and after the fade-in: the loop returns `0`,
only the fade-out counter moves, and the frames are written with the gains
`fadeOutGains`. -/
theorem frameLoop_fadeOut (n : Nat) :
    ∀ (i : Nat) (st : LoopState),
      ¬ st.pm.m_currFadeIn < st.pm.m_fadeInSamples →
      st.pm.m_fadeOutStarted = 1 →
      0 ≤ st.pm.m_currFadeOut →
      st.pm.m_currFadeOut + n ≤ st.pm.m_fadeOutSamples →
      1 ≤ numChannelsOf st.pm.m_activeTrack →
      st.pm.m_activeSample + (st.pm.m_currFadeOut + n) * numChannelsOf st.pm.m_activeTrack
        ≤ sampleCount st.pm.m_activeTrack →
      (frameLoop n i st).code = 0 ∧
      (frameLoop n i st).st.auxPlayback = st.auxPlayback ∧
      (frameLoop n i st).st.pm = { st.pm with m_currFadeOut := st.pm.m_currFadeOut + n } ∧
      (frameLoop n i st).st.gains =
        st.gains ++ fadeOutGains st.pm.m_volume st.pm.m_fadeOutSamples st.pm.m_currFadeOut n := by
  induction n with
  | zero =>
    intro i st _ _ _ _ _ _
    simp [frameLoop, fadeOutGains]
  | succ n ih =>
    intro i st hfi hfo h0 he hch hb
    have hn : (0 : Int) ≤ n := Int.ofNat_nonneg n
    push_cast at he hb
    have he1 : st.pm.m_currFadeOut < st.pm.m_fadeOutSamples := by linarith
    have hb1 : readOffset st.pm + 1 ≤ sampleCount st.pm.m_activeTrack := by
      rw [readOffset_fadeOut _ hfo]
      nlinarith
    have hf := frame_fadeOut st i hfi hfo he1 hb1
    simp only [frameLoop, hf]
    have hadv : advanceCursor { st.pm with m_currFadeOut := st.pm.m_currFadeOut + 1 } =
        { st.pm with m_currFadeOut := st.pm.m_currFadeOut + 1 } :=
      advanceCursor_fadeOut _ hfo
    obtain ⟨h1, h2, h3, h4⟩ := ih (i + 1)
      (frameOutput st { st.pm with m_currFadeOut := st.pm.m_currFadeOut + 1 } st.auxPlayback i
        (st.pm.m_activeSample + st.pm.m_currFadeOut * numChannelsOf st.pm.m_activeTrack)
        (fadeOutGain st.pm.m_volume st.pm.m_fadeOutSamples (st.pm.m_currFadeOut + 1)))
      (by rw [frameOutput_pm, hadv]; exact hfi)
      (by rw [frameOutput_pm, hadv]; exact hfo)
      (by rw [frameOutput_pm, hadv]; dsimp only; linarith)
      (by rw [frameOutput_pm, hadv]; dsimp only; linarith)
      (by rw [frameOutput_pm, hadv]; exact hch)
      (by rw [frameOutput_pm, hadv]; dsimp only; linarith)
    refine ⟨h1, h2, ?_, ?_⟩
    · rw [h3, frameOutput_pm, hadv]
      dsimp only
      congr 1
      push_cast
      ring
    · rw [h4, frameOutput_pm, hadv, frameOutput_gains, fadeOutGains_succ, List.append_assoc]
      rfl

/-- A callback during a fade-out of `T` frames of which `e` are done, after
the fade-in, on a playable clip in which the read offsets up to the one of
elapsed `T` are inside the buffer.  With at most `T - e` frames the callback
returns `0` and advances the counter; with more it writes `T - e` frames and
returns `1` through `endPlayback` at the frame that finds the counter at
`T`.  The cursor does not move. -/
theorem writeNextAudioData_fadeOut (s : PlaybackManager) (N e T : Nat)
    (hok : trackOk s.m_activeTrack = true)
    (hch : 1 ≤ numChannelsOf s.m_activeTrack)
    (hfi : ¬ s.m_currFadeIn < s.m_fadeInSamples)
    (hfo : s.m_fadeOutStarted = 1)
    (hT : s.m_fadeOutSamples = T)
    (he : s.m_currFadeOut = e)
    (heT : e ≤ T)
    (hroom : s.m_activeSample + T * numChannelsOf s.m_activeTrack + 1
      ≤ sampleCount s.m_activeTrack) :
    (N ≤ T - e →
      (writeNextAudioData s N).code = 0 ∧
      (writeNextAudioData s N).st.pm = { s with m_currFadeOut := ((e + N : Nat) : Int) } ∧
      (writeNextAudioData s N).st.gains = fadeOutGains s.m_volume T e N) ∧
    (T - e < N →
      (writeNextAudioData s N).code = 1 ∧
      (writeNextAudioData s N).st.pm = endPlayback { s with m_currFadeOut := (T : Int) } ∧
      (writeNextAudioData s N).st.gains = fadeOutGains s.m_volume T e (T - e)) := by
  rw [writeNextAudioData_playable s N hok]
  have hloop : ∀ n : Nat, n ≤ T - e →
      (frameLoop n 0 (entry s)).code = 0 ∧
      (frameLoop n 0 (entry s)).st.auxPlayback = auxPlaybackOf s ∧
      (frameLoop n 0 (entry s)).st.pm = { s with m_currFadeOut := ((e + n : Nat) : Int) } ∧
      (frameLoop n 0 (entry s)).st.gains = fadeOutGains s.m_volume T e n := by
    intro n hn
    have hnT : ((e : Int) + n) ≤ T := by exact_mod_cast (by omega : e + n ≤ T)
    obtain ⟨h1, h2, h3, h4⟩ := frameLoop_fadeOut n 0 (entry s) hfi hfo
      (by dsimp only; rw [he]; exact Int.ofNat_nonneg e)
      (by dsimp only; rw [he, hT]; exact hnT) hch
      (by dsimp only; rw [he]; nlinarith)
    refine ⟨h1, h2, ?_, ?_⟩
    · rw [h3]; dsimp only; rw [he]; push_cast; rfl
    · rw [h4]; dsimp only; rw [hT, he]; simp
  constructor
  · intro hN
    obtain ⟨h1, _, h3, h4⟩ := hloop N hN
    exact ⟨h1, h3, h4⟩
  · intro hN
    obtain ⟨m, hm⟩ : ∃ m, N = (T - e) + (m + 1) := ⟨N - (T - e) - 1, by omega⟩
    obtain ⟨h1, _, h3, h4⟩ := hloop (T - e) (le_refl _)
    rw [hm, frameLoop_add (T - e) (m + 1) 0 _ h1]
    generalize (frameLoop (T - e) 0 (entry s)).st = stT at h3 h4
    have heq : e + (T - e) = T := by omega
    rw [heq] at h3
    have hfiT : ¬ stT.pm.m_currFadeIn < stT.pm.m_fadeInSamples := by rw [h3]; exact hfi
    have hfoT : stT.pm.m_fadeOutStarted = 1 := by rw [h3]; exact hfo
    have heT1 : ¬ stT.pm.m_currFadeOut < stT.pm.m_fadeOutSamples := by
      rw [h3]; dsimp only; rw [hT]; exact lt_irrefl _
    have hbT : readOffset stT.pm + 1 ≤ sampleCount stT.pm.m_activeTrack := by
      rw [readOffset_fadeOut _ hfoT, h3]; exact hroom
    simp only [frameLoop, frame_fadeOut_done stT _ hfiT hfoT heT1 hbT]
    exact ⟨trivial, by rw [h3], h4⟩

/-! ## The fade ratio inside and outside the `int` range -/

theorem wrapInt32_of_range (x : Int) (h0 : 0 ≤ x) (h1 : x < 2147483648) : wrapInt32 x = x := by
  unfold wrapInt32
  omega

/-- The ratio is the exact `k^2 / T^2` when the fade length is at most 46340. -/
theorem fadeRatio_exact (k T : Int) (hk0 : 0 ≤ k) (hkT : k ≤ T) (hT : T ≤ 46340) :
    fadeRatio k T = (k : Rat) ^ 2 / (T : Rat) ^ 2 := by
  have hkk : k * k < 2147483648 := by nlinarith
  have hTT : T * T < 2147483648 := by nlinarith
  unfold fadeRatio
  rw [wrapInt32_of_range _ (mul_self_nonneg k) hkk,
    wrapInt32_of_range _ (mul_self_nonneg T) hTT]
  push_cast
  ring

/-- The fade-out envelope for a fade length `0 < T ≤ 46340` and a master
volume `v > 0`: the gain at elapsed `k` is `v * (1 - k^2 / T^2)`, it
strictly decreases in `k` over `0 .. T`, and it is `0` at `k = T`. -/
theorem fadeOutGain_envelope (v : Rat) (T : Int) (hv : 0 < v) (hT0 : 0 < T) (hT : T ≤ 46340) :
    (∀ k : Int, 0 ≤ k → k ≤ T →
      fadeOutGain v T k = v * (1 - (k : Rat) ^ 2 / (T : Rat) ^ 2)) ∧
    (∀ j k : Int, 0 ≤ j → j < k → k ≤ T → fadeOutGain v T k < fadeOutGain v T j) ∧
    fadeOutGain v T T = 0 := by
  have hTq : (0 : Rat) < (T : Rat) := by exact_mod_cast hT0
  have hT2 : (0 : Rat) < (T : Rat) ^ 2 := by positivity
  have hexact : ∀ k : Int, 0 ≤ k → k ≤ T →
      fadeOutGain v T k = v * (1 - (k : Rat) ^ 2 / (T : Rat) ^ 2) := by
    intro k hk0 hkT
    unfold fadeOutGain
    rw [fadeRatio_exact k T hk0 hkT hT]
  refine ⟨hexact, ?_, ?_⟩
  · intro j k hj0 hjk hkT
    rw [hexact k (by linarith) hkT, hexact j hj0 (by linarith)]
    have hjq : (0 : Rat) ≤ (j : Rat) := by exact_mod_cast hj0
    have hjkq : (j : Rat) < (k : Rat) := by exact_mod_cast hjk
    have hsq : (j : Rat) ^ 2 < (k : Rat) ^ 2 := by nlinarith
    have hdiv : (j : Rat) ^ 2 / (T : Rat) ^ 2 < (k : Rat) ^ 2 / (T : Rat) ^ 2 :=
      div_lt_div_of_pos_right hsq hT2
    nlinarith
  · rw [hexact T (le_of_lt hT0) (le_refl _), div_self (ne_of_gt hT2)]
    ring

/-! ## C4 -/

theorem sampleCount_stereoClip (n : Nat) (b : Bool) : sampleCount (some (stereoClip n b)) = n := by
  simp [sampleCount, floatDataOf, stereoClip]

theorem trackOk_stereoClip (n : Nat) (b : Bool) (h : 512 < n) :
    trackOk (some (stereoClip n b)) = true := by
  simp [trackOk, stereoClip, h]

theorem numChannelsOf_stereoClip (n : Nat) (b : Bool) :
    numChannelsOf (some (stereoClip n b)) = 2 := rfl

/-- C4 at the failing input `stop(46341)`: a fade-out of 46341 frames is
armed on a running stereo clip of 100000 samples at cursor 0, master volume
1.  The product `46341 * 46341` leaves the `int` range and wraps to
`-2147479015`, so the frame that advances the fade-out counter to `k` is
written with the gain `1 + k^2 / 2147479015` where the claim has
`1 - k^2 / 46341^2`: the gains of the first three frames are above the
master volume and increasing, and the frame of `k = 30000` is written at
more than 1.4 times the master volume, where the claim has less than 0.6. -/
theorem C4_fadeOut_overflow :
    stop (playing (some (stereoClip 100000 false)) none 0) 46341 =
      fadingOut (some (stereoClip 100000 false)) none 0 46341 0 ∧
    wrapInt32 (46341 * 46341) = -2147479015 ∧
    (writeNextAudioData (fadingOut (some (stereoClip 100000 false)) none 0 46341 0) 3).code = 0 ∧
    (writeNextAudioData (fadingOut (some (stereoClip 100000 false)) none 0 46341 0) 3).st.gains =
      [1 + 1 / 2147479015, 1 + 4 / 2147479015, 1 + 9 / 2147479015] ∧
    (1 : Rat) < 1 + 1 / 2147479015 ∧
    (1 : Rat) + 1 / 2147479015 < 1 + 4 / 2147479015 ∧
    (writeNextAudioData
      (fadingOut (some (stereoClip 100000 false)) none 0 46341 29999) 1).st.gains =
      [1 + 900000000 / 2147479015] ∧
    (14 / 10 : Rat) < 1 + 900000000 / 2147479015 ∧
    (1 : Rat) * (1 - 30000 ^ 2 / 46341 ^ 2) < 6 / 10 := by
  have hroom : (fadingOut (some (stereoClip 100000 false)) none 0 46341 0).m_activeSample
      + ((46341 : Nat) : Int)
        * numChannelsOf (fadingOut (some (stereoClip 100000 false)) none 0 46341 0).m_activeTrack
      + 1 ≤ sampleCount (fadingOut (some (stereoClip 100000 false)) none 0 46341 0).m_activeTrack := by
    show (0 : Int) + ((46341 : Nat) : Int) * numChannelsOf (some (stereoClip 100000 false)) + 1
      ≤ sampleCount (some (stereoClip 100000 false))
    rw [sampleCount_stereoClip, numChannelsOf_stereoClip]
    decide
  have h := (writeNextAudioData_fadeOut
    (fadingOut (some (stereoClip 100000 false)) none 0 46341 0) 3 0 46341
    (trackOk_stereoClip 100000 false (by decide)) (by decide) (by decide) rfl rfl rfl
    (by decide) hroom).1 (by decide)
  have h1 := (writeNextAudioData_fadeOut
    (fadingOut (some (stereoClip 100000 false)) none 0 46341 29999) 1 29999 46341
    (trackOk_stereoClip 100000 false (by decide)) (by decide) (by decide) rfl rfl rfl
    (by decide) hroom).1 (by decide)
  have hv : (fadingOut (some (stereoClip 100000 false)) none 0 46341 0).m_volume = 1 := rfl
  have hv1 : (fadingOut (some (stereoClip 100000 false)) none 0 46341 29999).m_volume = 1 := rfl
  refine ⟨rfl, by decide, h.1, ?_, by norm_num, by norm_num, ?_, by norm_num, by norm_num⟩
  · rw [h.2.2, hv]
    norm_num [fadeOutGains, fadeOutGain, fadeRatio, wrapInt32, List.range_succ]
  · rw [h1.2.2, hv1]
    norm_num [fadeOutGains, fadeOutGain, fadeRatio, wrapInt32, List.range_succ]

/-! ## Frames of a fade-in -/

theorem fadeInVolume_snd (s : PlaybackManager) :
    (fadeInVolume s).2 = fadeInGainAt s.m_volume s.m_fadeInSamples s.m_currFadeIn := by
  unfold fadeInVolume fadeInGainAt
  split_ifs <;> rfl

/-- The gains of `n` frames played inside the clip with no fade-out armed. -/
theorem frameLoop_play_gains (n : Nat) :
    ∀ (i : Nat) (st : LoopState),
      st.pm.m_fadeOutStarted ≠ 1 →
      1 ≤ numChannelsOf st.pm.m_activeTrack →
      st.pm.m_activeSample + n * numChannelsOf st.pm.m_activeTrack
        ≤ sampleCount st.pm.m_activeTrack →
      (frameLoop n i st).st.gains =
        st.gains ++ (List.range n).map (fun (j : Nat) =>
          fadeInGainAt st.pm.m_volume st.pm.m_fadeInSamples (st.pm.m_currFadeIn + (j : Int))) := by
  induction n with
  | zero =>
    intro i st _ _ _
    simp [frameLoop]
  | succ n ih =>
    intro i st hfo hch hb
    have hn : (0 : Int) ≤ n := Int.ofNat_nonneg n
    have hb1 : st.pm.m_activeSample + 1 ≤ sampleCount st.pm.m_activeTrack := by
      push_cast at hb
      nlinarith
    have hf := frame_play st i hfo hb1
    have hpl : (frameOutput st (fadeInVolume st.pm).1 st.auxPlayback i st.pm.m_activeSample
        (fadeInVolume st.pm).2).pm = played st.pm := by
      rw [frameOutput_pm, advanceCursor_fadeInVolume _ hfo]
    simp only [frameLoop, hf]
    have h := ih (i + 1)
      (frameOutput st (fadeInVolume st.pm).1 st.auxPlayback i st.pm.m_activeSample
        (fadeInVolume st.pm).2)
      (by rw [hpl]; simpa [played] using hfo) (by rw [hpl]; simpa [played] using hch)
      (by
        rw [hpl]
        simp only [played]
        push_cast at hb
        linarith)
    rw [h, hpl, frameOutput_gains, fadeInVolume_snd, List.append_assoc]
    congr 1
    rw [List.range_succ_eq_map, List.map_cons, List.map_map]
    simp only [List.singleton_append, Nat.cast_zero, add_zero]
    congr 1
    apply List.map_congr_left
    intro j _
    simp only [played, Function.comp, Nat.succ_eq_add_one]
    have hj : (0 : Int) ≤ j := Int.ofNat_nonneg j
    unfold fadeInGainAt
    by_cases he : st.pm.m_currFadeIn < st.pm.m_fadeInSamples
    · simp only [he, if_true]
      push_cast
      rw [show st.pm.m_currFadeIn + 1 + (j : Int) = st.pm.m_currFadeIn + ((j : Int) + 1) by ring]
    · simp only [he, if_false]
      push_cast
      rw [if_neg (by linarith), if_neg (by linarith)]

theorem writeNextAudioData_play_gains (s : PlaybackManager) (N : Nat)
    (hok : trackOk s.m_activeTrack = true)
    (hch : 1 ≤ numChannelsOf s.m_activeTrack)
    (hfit : s.m_activeSample + N * numChannelsOf s.m_activeTrack ≤ sampleCount s.m_activeTrack)
    (hfo : s.m_fadeOutStarted ≠ 1) :
    (writeNextAudioData s N).st.gains =
      (List.range N).map (fun (j : Nat) =>
        fadeInGainAt s.m_volume s.m_fadeInSamples (s.m_currFadeIn + (j : Int))) := by
  rw [writeNextAudioData_playable s N hok, frameLoop_play_gains N 0 (entry s) hfo hch hfit]
  simp

/-- What `start(T)` does to an open stream that is not running: it sets the
fade-in length, resets the fade-in counter, and leaves the clips, the
cursor, the volume and the fade-out members alone. -/
theorem start_fields (s : PlaybackManager) (T : Int)
    (hopen : s.m_audio.streamOpen = true)
    (hrun : s.m_audio.streamRunning = false) :
    (start s T).m_fadeInSamples = T ∧ (start s T).m_currFadeIn = 0 ∧
    (start s T).m_activeTrack = s.m_activeTrack ∧
    (start s T).m_activeSample = s.m_activeSample ∧
    (start s T).m_volume = s.m_volume ∧
    (start s T).m_fadeOutStarted = s.m_fadeOutStarted := by
  unfold start
  simp only [hopen, hrun, Bool.not_false, Bool.and_self, if_true]
  cases s.m_audio.startStreamError <;> simp [emit, reportError]

/-- The gains of a callback after `start(T)` on an open stream that is not
running: frame `j` of the callback is written with `fadeInGainAt v T j`. -/
theorem writeNextAudioData_start_gains (s : PlaybackManager) (T : Int) (N : Nat)
    (hopen : s.m_audio.streamOpen = true)
    (hrun : s.m_audio.streamRunning = false)
    (hok : trackOk s.m_activeTrack = true)
    (hch : 1 ≤ numChannelsOf s.m_activeTrack)
    (hfit : s.m_activeSample + N * numChannelsOf s.m_activeTrack ≤ sampleCount s.m_activeTrack)
    (hfo : s.m_fadeOutStarted ≠ 1) :
    (writeNextAudioData (start s T) N).st.gains =
      (List.range N).map (fun (j : Nat) => fadeInGainAt s.m_volume T (j : Int)) := by
  obtain ⟨h1, h2, h3, h4, h5, h6⟩ := start_fields s T hopen hrun
  rw [writeNextAudioData_play_gains (start s T) N (by rw [h3]; exact hok)
    (by rw [h3]; exact hch) (by rw [h3, h4]; exact hfit) (by rw [h6]; exact hfo)]
  rw [h1, h2, h5]
  simp

/-! ## C5 -/

/-- C5, refuted as stated: after `start(2)` on a loaded stereo clip at master
volume 1, the first frame is processed with the fade-in counter at 0 and is
written with gain `1/4`, not `0`; the next two frames have gain `1`. -/
theorem C5_counterexample :
    (start (loaded (some (stereoClip 1000 false))) 2).m_currFadeIn = 0 ∧
    (start (loaded (some (stereoClip 1000 false))) 2).m_fadeInSamples = 2 ∧
    (writeNextAudioData (start (loaded (some (stereoClip 1000 false))) 2) 3).st.gains =
      [1 / 4, 1, 1] ∧
    (1 / 4 : Rat) ≠ 0 := by
  refine ⟨rfl, rfl, ?_, by norm_num⟩
  rw [writeNextAudioData_start_gains (loaded (some (stereoClip 1000 false))) 2 3 rfl rfl
    (by decide) (by decide) (by decide) (by decide)]
  have hv : (loaded (some (stereoClip 1000 false))).m_volume = 1 := rfl
  rw [hv]
  norm_num [fadeInGainAt, fadeRatio, wrapInt32, List.range_succ]

/-- C5, amended: after `start(T)` with `T > 0` on an open stream that is not
running (playable clip, no fade-out armed, `N` frames left in the clip), the
fade-in counter is `0` and frame `j` of the callback is written with the gain
`fadeInGainAt v T j`, which advances the counter before it takes the ratio.
For `T ≤ 46340` that gain is `v * (k + 1)^2 / T^2` at every counter value
`k < T`: `v / T^2` for the first frame after `start`, and exactly `v` for the
frame that brings the counter to `T`.  For every `T` the gain is exactly `v`
once the counter is at `T` or beyond. -/
theorem C5_fadeIn_gain (s : PlaybackManager) (T : Int) (N : Nat)
    (hopen : s.m_audio.streamOpen = true)
    (hrun : s.m_audio.streamRunning = false)
    (hok : trackOk s.m_activeTrack = true)
    (hch : 1 ≤ numChannelsOf s.m_activeTrack)
    (hfit : s.m_activeSample + N * numChannelsOf s.m_activeTrack ≤ sampleCount s.m_activeTrack)
    (hfo : s.m_fadeOutStarted ≠ 1)
    (hT0 : 0 < T) :
    (start s T).m_fadeInSamples = T ∧ (start s T).m_currFadeIn = 0 ∧
    (writeNextAudioData (start s T) N).st.gains =
      (List.range N).map (fun (j : Nat) => fadeInGainAt s.m_volume T (j : Int)) ∧
    (T ≤ 46340 → ∀ k : Int, 0 ≤ k → k < T →
      fadeInGainAt s.m_volume T k = s.m_volume * (((k : Rat) + 1) ^ 2 / (T : Rat) ^ 2)) ∧
    (T ≤ 46340 → fadeInGainAt s.m_volume T 0 = s.m_volume / (T : Rat) ^ 2) ∧
    (T ≤ 46340 → fadeInGainAt s.m_volume T (T - 1) = s.m_volume) ∧
    (∀ k : Int, T ≤ k → fadeInGainAt s.m_volume T k = s.m_volume) := by
  obtain ⟨h1, h2, _⟩ := start_fields s T hopen hrun
  have hTq : (0 : Rat) < (T : Rat) := by exact_mod_cast hT0
  have hT2 : (T : Rat) ^ 2 ≠ 0 := by positivity
  have hexact : T ≤ 46340 → ∀ k : Int, 0 ≤ k → k < T →
      fadeInGainAt s.m_volume T k = s.m_volume * (((k : Rat) + 1) ^ 2 / (T : Rat) ^ 2) := by
    intro hT k hk0 hkT
    unfold fadeInGainAt
    rw [if_pos hkT, fadeRatio_exact (k + 1) T (by linarith) (by linarith) hT]
    push_cast
    rfl
  refine ⟨h1, h2, writeNextAudioData_start_gains s T N hopen hrun hok hch hfit hfo,
    hexact, ?_, ?_, ?_⟩
  · intro hT
    rw [hexact hT 0 (le_refl _) hT0]
    push_cast
    ring
  · intro hT
    rw [hexact hT (T - 1) (by linarith) (by linarith)]
    push_cast
    rw [sub_add_cancel, div_self hT2, mul_one]
  · intro k hk
    unfold fadeInGainAt
    rw [if_neg (by linarith)]

/-- C5 amended, at `start(2)` on a loaded stereo clip of 1000 samples and a
callback of 3 frames. -/
theorem C5_fadeIn_gain_witness :
    (writeNextAudioData (start (loaded (some (stereoClip 1000 false))) 2) 3).st.gains =
      (List.range 3).map (fun (j : Nat) =>
        fadeInGainAt (loaded (some (stereoClip 1000 false))).m_volume 2 (j : Int)) ∧
    fadeInGainAt (loaded (some (stereoClip 1000 false))).m_volume 2 0 =
      (loaded (some (stereoClip 1000 false))).m_volume / ((2 : Int) : Rat) ^ 2 ∧
    fadeInGainAt (loaded (some (stereoClip 1000 false))).m_volume 2 (2 - 1) =
      (loaded (some (stereoClip 1000 false))).m_volume := by
  have h := C5_fadeIn_gain (loaded (some (stereoClip 1000 false))) 2 3 rfl rfl
    (by decide) (by decide) (by decide) (by decide) (by decide)
  exact ⟨h.2.2.1, h.2.2.2.2.1 (by decide), h.2.2.2.2.2.1 (by decide)⟩

/-! ## The stores of the frames -/

theorem mainOutput_writes (pm : PlaybackManager) (i : Nat) (sample : Int) (volume : Rat) :
    ∀ w ∈ (mainOutput pm i sample volume).1,
      (w.slot = OutSlot.mainLeft ∧ w.index = outIndex i pm.m_outChannels 0) ∨
      (w.slot = OutSlot.mainRight ∧ w.index = outIndex i pm.m_outChannels 1) := by
  intro w hw
  unfold mainOutput at hw
  split_ifs at hw <;>
  · simp only [List.mem_cons, List.mem_singleton, List.not_mem_nil, or_false] at hw
    rcases hw with e | e <;> subst e <;> simp

theorem auxOutput_writes (pm : PlaybackManager) (i : Nat) (sample : Int) (volume : Rat) :
    ∀ w ∈ (auxOutput pm i sample volume).1,
      (w.slot = OutSlot.auxLeft ∧ w.index = outIndex i pm.m_outChannels 2) ∨
      (w.slot = OutSlot.auxRight ∧ w.index = outIndex i pm.m_outChannels 3) := by
  intro w hw
  unfold auxOutput at hw
  split_ifs at hw <;>
  · simp only [List.mem_cons, List.mem_singleton, List.not_mem_nil, or_false] at hw
    rcases hw with e | e <;> subst e <;> simp

theorem auxPlaybackOf_outChannels (s : PlaybackManager) (h : auxPlaybackOf s = true) :
    s.m_outChannels = 4 := by
  unfold auxPlaybackOf at h
  simp only [Bool.and_eq_true, decide_eq_true_eq] at h
  exact h.1

/-- The stores of one frame: a frame that returns stores nothing; a frame
that goes on stores to the slots of frame `i` only, to the aux slots only on
a device with 4 channels, and does not change `m_outChannels`. -/
theorem frame_out (st : LoopState) (i : Nat)
    (hinv : st.auxPlayback = true → st.pm.m_outChannels = 4) :
    (∀ code st1, frame st i = FrameResult.ret code st1 → st1.out = st.out) ∧
    (∀ st1, frame st i = FrameResult.next st1 →
      st1.pm.m_outChannels = st.pm.m_outChannels ∧
      (st1.auxPlayback = true → st1.pm.m_outChannels = 4) ∧
      ∀ w ∈ st1.out, w ∈ st.out ∨ FrameWrite st.pm.m_outChannels i w) := by
  unfold frame
  cases hb : frameBounds st.pm st.auxPlayback with
  | stopHere pm =>
    dsimp only
    constructor
    · intro code st1 h
      injection h with _ h2
      rw [← h2]
    · intro st1 h; cases h
  | goOn pm sample aux =>
    dsimp only
    have hpm : pm.m_outChannels = st.pm.m_outChannels ∧ (aux = true → pm.m_outChannels = 4) := by
      rcases frameBounds_goOn _ _ _ _ _ hb with ⟨_, e1, _, e3⟩ | ⟨_, e1, _, e3, _, _⟩
      · subst e1 e3
        exact ⟨rfl, hinv⟩
      · constructor
        · rw [e1, (checkQueue_fields _).1]
        · intro ha
          rw [e3] at ha
          exact auxPlaybackOf_outChannels _ ha
    have ht := frameVolume_tracks pm
    rcases hv : frameVolume pm with ⟨pm1, _ | volume⟩
    · dsimp only
      constructor
      · intro code st1 h
        injection h with _ h2
        rw [← h2]
      · intro st1 h; cases h
    · rw [hv] at ht
      dsimp only at ht ⊢
      have hoc1 : pm1.m_outChannels = st.pm.m_outChannels := by rw [ht.2.2.2.2.1, hpm.1]
      constructor
      · intro code st1 h; cases h
      · intro st1 h
        injection h with h1
        subst h1
        rw [frameOutput_pm, frameOutput_auxPlayback, frameOutput_out,
          (advanceCursor_tracks pm1).2.2.2.2.1, hoc1]
        refine ⟨rfl, fun ha => by rw [← hpm.1]; exact hpm.2 ha, ?_⟩
        intro w hw
        rcases List.mem_append.mp hw with hw1 | hw1
        · rcases List.mem_append.mp hw1 with hw2 | hw2
          · exact Or.inl hw2
          · right
            have := mainOutput_writes pm1 i sample volume w hw2
            rw [hoc1] at this
            rcases this with h0 | h0
            · exact Or.inl h0
            · exact Or.inr (Or.inl h0)
        · right
          split_ifs at hw1 with ha
          · have := auxOutput_writes pm1 i sample volume w hw1
            rw [hoc1] at this
            have h4 : st.pm.m_outChannels = 4 := by rw [← hpm.1]; exact hpm.2 ha
            rcases this with h0 | h0
            · exact Or.inr (Or.inr (Or.inl ⟨h4, h0⟩))
            · exact Or.inr (Or.inr (Or.inr ⟨h4, h0⟩))
          · simp at hw1

/-- Every store of the loop over the frames `i .. i + n - 1` is a store of
one of these frames. -/
theorem frameLoop_out (n : Nat) :
    ∀ (i : Nat) (st : LoopState),
      (st.auxPlayback = true → st.pm.m_outChannels = 4) →
      ∀ w ∈ (frameLoop n i st).st.out,
        w ∈ st.out ∨ ∃ j, i ≤ j ∧ j < i + n ∧ FrameWrite st.pm.m_outChannels j w := by
  induction n with
  | zero =>
    intro i st _ w hw
    exact Or.inl hw
  | succ n ih =>
    intro i st hinv w hw
    obtain ⟨hret, hnext⟩ := frame_out st i hinv
    simp only [frameLoop] at hw
    cases hf : frame st i with
    | ret code st1 =>
      rw [hf] at hw
      dsimp only at hw
      rw [hret code st1 hf] at hw
      exact Or.inl hw
    | next st1 =>
      rw [hf] at hw
      dsimp only at hw
      obtain ⟨hoc, hinv1, hws⟩ := hnext st1 hf
      rcases ih (i + 1) st1 hinv1 w hw with h1 | ⟨j, hj1, hj2, hj3⟩
      · rcases hws w h1 with h2 | h2
        · exact Or.inl h2
        · exact Or.inr ⟨i, le_refl _, by omega, h2⟩
      · rw [hoc] at hj3
        exact Or.inr ⟨j, by omega, by omega, hj3⟩

/-- Every store of `writeNextAudioData(out, N)` is a store of one of the
frames `0 .. N - 1`, on the channel count of the device. -/
theorem writeNextAudioData_out (s : PlaybackManager) (N : Nat) :
    ∀ w ∈ (writeNextAudioData s N).st.out,
      ∃ j, j < N ∧ FrameWrite s.m_outChannels j w := by
  intro w hw
  unfold writeNextAudioData at hw
  dsimp only at hw
  generalize hs1 : (if s.m_activeTrack.isNone then checkQueue s else s) = s1 at hw
  have hoc : s1.m_outChannels = s.m_outChannels := by
    rw [← hs1]
    split_ifs
    · exact (checkQueue_fields s).1
    · rfl
  split_ifs at hw with h1
  · simp at hw
  · rcases frameLoop_out N 0 _ (auxPlaybackOf_outChannels _) w hw with h2 | ⟨j, _, hj2, hj3⟩
    · simp at h2
    · dsimp only at hj3
      rw [hoc] at hj3
      exact ⟨j, by omega, hj3⟩

/-! ## C6 -/

theorem outIndex_two_le (j k : Nat) : outIndex j 2 k ≤ 2 * j + k := by
  have h2 : toUInt32 2 = 2 := by decide
  unfold outIndex
  rw [h2]
  calc (j * 2 + k) % 4294967296 ≤ j * 2 + k := Nat.mod_le _ _
    _ = 2 * j + k := by ring

/-- C6: on a device with `m_outChannels = 2`, whatever clips are attached
(a playable aux clip included), every store of `writeNextAudioData(out, N)`
is a store to a main slot at an index of at most `2 * N - 1`; and in every
state the aux slots `i*m_outChannels + 2` and `i*m_outChannels + 3` are
stored to only when `m_outChannels = 4`. -/
theorem C6_no_aux_stores_on_two_channels (s : PlaybackManager) (N : Nat) :
    (s.m_outChannels = 2 →
      ∀ w ∈ (writeNextAudioData s N).st.out,
        w.index ≤ 2 * N - 1 ∧ (w.slot = OutSlot.mainLeft ∨ w.slot = OutSlot.mainRight)) ∧
    (∀ w ∈ (writeNextAudioData s N).st.out,
      (w.slot = OutSlot.auxLeft ∨ w.slot = OutSlot.auxRight) → s.m_outChannels = 4) := by
  constructor
  · intro h2 w hw
    obtain ⟨j, hj, hfw⟩ := writeNextAudioData_out s N w hw
    rw [h2] at hfw
    rcases hfw with ⟨h1, h3⟩ | ⟨h1, h3⟩ | ⟨h4, _⟩ | ⟨h4, _⟩
    · have := outIndex_two_le j 0
      exact ⟨by omega, Or.inl h1⟩
    · have := outIndex_two_le j 1
      exact ⟨by omega, Or.inr h1⟩
    · omega
    · omega
  · intro w hw hslot
    obtain ⟨j, _, hfw⟩ := writeNextAudioData_out s N w hw
    rcases hfw with ⟨h1, _⟩ | ⟨h1, _⟩ | ⟨h4, _⟩ | ⟨h4, _⟩
    · rcases hslot with h | h <;> rw [h1] at h <;> cases h
    · rcases hslot with h | h <;> rw [h1] at h <;> cases h
    · exact h4
    · exact h4

/-- C6 at a 2-channel device with a playable aux clip attached and a
callback of 8 frames: 16 samples are stored, each at an index of at most 15. -/
theorem C6_no_aux_stores_on_two_channels_witness :
    (playingWithAux (some (stereoClip 1000 false)) (some (stereoClip 600 false)) 0).m_outChannels
      = 2 ∧
    trackOk
      (playingWithAux (some (stereoClip 1000 false)) (some (stereoClip 600 false)) 0).m_activeAuxTrack
      = true ∧
    (writeNextAudioData
        (playingWithAux (some (stereoClip 1000 false)) (some (stereoClip 600 false)) 0)
        8).st.out.length = 16 ∧
    ∀ w ∈ (writeNextAudioData
        (playingWithAux (some (stereoClip 1000 false)) (some (stereoClip 600 false)) 0) 8).st.out,
      w.index ≤ 2 * 8 - 1 ∧ (w.slot = OutSlot.mainLeft ∨ w.slot = OutSlot.mainRight) :=
  ⟨rfl, by decide, by decide,
    (C6_no_aux_stores_on_two_channels
      (playingWithAux (some (stereoClip 1000 false)) (some (stereoClip 600 false)) 0) 8).1 rfl⟩

/-! ## C7 -/

/-- C7: `trackOk(track)` is true if and only if the track is non-null, its
buffer is non-null and the buffer holds strictly more than 512 samples; in
particular it is false for every buffer of at most 512 samples. -/
theorem C7_trackOk_iff (track : Option TrackData) :
    (trackOk track = true ↔
      ∃ t b, track = some t ∧ t.buffer = some b ∧ 512 < b.floatData.length) ∧
    (∀ t b, track = some t → t.buffer = some b → b.floatData.length ≤ 512 →
      trackOk track = false) := by
  constructor
  · constructor
    · intro h
      cases track with
      | none => simp [trackOk] at h
      | some t =>
        cases hb : t.buffer with
        | none => simp [trackOk, hb] at h
        | some b =>
          simp only [trackOk, hb, gt_iff_lt, decide_eq_true_eq] at h
          exact ⟨t, b, rfl, hb, by exact_mod_cast h⟩
    · rintro ⟨t, b, rfl, hb, hlen⟩
      simp only [trackOk, hb, gt_iff_lt, decide_eq_true_eq]
      exact_mod_cast hlen
  · intro t b ht hb hlen
    subst ht
    simp only [trackOk, hb, gt_iff_lt, decide_eq_false_iff_not, not_lt]
    exact_mod_cast hlen

/-- C7 at the threshold: a clip of exactly 512 samples is not playable, the
null track and a track without buffer are not, a clip of 513 samples is. -/
theorem C7_trackOk_iff_witness :
    trackOk (some (stereoClip 512 false)) = false ∧
    trackOk (some (stereoClip 513 false)) = true ∧
    trackOk none = false ∧
    trackOk (some ⟨"none.wav", none, false, false⟩) = false :=
  ⟨(C7_trackOk_iff (some (stereoClip 512 false))).2 (stereoClip 512 false)
      ⟨List.replicate 512 1, 2⟩ rfl rfl (by decide),
    (C7_trackOk_iff (some (stereoClip 513 false))).1.2
      ⟨stereoClip 513 false, ⟨List.replicate 513 1, 2⟩, rfl, rfl, by decide⟩,
    rfl, rfl⟩

/-! ## C8 -/

theorem endPlayback_tracks (s : PlaybackManager) :
    (endPlayback s).m_activeTrack = s.m_activeTrack ∧
    (endPlayback s).m_activeAuxTrack = s.m_activeAuxTrack ∧
    (endPlayback s).m_queuedTrack = s.m_queuedTrack ∧
    (endPlayback s).m_queuedAuxTrack = s.m_queuedAuxTrack ∧
    (endPlayback s).m_activeSample = s.m_activeSample :=
  ⟨rfl, rfl, rfl, rfl, rfl⟩

/-- A frame whose read offset is inside the active clip leaves the active
pair and the queued pair alone, whether it goes on or returns. -/
theorem frame_inside_tracks (st : LoopState) (i : Nat)
    (hin : readOffset st.pm + 1 ≤ sampleCount st.pm.m_activeTrack) :
    (∀ code st1, frame st i = FrameResult.ret code st1 →
      st1.pm.m_activeTrack = st.pm.m_activeTrack ∧
      st1.pm.m_activeAuxTrack = st.pm.m_activeAuxTrack ∧
      st1.pm.m_queuedTrack = st.pm.m_queuedTrack ∧
      st1.pm.m_queuedAuxTrack = st.pm.m_queuedAuxTrack) ∧
    (∀ st1, frame st i = FrameResult.next st1 →
      st1.pm.m_activeTrack = st.pm.m_activeTrack ∧
      st1.pm.m_activeAuxTrack = st.pm.m_activeAuxTrack ∧
      st1.pm.m_queuedTrack = st.pm.m_queuedTrack ∧
      st1.pm.m_queuedAuxTrack = st.pm.m_queuedAuxTrack) := by
  unfold frame
  rw [frameBounds_inside _ _ hin]
  dsimp only
  have ht := frameVolume_tracks st.pm
  rcases hv : frameVolume st.pm with ⟨pm1, _ | volume⟩
  · rw [hv] at ht
    dsimp only at ht ⊢
    constructor
    · intro code st1 h
      injection h with _ h2
      subst h2
      exact ⟨ht.1, ht.2.1, ht.2.2.1, ht.2.2.2.1⟩
    · intro st1 h; cases h
  · rw [hv] at ht
    dsimp only at ht ⊢
    constructor
    · intro code st1 h; cases h
    · intro st1 h
      injection h with h1
      subst h1
      have ha := advanceCursor_tracks pm1
      rw [frameOutput_pm]
      exact ⟨ha.1.trans ht.1, ha.2.1.trans ht.2.1, ha.2.2.1.trans ht.2.2.1,
        ha.2.2.2.1.trans ht.2.2.2.1⟩

/-- If the loop changes the active clip or the queued clip, then some frame
of it found the read offset at the end of the active clip, with both clips
unchanged up to that frame. -/
theorem frameLoop_promotes_at_end (n : Nat) :
    ∀ (i : Nat) (st : LoopState),
      ((frameLoop n i st).st.pm.m_queuedTrack ≠ st.pm.m_queuedTrack ∨
        (frameLoop n i st).st.pm.m_activeTrack ≠ st.pm.m_activeTrack) →
      ∃ k, k < n ∧ (frameLoop k i st).code = 0 ∧
        (frameLoop k i st).st.pm.m_activeTrack = st.pm.m_activeTrack ∧
        (frameLoop k i st).st.pm.m_queuedTrack = st.pm.m_queuedTrack ∧
        sampleCount st.pm.m_activeTrack < readOffset (frameLoop k i st).st.pm + 1 := by
  induction n with
  | zero =>
    intro i st h
    simp [frameLoop] at h
  | succ n ih =>
    intro i st h
    by_cases hin : readOffset st.pm + 1 ≤ sampleCount st.pm.m_activeTrack
    · obtain ⟨hret, hnext⟩ := frame_inside_tracks st i hin
      simp only [frameLoop] at h
      cases hf : frame st i with
      | ret code st1 =>
        rw [hf] at h
        dsimp only at h
        obtain ⟨h1, _, h3, _⟩ := hret code st1 hf
        rcases h with h | h
        · exact absurd h3 h
        · exact absurd h1 h
      | next st1 =>
        rw [hf] at h
        dsimp only at h
        obtain ⟨h1, _, h3, _⟩ := hnext st1 hf
        rw [← h1, ← h3] at h
        obtain ⟨k, hk, c1, c2, c3, c4⟩ := ih (i + 1) st1 h
        refine ⟨k + 1, by omega, ?_⟩
        simp only [frameLoop, hf]
        rw [h1] at c2 c4
        rw [h3] at c3
        exact ⟨c1, c2, c3, c4⟩
    · exact ⟨0, by omega, rfl, rfl, rfl, not_le.mp hin⟩

theorem setQueuedTrack_fields (s : PlaybackManager) (clip aux : Option TrackData) :
    (setQueuedTrack s clip aux).m_activeTrack = s.m_activeTrack ∧
    (setQueuedTrack s clip aux).m_activeAuxTrack = s.m_activeAuxTrack ∧
    (setQueuedTrack s clip aux).m_activeSample = s.m_activeSample ∧
    (setQueuedTrack s clip aux).m_queuedTrack = clip ∧
    (setQueuedTrack s clip aux).m_queuedAuxTrack = aux := by
  unfold setQueuedTrack start
  cases clip with
  | none => simp [emit]
  | some t =>
    dsimp only
    split_ifs <;> try simp [emit]
    all_goals cases s.m_audio.startStreamError <;> simp [emit, reportError]

/-- C8: `setQueuedTrack(clip, aux)` leaves `m_activeTrack`, `m_activeAuxTrack`
and `m_activeSample` unchanged and sets the queue slot to exactly
`(clip, aux)`, whatever was queued before.  And `writeNextAudioData` on a
non-null active clip changes the active clip or the queued clip only if one
of its frames found the read offset at the end of the active clip: there is
a frame count `k < N` after which the callback has returned `0` with both
clips unchanged and the next read offset is past the last sample. -/
theorem C8_queueing_keeps_the_active_clip (s : PlaybackManager) (clip aux : Option TrackData)
    (N : Nat) :
    ((setQueuedTrack s clip aux).m_activeTrack = s.m_activeTrack ∧
      (setQueuedTrack s clip aux).m_activeAuxTrack = s.m_activeAuxTrack ∧
      (setQueuedTrack s clip aux).m_activeSample = s.m_activeSample ∧
      (setQueuedTrack s clip aux).m_queuedTrack = clip ∧
      (setQueuedTrack s clip aux).m_queuedAuxTrack = aux) ∧
    (s.m_activeTrack ≠ none →
      ((writeNextAudioData s N).st.pm.m_queuedTrack ≠ s.m_queuedTrack ∨
        (writeNextAudioData s N).st.pm.m_activeTrack ≠ s.m_activeTrack) →
      ∃ k, k < N ∧ (writeNextAudioData s k).code = 0 ∧
        (writeNextAudioData s k).st.pm.m_activeTrack = s.m_activeTrack ∧
        (writeNextAudioData s k).st.pm.m_queuedTrack = s.m_queuedTrack ∧
        sampleCount s.m_activeTrack < readOffset (writeNextAudioData s k).st.pm + 1) := by
  refine ⟨setQueuedTrack_fields s clip aux, ?_⟩
  intro hact hchg
  have hnone : s.m_activeTrack.isNone = false := by
    cases h : s.m_activeTrack with
    | none => exact absurd h hact
    | some t => rfl
  by_cases hok : trackOk s.m_activeTrack = true
  · rw [writeNextAudioData_playable s N hok] at hchg
    obtain ⟨k, hk, h1, h2, h3, h4⟩ := frameLoop_promotes_at_end N 0 (entry s) hchg
    refine ⟨k, hk, ?_⟩
    rw [writeNextAudioData_playable s k hok]
    exact ⟨h1, h2, h3, h4⟩
  · have hres : (writeNextAudioData s N).st.pm = endPlayback s := by
      simp [writeNextAudioData, hnone, hok]
    rw [hres] at hchg
    rcases hchg with h | h
    · exact absurd rfl h
    · exact absurd rfl h

/-- C8 at the scenario of C2: the clip of 500 frames with itself queued
and a callback of 512 frames.  The queue slot is consumed, and the theorem
yields the frame at which the read offset had reached the end. -/
theorem C8_queueing_keeps_the_active_clip_witness :
    (setQueuedTrack (playing (some (stereoClip 1000 false)) none 24)
      (some (stereoClip 1000 true)) none).m_activeSample = 24 ∧
    ∃ k, k < 512 ∧
      (writeNextAudioData
        (playing (some (stereoClip 1000 false)) (some (stereoClip 1000 false)) 0) k).code = 0 ∧
      (writeNextAudioData
        (playing (some (stereoClip 1000 false)) (some (stereoClip 1000 false)) 0)
        k).st.pm.m_activeTrack = some (stereoClip 1000 false) ∧
      (writeNextAudioData
        (playing (some (stereoClip 1000 false)) (some (stereoClip 1000 false)) 0)
        k).st.pm.m_queuedTrack = some (stereoClip 1000 false) ∧
      sampleCount (some (stereoClip 1000 false)) <
        readOffset (writeNextAudioData
          (playing (some (stereoClip 1000 false)) (some (stereoClip 1000 false)) 0) k).st.pm + 1 :=
  ⟨(C8_queueing_keeps_the_active_clip (playing (some (stereoClip 1000 false)) none 24)
      (some (stereoClip 1000 true)) none 0).1.2.2.1,
    (C8_queueing_keeps_the_active_clip
      (playing (some (stereoClip 1000 false)) (some (stereoClip 1000 false)) 0) none none 512).2
      (by decide) (Or.inl (by decide))⟩

/-! ## C9 -/

/-- C9, refuted as stated: `checkQueue` with a clip queued, in the middle of
a fade-in and with a fade-out armed, promotes the clip and resets the
cursor, but the fade-out is still armed (100 of 300 frames) and the fade-in
still has frames to go (50 of 200). -/
theorem C9_counterexample :
    (checkQueue (midFade (some (stereoClip 1000 false)) none)).m_activeTrack
      = some (stereoClip 1000 false) ∧
    (checkQueue (midFade (some (stereoClip 1000 false)) none)).m_activeSample = 0 ∧
    (checkQueue (midFade (some (stereoClip 1000 false)) none)).m_fadeOutStarted = 1 ∧
    (checkQueue (midFade (some (stereoClip 1000 false)) none)).m_currFadeOut = 100 ∧
    (checkQueue (midFade (some (stereoClip 1000 false)) none)).m_fadeOutSamples = 300 ∧
    (checkQueue (midFade (some (stereoClip 1000 false)) none)).m_currFadeIn = 50 ∧
    (checkQueue (midFade (some (stereoClip 1000 false)) none)).m_fadeInSamples = 200 :=
  ⟨rfl, rfl, rfl, rfl, rfl, rfl, rfl⟩

/-- C9, amended: `checkQueue` with a clip `q` in the queue moves the queued
clip to `m_activeTrack` and the queued aux clip to `m_activeAuxTrack`,
empties both queue slots, sets `m_activeSample` to 0 and emits
`trackStarted(q.fileName)` once, followed by `queueChanged`; with an empty
queue it empties `m_activeTrack` and `m_activeAuxTrack` and emits
`queueChanged`.  In both cases every other member, the five fade members
included, is left as it was. -/
theorem C9_checkQueue_promotes (s : PlaybackManager) :
    (∀ q, s.m_queuedTrack = some q →
      checkQueue s =
        { s with
          m_activeTrack := some q,
          m_activeAuxTrack := s.m_queuedAuxTrack,
          m_activeSample := 0,
          m_queuedTrack := none,
          m_queuedAuxTrack := none,
          signals := s.signals ++ [Signal.trackStarted q.fileName, Signal.queueChanged] }) ∧
    (s.m_queuedTrack = none →
      checkQueue s =
        { s with
          m_activeTrack := none,
          m_activeAuxTrack := none,
          signals := s.signals ++ [Signal.queueChanged] }) ∧
    ((checkQueue s).m_fadeInSamples = s.m_fadeInSamples ∧
      (checkQueue s).m_currFadeIn = s.m_currFadeIn ∧
      (checkQueue s).m_fadeOutStarted = s.m_fadeOutStarted ∧
      (checkQueue s).m_fadeOutSamples = s.m_fadeOutSamples ∧
      (checkQueue s).m_currFadeOut = s.m_currFadeOut) := by
  have hf := checkQueue_fields s
  refine ⟨?_, checkQueue_none s, hf.2.2.2.2.1, hf.2.2.2.2.2.1, hf.2.1, hf.2.2.1, hf.2.2.2.1⟩
  intro q hq
  rw [checkQueue_some s q hq]
  simp

/-- C9 amended, at a queued stereo clip with a queued aux clip, in the
middle of both fades, and at an empty queue. -/
theorem C9_checkQueue_promotes_witness :
    checkQueue (midFade (some (stereoClip 1000 false)) (some (stereoClip 600 false))) =
      { midFade (some (stereoClip 1000 false)) (some (stereoClip 600 false)) with
        m_activeTrack := some (stereoClip 1000 false),
        m_activeAuxTrack := some (stereoClip 600 false),
        m_activeSample := 0,
        m_queuedTrack := none,
        m_queuedAuxTrack := none,
        signals := [Signal.trackStarted "clip.wav", Signal.queueChanged] } ∧
    checkQueue (midFade none none) =
      { midFade none none with
        m_activeTrack := none,
        m_activeAuxTrack := none,
        signals := [Signal.queueChanged] } :=
  ⟨(C9_checkQueue_promotes
      (midFade (some (stereoClip 1000 false)) (some (stereoClip 600 false)))).1
      (stereoClip 1000 false) rfl,
    (C9_checkQueue_promotes (midFade none none)).2.1 rfl⟩

/-! ## The cursor invariant -/

theorem CursorInv_of_same (s s1 : PlaybackManager)
    (h1 : s1.m_activeTrack = s.m_activeTrack)
    (h2 : s1.m_activeSample = s.m_activeSample)
    (h3 : s1.m_queuedTrack = s.m_queuedTrack)
    (h : CursorInv s) : CursorInv s1 := by
  unfold CursorInv at h ⊢
  rw [h1, h2, h3]
  exact h

theorem checkQueue_inv (s : PlaybackManager)
    (h : ∀ q, s.m_queuedTrack = some q → WellFormed q) : CursorInv (checkQueue s) := by
  cases hq : s.m_queuedTrack with
  | none =>
    rw [checkQueue_none s hq]
    unfold CursorInv
    refine ⟨fun t ht => (by cases ht), fun q hq1 => h q hq1⟩
  | some q =>
    rw [checkQueue_some s q hq]
    unfold CursorInv
    refine ⟨?_, fun q1 hq1 => by cases hq1⟩
    intro t ht
    injection ht with ht
    subst ht
    exact ⟨h q hq, le_refl _, Int.ofNat_nonneg _, by simp⟩

theorem checkQueue_cursor_of_trackOk (s : PlaybackManager)
    (h : trackOk (checkQueue s).m_activeTrack = true) : (checkQueue s).m_activeSample = 0 := by
  cases hq : s.m_queuedTrack with
  | none =>
    rw [checkQueue_none s hq] at h
    simp [trackOk] at h
  | some q => rw [checkQueue_some s q hq]

theorem frameVolume_fadeOutStarted (s : PlaybackManager) :
    (frameVolume s).1.m_fadeOutStarted = s.m_fadeOutStarted := by
  have h1 := fadeInVolume_fst s
  unfold frameVolume
  rcases hv : fadeInVolume s with ⟨s1, v⟩
  rw [hv] at h1
  simp only at h1
  subst h1
  dsimp only
  split_ifs <;> rfl

theorem sampleCount_gt_of_trackOk (t : Option TrackData) (h : trackOk t = true) : 512 < sampleCount t := by
  cases t with
  | none => simp [trackOk] at h
  | some t =>
    cases hb : t.buffer with
    | none => simp [trackOk, hb] at h
    | some b =>
      simp only [trackOk, hb, gt_iff_lt, decide_eq_true_eq] at h
      simp only [sampleCount, floatDataOf, hb]
      exact h

/-- In a well-formed clip a channel-aligned cursor that is before the end
is at least one whole frame before the end. -/
theorem aligned_room (c ch size : Int) (hch : 1 ≤ ch) (hc : c % ch = 0) (hs : size % ch = 0)
    (hlt : c + 1 ≤ size) : c + ch ≤ size := by
  obtain ⟨a, ha⟩ := Int.dvd_of_emod_eq_zero hc
  obtain ⟨b, hb⟩ := Int.dvd_of_emod_eq_zero hs
  subst ha hb
  have hab : a < b := by
    by_contra hcon
    have : b ≤ a := not_lt.mp hcon
    nlinarith
  nlinarith

theorem advanceCursor_inv (s : PlaybackManager) (h : CursorInv s)
    (hroom : s.m_fadeOutStarted ≠ 1 → s.m_activeSample + 1 ≤ sampleCount s.m_activeTrack) :
    CursorInv (advanceCursor s) := by
  unfold advanceCursor
  split_ifs with hfo
  · unfold CursorInv
    refine ⟨?_, h.2⟩
    intro t ht
    have ht1 : s.m_activeTrack = some t := ht
    obtain ⟨hw, h0, _, hal⟩ := h.1 t ht1
    have hr := hroom hfo
    rw [ht1] at hr
    dsimp only
    rw [ht1]
    refine ⟨hw, by linarith [hw.2.1], aligned_room _ _ _ hw.2.1 hal hw.2.2 hr, ?_⟩
    rw [Int.add_emod, hal, Int.emod_self]
    simp
  · exact h

/-- Every frame keeps the cursor invariant, whether it goes on or returns. -/
theorem frame_inv (st : LoopState) (i : Nat) (h : CursorInv st.pm) :
    (∀ code st1, frame st i = FrameResult.ret code st1 → CursorInv st1.pm) ∧
    (∀ st1, frame st i = FrameResult.next st1 → CursorInv st1.pm) := by
  have hcq : CursorInv (checkQueue { st.pm with m_activeSample := 0 }) :=
    checkQueue_inv _ h.2
  unfold frame
  cases hb : frameBounds st.pm st.auxPlayback with
  | stopHere pm =>
    dsimp only
    constructor
    · intro code st1 hf
      injection hf with _ h2
      subst h2
      dsimp only
      by_cases hin : readOffset st.pm + 1 ≤ sampleCount st.pm.m_activeTrack
      · rw [frameBounds_inside _ _ hin] at hb; cases hb
      · rw [frameBounds_end _ _ (not_le.mp hin)] at hb
        split_ifs at hb
        injection hb with hb1
        subst hb1
        exact CursorInv_of_same _ _ rfl rfl rfl hcq
    · intro st1 hf; cases hf
  | goOn pm sample aux =>
    dsimp only
    have hpm : CursorInv pm ∧
        (pm.m_fadeOutStarted ≠ 1 → pm.m_activeSample + 1 ≤ sampleCount pm.m_activeTrack) := by
      rcases frameBounds_goOn _ _ _ _ _ hb with ⟨hin, e1, _, _⟩ | ⟨_, e1, _, _, e4, _⟩
      · subst e1
        refine ⟨h, fun hfo => ?_⟩
        rw [readOffset_noFadeOut _ hfo] at hin
        exact hin
      · subst e1
        refine ⟨hcq, fun _ => ?_⟩
        have h512 := sampleCount_gt_of_trackOk _ e4
        rw [checkQueue_cursor_of_trackOk _ e4]
        linarith
    have ht := frameVolume_tracks pm
    have hfs := frameVolume_fadeOutStarted pm
    rcases hv : frameVolume pm with ⟨pm1, _ | volume⟩
    · rw [hv] at ht
      dsimp only at ht ⊢
      constructor
      · intro code st1 hf
        injection hf with _ h2
        subst h2
        dsimp only
        exact CursorInv_of_same pm _ ht.1 ht.2.2.2.2.2.1 ht.2.2.1 hpm.1
      · intro st1 hf; cases hf
    · rw [hv] at ht hfs
      dsimp only at ht hfs ⊢
      constructor
      · intro code st1 hf; cases hf
      · intro st1 hf
        injection hf with h1
        subst h1
        rw [frameOutput_pm]
        apply advanceCursor_inv pm1
          (CursorInv_of_same pm _ ht.1 ht.2.2.2.2.2.1 ht.2.2.1 hpm.1)
        intro hfo
        rw [ht.1, ht.2.2.2.2.2.1]
        exact hpm.2 (by rw [← hfs]; exact hfo)

theorem frameLoop_inv (n : Nat) :
    ∀ (i : Nat) (st : LoopState), CursorInv st.pm → CursorInv (frameLoop n i st).st.pm := by
  induction n with
  | zero => intro i st h; exact h
  | succ n ih =>
    intro i st h
    obtain ⟨hret, hnext⟩ := frame_inv st i h
    simp only [frameLoop]
    cases hf : frame st i with
    | ret code st1 => exact hret code st1 hf
    | next st1 => exact ih (i + 1) st1 (hnext st1 hf)

/-- The callback keeps the cursor invariant. -/
theorem writeNextAudioData_inv (s : PlaybackManager) (N : Nat) (h : CursorInv s) :
    CursorInv (writeNextAudioData s N).st.pm := by
  unfold writeNextAudioData
  dsimp only
  have h1 : CursorInv (if s.m_activeTrack.isNone then checkQueue s else s) := by
    split_ifs
    · exact checkQueue_inv s h.2
    · exact h
  generalize (if s.m_activeTrack.isNone then checkQueue s else s) = s1 at h1
  split_ifs
  · exact CursorInv_of_same s1 _ rfl rfl rfl h1
  · exact frameLoop_inv N 0 _ h1

theorem start_same (s : PlaybackManager) (T : Int) :
    (start s T).m_activeTrack = s.m_activeTrack ∧
    (start s T).m_activeSample = s.m_activeSample ∧
    (start s T).m_queuedTrack = s.m_queuedTrack := by
  unfold start
  split_ifs
  · dsimp only
    split <;> exact ⟨rfl, rfl, rfl⟩
  · exact ⟨rfl, rfl, rfl⟩

theorem stop_same (s : PlaybackManager) (T : Int) :
    (stop s T).m_activeTrack = s.m_activeTrack ∧
    (stop s T).m_activeSample = s.m_activeSample ∧
    (stop s T).m_queuedTrack = s.m_queuedTrack := by
  unfold stop
  split_ifs <;> exact ⟨rfl, rfl, rfl⟩

theorem abort_same (s : PlaybackManager) :
    (abort s).m_activeTrack = s.m_activeTrack ∧
    (abort s).m_activeSample = s.m_activeSample ∧
    (abort s).m_queuedTrack = s.m_queuedTrack := by
  unfold abort
  split_ifs <;> exact ⟨rfl, rfl, rfl⟩

theorem close_same (s : PlaybackManager) :
    (close s).m_activeTrack = s.m_activeTrack ∧
    (close s).m_activeSample = s.m_activeSample ∧
    (close s).m_queuedTrack = s.m_queuedTrack := by
  unfold close
  split_ifs
  · exact abort_same s
  · exact ⟨rfl, rfl, rfl⟩

theorem getDevices_same (s : PlaybackManager) :
    (getDevices s).1.m_activeTrack = s.m_activeTrack ∧
    (getDevices s).1.m_activeSample = s.m_activeSample ∧
    (getDevices s).1.m_queuedTrack = s.m_queuedTrack := by
  unfold getDevices
  dsimp only
  split_ifs <;> exact ⟨rfl, rfl, rfl⟩

theorem openDevice_same (s : PlaybackManager) (name : String) :
    (openDevice s name).1.m_activeTrack = s.m_activeTrack ∧
    (openDevice s name).1.m_activeSample = s.m_activeSample ∧
    (openDevice s name).1.m_queuedTrack = s.m_queuedTrack := by
  have hc := close_same s
  have hg := getDevices_same { close s with m_currentDevice := "" }
  unfold openDevice
  dsimp only
  rcases hgd : getDevices { close s with m_currentDevice := "" } with ⟨s3, names⟩
  rw [hgd] at hg
  dsimp only at hg ⊢
  cases names.indexOf? name with
  | none =>
    dsimp only
    exact ⟨hg.1.trans hc.1, hg.2.1.trans hc.2.1, hg.2.2.trans hc.2.2⟩
  | some idx =>
    dsimp only
    cases s3.m_audio.openStreamError <;>
      exact ⟨hg.1.trans hc.1, hg.2.1.trans hc.2.1, hg.2.2.trans hc.2.2⟩

theorem hostCallback_inv (s : PlaybackManager) (N : Nat) (h : CursorInv s) :
    CursorInv (hostCallback s N) := by
  have hw := writeNextAudioData_inv s N h
  unfold hostCallback playbackCallback
  split_ifs
  · exact hw
  · exact CursorInv_of_same _ _ rfl rfl rfl hw

theorem step_inv (s : PlaybackManager) (op : Op) (h : CursorInv s) (hop : OpOk op) :
    CursorInv (step s op) := by
  cases op with
  | setQueuedTrack clip aux =>
    have hf := setQueuedTrack_fields s clip aux
    show CursorInv (setQueuedTrack s clip aux)
    unfold CursorInv
    rw [hf.1, hf.2.2.1, hf.2.2.2.1]
    exact ⟨h.1, hop⟩
  | clearActiveTrack =>
    exact ⟨fun t ht => (by cases ht), h.2⟩
  | start T =>
    have hs := start_same s T
    exact CursorInv_of_same s _ hs.1 hs.2.1 hs.2.2 h
  | stop T =>
    have hs := stop_same s T
    exact CursorInv_of_same s _ hs.1 hs.2.1 hs.2.2 h
  | abort =>
    have hs := abort_same s
    exact CursorInv_of_same s _ hs.1 hs.2.1 hs.2.2 h
  | callback N => exact hostCallback_inv s N h
  | openDevice name =>
    have hs := openDevice_same s name
    exact CursorInv_of_same s _ hs.1 hs.2.1 hs.2.2 h
  | close =>
    have hs := close_same s
    exact CursorInv_of_same s _ hs.1 hs.2.1 hs.2.2 h
  | setVolume v => exact CursorInv_of_same s _ rfl rfl rfl h
  | setOutChannels oc => exact CursorInv_of_same s _ rfl rfl rfl h

theorem run_inv (ops : List Op) :
    ∀ s : PlaybackManager, CursorInv s → (∀ op ∈ ops, OpOk op) → CursorInv (run s ops) := by
  induction ops with
  | nil => intro s h _; exact h
  | cons op ops ih =>
    intro s h hok
    exact ih (step s op) (step_inv s op h (hok op (List.mem_cons_self _ _)))
      (fun o ho => hok o (List.mem_cons_of_mem _ ho))

theorem reachable_inv (s : PlaybackManager) (h : Reachable s) : CursorInv s := by
  obtain ⟨host, ops, hok, hrun⟩ := h
  rw [← hrun]
  exact run_inv ops (init host)
    ⟨fun t ht => (by cases ht), fun q hq => (by cases hq)⟩ hok

theorem twoCallbacks_reachable : Reachable (run (init stereoHost) twoCallbacks) := by
  refine ⟨stereoHost, twoCallbacks, ?_, rfl⟩
  intro op hop
  simp only [twoCallbacks, List.mem_cons, List.mem_singleton, List.not_mem_nil, or_false] at hop
  rcases hop with e | e | e | e | e <;> subst e
  · trivial
  · intro t ht
    injection ht with ht
    subst ht
    exact ⟨by decide, by decide, by decide⟩
  · trivial
  · trivial
  · trivial

/-! ## C10 -/

/-- C10, refuted as stated: after opening the device, queueing a stereo clip
of 1024 samples, `start()` and two callbacks of 256 frames, the stream is
running, the clip is the active clip, and the cursor is 1024, the length of
the buffer, which is not a valid index into it. -/
theorem C10_counterexample :
    Reachable (run (init stereoHost) twoCallbacks) ∧
    (run (init stereoHost) twoCallbacks).m_audio.streamRunning = true ∧
    (run (init stereoHost) twoCallbacks).m_activeTrack = some (stereoClip 1024 false) ∧
    sampleCount (some (stereoClip 1024 false)) = 1024 ∧
    (run (init stereoHost) twoCallbacks).m_activeSample = 1024 ∧
    ¬ ((run (init stereoHost) twoCallbacks).m_activeSample
        < sampleCount (run (init stereoHost) twoCallbacks).m_activeTrack) :=
  ⟨twoCallbacks_reachable, by decide, by decide, by decide, by decide, by decide⟩

/-- C10, amended: in every state reachable from a freshly constructed
manager through `setQueuedTrack` (with a null or well-formed clip),
`clearActiveTrack`, `start`, `stop`, `abort` and callbacks (and through
`openDevice`, `close`, `setVolume`, `setOutChannels`), whenever
`m_activeTrack` is non-null it is a well-formed clip and the cursor is
channel-aligned with `0 ≤ m_activeSample ≤ size`: the length itself is
allowed. -/
theorem C10_cursor_invariant (s : PlaybackManager) (h : Reachable s) :
    ∀ t, s.m_activeTrack = some t →
      WellFormed t ∧ 0 ≤ s.m_activeSample ∧ s.m_activeSample ≤ sampleCount (some t) ∧
        s.m_activeSample % numChannelsOf (some t) = 0 :=
  (reachable_inv s h).1

/-- C10 amended, at the state after the two callbacks. -/
theorem C10_cursor_invariant_witness :
    Reachable (run (init stereoHost) twoCallbacks) ∧
    (run (init stereoHost) twoCallbacks).m_activeTrack = some (stereoClip 1024 false) ∧
    (0 ≤ (run (init stereoHost) twoCallbacks).m_activeSample ∧
      (run (init stereoHost) twoCallbacks).m_activeSample
        ≤ sampleCount (some (stereoClip 1024 false)) ∧
      (run (init stereoHost) twoCallbacks).m_activeSample
        % numChannelsOf (some (stereoClip 1024 false)) = 0) :=
  ⟨twoCallbacks_reachable, by decide,
    (C10_cursor_invariant (run (init stereoHost) twoCallbacks) twoCallbacks_reachable
      (stereoClip 1024 false) (by decide)).2⟩

/-! ## C11 -/

theorem stop_armed (s : PlaybackManager) (x : Int) (h : s.m_fadeOutStarted ≠ 0) :
    stop s x = s := by
  unfold stop
  split_ifs <;> rfl

theorem stop_not_running (s : PlaybackManager) (x : Int)
    (h : (s.m_audio.streamOpen && s.m_audio.streamRunning) = false) : stop s x = s := by
  unfold stop
  simp [h]

/-- C11: in a state in which a fade-out is already armed (`m_fadeOutStarted`
is not `0`), `stop(x)` is a no-op for every `x`, zero included: the manager
is left as it was, so the fade-out length, its counter, the armed flag and
the running status are unchanged and no signal is emitted.  Hence in every
state `stop(T)` followed by `stop(T')` leaves what `stop(T)` alone leaves. -/
theorem C11_stop_is_idempotent (s : PlaybackManager) (x T T1 : Int) :
    (s.m_fadeOutStarted ≠ 0 →
      stop s x = s ∧
      (stop s x).m_fadeOutSamples = s.m_fadeOutSamples ∧
      (stop s x).m_currFadeOut = s.m_currFadeOut ∧
      (stop s x).m_fadeOutStarted = s.m_fadeOutStarted ∧
      (stop s x).m_audio.streamRunning = s.m_audio.streamRunning ∧
      (stop s x).signals = s.signals) ∧
    stop (stop s T) T1 = stop s T := by
  constructor
  · intro h
    rw [stop_armed s x h]
    exact ⟨rfl, rfl, rfl, rfl, rfl, rfl⟩
  · by_cases hrun : (s.m_audio.streamOpen && s.m_audio.streamRunning) = true
    · by_cases h0 : s.m_fadeOutStarted = 0
      · by_cases hT : T = 0
        · have hs : stop s T =
              emit { s with
                m_fadeOutStarted := 0, m_fadeOutSamples := T, m_currFadeOut := 0,
                m_audio := { s.m_audio with streamRunning := false } } Signal.stopped := by
            unfold stop
            simp [hrun, h0, hT]
          rw [hs]
          exact stop_not_running _ _ (by simp [emit])
        · have hs : stop s T =
              { s with m_fadeOutStarted := 1, m_fadeOutSamples := T, m_currFadeOut := 0 } := by
            unfold stop
            simp [hrun, h0, hT]
          rw [hs]
          exact stop_armed _ _ (by simp)
      · rw [stop_armed s T h0, stop_armed s T1 h0]
    · have hf : (s.m_audio.streamOpen && s.m_audio.streamRunning) = false := by
        simpa using hrun
      rw [stop_not_running s T hf, stop_not_running s T1 hf]

/-- C11 at a running stream with a fade-out of 300 frames armed and 100 of
them done: `stop(0)` and `stop(50)` change nothing. -/
theorem C11_stop_is_idempotent_witness :
    stop (fadingOut (some (stereoClip 1000 false)) none 0 300 100) 0 =
      fadingOut (some (stereoClip 1000 false)) none 0 300 100 ∧
    stop (stop (playing (some (stereoClip 1000 false)) none 0) 300) 50 =
      stop (playing (some (stereoClip 1000 false)) none 0) 300 ∧
    (stop (playing (some (stereoClip 1000 false)) none 0) 300).m_fadeOutSamples = 300 :=
  ⟨((C11_stop_is_idempotent (fadingOut (some (stereoClip 1000 false)) none 0 300 100)
      0 0 0).1 (by decide)).1,
    (C11_stop_is_idempotent (playing (some (stereoClip 1000 false)) none 0) 0 300 50).2,
    rfl⟩

/-! ## C12 -/

/-- C12, refuted as stated: on a running stream with a fade-out of 300
frames armed and 100 of them done, `stop(0)` changes nothing: the stream is
still running, the fade-out is still armed, no signal is emitted, and the
next callback writes a further frame. -/
theorem C12_counterexample :
    (fadingOut (some (stereoClip 1000 false)) none 0 300 100).m_audio.streamOpen = true ∧
    (fadingOut (some (stereoClip 1000 false)) none 0 300 100).m_audio.streamRunning = true ∧
    (stop (fadingOut (some (stereoClip 1000 false)) none 0 300 100) 0).m_audio.streamRunning
      = true ∧
    (stop (fadingOut (some (stereoClip 1000 false)) none 0 300 100) 0).m_fadeOutStarted = 1 ∧
    (stop (fadingOut (some (stereoClip 1000 false)) none 0 300 100) 0).signals = [] ∧
    (writeNextAudioData
      (stop (fadingOut (some (stereoClip 1000 false)) none 0 300 100) 0) 1).code = 0 ∧
    (writeNextAudioData
      (stop (fadingOut (some (stereoClip 1000 false)) none 0 300 100) 0) 1).st.gains.length
      = 1 := by
  decide

/-- C12, amended: on a running stream with no fade-out armed
(`m_fadeOutStarted = 0`), `stop(0)` stops the stream at once: when it returns
the stream is open and no longer running, no fade-out is armed (flag, length
and counter are `0`), `stopped` has been emitted, and the clips and the
cursor are as before. -/
theorem C12_stop_zero_stops_at_once (s : PlaybackManager)
    (hopen : s.m_audio.streamOpen = true)
    (hrun : s.m_audio.streamRunning = true)
    (hfo : s.m_fadeOutStarted = 0) :
    isRunning (stop s 0) = false ∧
    (stop s 0).m_audio.streamOpen = true ∧
    (stop s 0).m_fadeOutStarted = 0 ∧
    (stop s 0).m_fadeOutSamples = 0 ∧
    (stop s 0).m_currFadeOut = 0 ∧
    (stop s 0).signals = s.signals ++ [Signal.stopped] ∧
    (stop s 0).m_activeTrack = s.m_activeTrack ∧
    (stop s 0).m_activeSample = s.m_activeSample ∧
    (stop s 0).m_queuedTrack = s.m_queuedTrack := by
  have hs : stop s 0 =
      emit { s with
        m_fadeOutStarted := 0, m_fadeOutSamples := 0, m_currFadeOut := 0,
        m_audio := { s.m_audio with streamRunning := false } } Signal.stopped := by
    unfold stop
    simp [hopen, hrun, hfo]
  rw [hs]
  exact ⟨rfl, hopen, rfl, rfl, rfl, rfl, rfl, rfl, rfl⟩

/-- C12 amended, at a running stream with no fade-out armed. -/
theorem C12_stop_zero_stops_at_once_witness :
    isRunning (playing (some (stereoClip 1000 false)) none 24) = true ∧
    isRunning (stop (playing (some (stereoClip 1000 false)) none 24) 0) = false ∧
    (stop (playing (some (stereoClip 1000 false)) none 24) 0).signals = [Signal.stopped] ∧
    (stop (playing (some (stereoClip 1000 false)) none 24) 0).m_activeSample = 24 := by
  have h := C12_stop_zero_stops_at_once (playing (some (stereoClip 1000 false)) none 24)
    rfl rfl rfl
  exact ⟨rfl, h.1, h.2.2.2.2.2.1, h.2.2.2.2.2.2.2.1⟩

/-! ## C13 -/

theorem abort_fade (s : PlaybackManager) :
    (abort s).m_fadeOutStarted = s.m_fadeOutStarted ∧
    (abort s).m_fadeOutSamples = s.m_fadeOutSamples ∧
    (abort s).m_currFadeOut = s.m_currFadeOut ∧
    (abort s).m_fadeInSamples = s.m_fadeInSamples ∧
    (abort s).m_currFadeIn = s.m_currFadeIn ∧
    (abort s).m_volume = s.m_volume := by
  unfold abort
  split_ifs <;> exact ⟨rfl, rfl, rfl, rfl, rfl, rfl⟩

theorem abort_running (s : PlaybackManager)
    (hopen : s.m_audio.streamOpen = true) (hrun : s.m_audio.streamRunning = true) :
    (abort s).m_audio.streamOpen = true ∧ (abort s).m_audio.streamRunning = false ∧
    (abort s).signals = s.signals ++ [Signal.stopped] := by
  unfold abort
  simp [hopen, hrun, emit]

theorem start_fadeOut (s : PlaybackManager) (T : Int) :
    (start s T).m_fadeOutStarted = s.m_fadeOutStarted ∧
    (start s T).m_fadeOutSamples = s.m_fadeOutSamples ∧
    (start s T).m_currFadeOut = s.m_currFadeOut ∧
    (start s T).m_volume = s.m_volume := by
  unfold start
  split_ifs
  · dsimp only
    split <;> exact ⟨rfl, rfl, rfl, rfl⟩
  · exact ⟨rfl, rfl, rfl, rfl⟩

/-- A callback after `abort()` and `start()` on a stream that was running
with a fade-out armed (`e` of `T` frames done): the fade-out goes on from
where it was. -/
theorem writeNextAudioData_abort_start (s : PlaybackManager) (N e T : Nat)
    (hopen : s.m_audio.streamOpen = true)
    (hrun : s.m_audio.streamRunning = true)
    (hok : trackOk s.m_activeTrack = true)
    (hch : 1 ≤ numChannelsOf s.m_activeTrack)
    (hfo : s.m_fadeOutStarted = 1)
    (hT : s.m_fadeOutSamples = T)
    (he : s.m_currFadeOut = e)
    (heT : e ≤ T)
    (hroom : s.m_activeSample + T * numChannelsOf s.m_activeTrack + 1
      ≤ sampleCount s.m_activeTrack)
    (hN : N ≤ T - e) :
    (writeNextAudioData (start (abort s) 0) N).code = 0 ∧
    (writeNextAudioData (start (abort s) 0) N).st.gains = fadeOutGains s.m_volume T e N ∧
    (writeNextAudioData (start (abort s) 0) N).st.pm.m_currFadeOut = ((e + N : Nat) : Int) := by
  obtain ⟨ha1, ha2, _⟩ := abort_running s hopen hrun
  obtain ⟨hf1, hf2, hf3, _, _, hf6⟩ := abort_fade s
  obtain ⟨hs1, hs2, hs3, hs4, _, _⟩ := start_fields (abort s) 0 ha1 ha2
  obtain ⟨hg1, hg2, hg3, hg4⟩ := start_fadeOut (abort s) 0
  have hab := abort_same s
  have hact : (start (abort s) 0).m_activeTrack = s.m_activeTrack := hs3.trans hab.1
  have hcur : (start (abort s) 0).m_activeSample = s.m_activeSample := hs4.trans hab.2.1
  have h := (writeNextAudioData_fadeOut (start (abort s) 0) N e T
    (by rw [hact]; exact hok) (by rw [hact]; exact hch)
    (by rw [hs1, hs2]; exact lt_irrefl _)
    (by rw [hg1, hf1]; exact hfo) (by rw [hg2, hf2]; exact hT) (by rw [hg3, hf3]; exact he) heT
    (by rw [hact, hcur]; exact hroom)).1 hN
  refine ⟨h.1, ?_, ?_⟩
  · rw [h.2.2, hg4, hf6]
  · rw [h.2.1]

/-- C13 at the failing input: a running stream with a fade-out of 300
frames armed and 100 of them done, then `abort()` and `start()`.  The other
two ways a stream stops leave no fade-out armed: `endPlayback()` clears the
three fade-out members and `stop(0)` disarms.  `abort()` stops the stream
and leaves the fade-out armed with its counter at 100.  On the stream
started again the next two frames are written with the gains of the frames
101 and 102 of the old fade-out, not with the master volume 1; `stop` with
any argument changes nothing, a fade-out being armed; and a callback of 256
frames writes the 200 frames left of the old fade-out and ends the playback
by itself.  The method `clearActiveTrack()` leaves the
fade-out armed as well. -/
theorem C13_abort_leaves_the_fade_out_armed :
    (endPlayback (fadingOut (some (stereoClip 1000 false)) none 0 300 100)).m_fadeOutStarted
      = 0 ∧
    (stop (playing (some (stereoClip 1000 false)) none 0) 0).m_fadeOutStarted = 0 ∧
    isRunning (abort (fadingOut (some (stereoClip 1000 false)) none 0 300 100)) = false ∧
    (abort (fadingOut (some (stereoClip 1000 false)) none 0 300 100)).m_fadeOutStarted = 1 ∧
    (abort (fadingOut (some (stereoClip 1000 false)) none 0 300 100)).m_fadeOutSamples = 300 ∧
    (abort (fadingOut (some (stereoClip 1000 false)) none 0 300 100)).m_currFadeOut = 100 ∧
    isRunning restarted = true ∧
    restarted.m_fadeOutStarted = 1 ∧
    (writeNextAudioData restarted 2).st.gains =
      [1 - 101 ^ 2 / 300 ^ 2, 1 - 102 ^ 2 / 300 ^ 2] ∧
    (1 - 101 ^ 2 / 300 ^ 2 : Rat) ≠ 1 ∧
    stop restarted 0 = restarted ∧
    (∀ T : Int, stop restarted T = restarted) ∧
    (writeNextAudioData restarted 256).code = 1 ∧
    (writeNextAudioData restarted 256).st.gains.length = 200 ∧
    (clearActiveTrack
      (fadingOut (some (stereoClip 1000 false)) none 0 300 100)).m_fadeOutStarted = 1 ∧
    (clearActiveTrack
      (fadingOut (some (stereoClip 1000 false)) none 0 300 100)).m_currFadeOut = 100 := by
  have hfade := writeNextAudioData_fadeOut restarted 256 100 300
    (by decide) (by decide) (by decide) rfl rfl rfl (by decide) (by decide)
  have hstop : ∀ T : Int, stop restarted T = restarted :=
    fun T => stop_armed restarted T (by decide)
  refine ⟨rfl, rfl, rfl, rfl, rfl, rfl, by decide, rfl, ?_, by norm_num, hstop 0, hstop,
    (hfade.2 (by decide)).1, ?_, rfl, rfl⟩
  · have h := writeNextAudioData_abort_start
      (fadingOut (some (stereoClip 1000 false)) none 0 300 100) 2 100 300
      rfl rfl (by decide) (by decide) rfl rfl rfl (by decide) (by decide) (by decide)
    have hr : restarted = start (abort (fadingOut (some (stereoClip 1000 false)) none 0 300 100)) 0 :=
      rfl
    rw [hr, h.2.1]
    have hv : (fadingOut (some (stereoClip 1000 false)) none 0 300 100).m_volume = 1 := rfl
    rw [hv]
    norm_num [fadeOutGains, fadeOutGain, fadeRatio, wrapInt32, List.range_succ]
  · rw [(hfade.2 (by decide)).2.2]
    simp [fadeOutGains]

/-! ## C14 -/

theorem close_devices (s : PlaybackManager) :
    (close s).m_deviceCacheDirty = s.m_deviceCacheDirty ∧
    (close s).m_deviceCache = s.m_deviceCache ∧
    (close s).m_audio.devices = s.m_audio.devices ∧
    (close s).m_outChannels = s.m_outChannels := by
  unfold close abort
  split_ifs <;> exact ⟨rfl, rfl, rfl, rfl⟩

theorem close_closed (s : PlaybackManager) :
    (close s).m_audio.streamOpen = false ∧
    ((s.m_audio.streamRunning = true → s.m_audio.streamOpen = true) →
      (close s).m_audio.streamRunning = false) := by
  unfold close
  split_ifs with h
  · exact ⟨rfl, fun _ => rfl⟩
  · refine ⟨by simpa using h, fun hr => ?_⟩
    cases hrun : s.m_audio.streamRunning with
    | false => rfl
    | true => exact absurd (hr hrun) h

theorem getDevices_names (s s1 : PlaybackManager)
    (h1 : s1.m_deviceCacheDirty = s.m_deviceCacheDirty)
    (h2 : s1.m_deviceCache = s.m_deviceCache)
    (h3 : s1.m_audio.devices = s.m_audio.devices) :
    (getDevices s1).2 = (getDevices s).2 := by
  unfold getDevices
  dsimp only
  rw [h1]
  split_ifs
  · dsimp only
    rw [h3]
  · rw [h2]

theorem getDevices_fields (s : PlaybackManager) :
    (getDevices s).1.m_audio = s.m_audio ∧
    (getDevices s).1.m_currentDevice = s.m_currentDevice ∧
    (getDevices s).1.signals = s.signals ∧
    (getDevices s).1.m_outChannels = s.m_outChannels := by
  unfold getDevices
  dsimp only
  split_ifs <;> exact ⟨rfl, rfl, rfl, rfl⟩

/-- C14: for every state and every name that is not an exact,
case-sensitive member of the device list `getDevices()` returns,
`openDevice(name)` returns `false`, reports that the device is not available
and nothing else (no stream is opened, `m_outChannels` is not touched), and
leaves the stream closed with an empty `m_currentDevice`. -/
theorem C14_openDevice_unknown_name (s : PlaybackManager) (name : String)
    (h : name ∉ (getDevices s).2) :
    (openDevice s name).2 = false ∧
    (openDevice s name).1.m_audio.streamOpen = false ∧
    ((s.m_audio.streamRunning = true → s.m_audio.streamOpen = true) →
      (openDevice s name).1.m_audio.streamRunning = false) ∧
    (openDevice s name).1.m_audio = (close s).m_audio ∧
    (openDevice s name).1.m_currentDevice = "" ∧
    (openDevice s name).1.m_outChannels = s.m_outChannels ∧
    (openDevice s name).1.signals =
      (close s).signals ++
        [Signal.errorReported ("Requested audio device is not available: " ++ name)] := by
  have hc := close_devices s
  have hcl := close_closed s
  have hn : (getDevices { close s with m_currentDevice := "" }).2 = (getDevices s).2 :=
    getDevices_names s _ hc.1 hc.2.1 hc.2.2.1
  have hg := getDevices_fields { close s with m_currentDevice := "" }
  have hidx : (getDevices { close s with m_currentDevice := "" }).2.indexOf? name = none := by
    rw [hn, List.indexOf?_eq_none_iff]
    intro x hx hxe
    have : x = name := by simpa using hxe
    exact h (this ▸ hx)
  unfold openDevice
  dsimp only
  rcases hgd : getDevices { close s with m_currentDevice := "" } with ⟨s3, names⟩
  rw [hgd] at hg hidx
  dsimp only at hg hidx ⊢
  rw [hidx]
  dsimp only [reportError, emit]
  refine ⟨rfl, ?_, ?_, hg.1, hg.2.1, ?_, ?_⟩
  · rw [hg.1]; exact hcl.1
  · intro hr; rw [hg.1]; exact hcl.2 hr
  · rw [hg.2.2.2]; exact hc.2.2.2
  · rw [hg.2.2.1]

/-- C14 on a host with the one device `dev`: `openDevice("nonexistent")` on
the fresh manager, and `openDevice("Dev")` while the stream runs on `dev`,
return `false` and leave the stream closed. -/
theorem C14_openDevice_unknown_name_witness :
    (getDevices (init stereoHost)).2 = ["dev"] ∧
    (openDevice (init stereoHost) "nonexistent").2 = false ∧
    (openDevice (init stereoHost) "nonexistent").1.m_audio.streamOpen = false ∧
    (openDevice (init stereoHost) "nonexistent").1.m_currentDevice = "" ∧
    isRunning (run (init stereoHost) [Op.openDevice "dev", Op.start 0]) = true ∧
    (run (init stereoHost) [Op.openDevice "dev", Op.start 0]).m_currentDevice = "dev" ∧
    (openDevice (run (init stereoHost) [Op.openDevice "dev", Op.start 0]) "Dev").2 = false ∧
    (openDevice (run (init stereoHost) [Op.openDevice "dev", Op.start 0])
      "Dev").1.m_audio.streamOpen = false ∧
    (openDevice (run (init stereoHost) [Op.openDevice "dev", Op.start 0])
      "Dev").1.m_audio.streamRunning = false ∧
    (openDevice (run (init stereoHost) [Op.openDevice "dev", Op.start 0])
      "Dev").1.m_currentDevice = "" := by
  have h1 := C14_openDevice_unknown_name (init stereoHost) "nonexistent" (by decide)
  have h2 := C14_openDevice_unknown_name
    (run (init stereoHost) [Op.openDevice "dev", Op.start 0]) "Dev" (by decide)
  exact ⟨by decide, h1.1, h1.2.1, h1.2.2.2.2.1, by decide, by decide, h2.1, h2.2.1,
    h2.2.2.1 (fun _ => by decide), h2.2.2.2.2.1⟩

/-! ## Frames of a fade-out, whatever the fade-in -/

theorem frameVolume_armed (s : PlaybackManager)
    (hfo : s.m_fadeOutStarted = 1)
    (he : s.m_currFadeOut < s.m_fadeOutSamples) :
    frameVolume s =
      (armedStep s,
        some ((fadeInVolume s).2 * (1 - fadeRatio (s.m_currFadeOut + 1) s.m_fadeOutSamples))) := by
  have h1 := fadeInVolume_fst s
  unfold frameVolume
  rcases hv : fadeInVolume s with ⟨s1, v⟩
  rw [hv] at h1
  simp only at h1
  subst h1
  simp [hfo, he, armedStep]

theorem frameVolume_armed_done (s : PlaybackManager)
    (hfo : s.m_fadeOutStarted = 1)
    (he : ¬ s.m_currFadeOut < s.m_fadeOutSamples) :
    frameVolume s = ((fadeInVolume s).1, none) := by
  have h1 := fadeInVolume_fst s
  unfold frameVolume
  rcases hv : fadeInVolume s with ⟨s1, v⟩
  rw [hv] at h1
  simp only at h1
  subst h1
  simp [hfo, he]

/-- A frame of a running fade-out, inside the clip: it loads at the cursor
plus `m_currFadeOut` frames and leaves the cursor where it is. -/
theorem frame_armed (st : LoopState) (i : Nat)
    (hfo : st.pm.m_fadeOutStarted = 1)
    (he : st.pm.m_currFadeOut < st.pm.m_fadeOutSamples)
    (hb : readOffset st.pm + 1 ≤ sampleCount st.pm.m_activeTrack) :
    frame st i =
      FrameResult.next
        (frameOutput st (armedStep st.pm) st.auxPlayback i
          (st.pm.m_activeSample + st.pm.m_currFadeOut * numChannelsOf st.pm.m_activeTrack)
          ((fadeInVolume st.pm).2 *
            (1 - fadeRatio (st.pm.m_currFadeOut + 1) st.pm.m_fadeOutSamples))) := by
  unfold frame
  rw [frameBounds_inside _ _ hb]
  simp only [frameVolume_armed _ hfo he, readOffset_fadeOut _ hfo]

/-- The frame that finds the fade-out counter at its length, inside the
clip: `return endPlayback()` before any load or store. -/
theorem frame_armed_done (st : LoopState) (i : Nat)
    (hfo : st.pm.m_fadeOutStarted = 1)
    (he : ¬ st.pm.m_currFadeOut < st.pm.m_fadeOutSamples)
    (hb : readOffset st.pm + 1 ≤ sampleCount st.pm.m_activeTrack) :
    frame st i = FrameResult.ret 1 { st with pm := endPlayback (fadeInVolume st.pm).1 } := by
  unfold frame
  rw [frameBounds_inside _ _ hb]
  simp only [frameVolume_armed_done _ hfo he]

theorem mainReads_append (a b : List SampleRead) :
    mainReads (a ++ b) = mainReads a ++ mainReads b := by
  simp [mainReads]

theorem mainReads_mainOutput (pm : PlaybackManager) (i : Nat) (sample : Int) (volume : Rat) :
    mainReads (mainOutput pm i sample volume).2 = mainLoads pm.m_activeTrack sample := by
  rw [mainOutput_reads]
  unfold mainReads mainLoads
  split_ifs <;> simp

theorem mainReads_auxOutput (pm : PlaybackManager) (i : Nat) (sample : Int) (volume : Rat)
    (aux : Bool) :
    mainReads (if aux then auxOutput pm i sample volume else ([], [])).2 = [] := by
  cases aux with
  | false => rfl
  | true =>
    simp only [if_true]
    rw [auxOutput_reads]
    unfold mainReads
    split_ifs <;> simp

/-- The loads from the main clip that one written frame adds. -/
theorem mainReads_frameOutput (st : LoopState) (pm : PlaybackManager) (aux : Bool) (i : Nat)
    (sample : Int) (volume : Rat) :
    mainReads (frameOutput st pm aux i sample volume).reads =
      mainReads st.reads ++ mainLoads pm.m_activeTrack sample := by
  rw [frameOutput_reads, mainReads_append, mainReads_append, mainReads_mainOutput,
    mainReads_auxOutput, List.append_nil]

/-- The loop over `n` frames of a running fade-out that has at least `n`
frames to go, inside the clip: the loop returns `0`, the cursor stays, the
fade-out counter advances by `n`, and frame `j` loads the main clip at the
cursor plus `m_currFadeOut + j` frames. -/
theorem frameLoop_armed (n : Nat) :
    ∀ (i : Nat) (st : LoopState),
      st.pm.m_fadeOutStarted = 1 →
      0 ≤ st.pm.m_currFadeOut →
      st.pm.m_currFadeOut + n ≤ st.pm.m_fadeOutSamples →
      1 ≤ numChannelsOf st.pm.m_activeTrack →
      st.pm.m_activeSample + (st.pm.m_currFadeOut + n) * numChannelsOf st.pm.m_activeTrack
        ≤ sampleCount st.pm.m_activeTrack →
      (frameLoop n i st).code = 0 ∧
      (frameLoop n i st).st.pm =
        { st.pm with
          m_currFadeOut := st.pm.m_currFadeOut + n,
          m_currFadeIn := (frameLoop n i st).st.pm.m_currFadeIn } ∧
      mainReads (frameLoop n i st).st.reads =
        mainReads st.reads ++ (List.range n).flatMap (fun (j : Nat) =>
          mainLoads st.pm.m_activeTrack
            (st.pm.m_activeSample
              + (st.pm.m_currFadeOut + (j : Int)) * numChannelsOf st.pm.m_activeTrack)) ∧
      (frameLoop n i st).st.gains.length = st.gains.length + n := by
  induction n with
  | zero =>
    intro i st _ _ _ _ _
    simp [frameLoop]
  | succ n ih =>
    intro i st hfo h0 he hch hb
    have hn : (0 : Int) ≤ n := Int.ofNat_nonneg n
    push_cast at he hb
    have he1 : st.pm.m_currFadeOut < st.pm.m_fadeOutSamples := by linarith
    have hb1 : readOffset st.pm + 1 ≤ sampleCount st.pm.m_activeTrack := by
      rw [readOffset_fadeOut _ hfo]
      nlinarith
    have hf := frame_armed st i hfo he1 hb1
    simp only [frameLoop, hf]
    have hadv : advanceCursor (armedStep st.pm) = armedStep st.pm :=
      advanceCursor_fadeOut _ hfo
    obtain ⟨h1, h3, h4, h5⟩ := ih (i + 1)
      (frameOutput st (armedStep st.pm) st.auxPlayback i
        (st.pm.m_activeSample + st.pm.m_currFadeOut * numChannelsOf st.pm.m_activeTrack)
        ((fadeInVolume st.pm).2 *
          (1 - fadeRatio (st.pm.m_currFadeOut + 1) st.pm.m_fadeOutSamples)))
      (by rw [frameOutput_pm, hadv]; exact hfo)
      (by rw [frameOutput_pm, hadv]; simp only [armedStep]; linarith)
      (by rw [frameOutput_pm, hadv]; simp only [armedStep]; linarith)
      (by rw [frameOutput_pm, hadv]; exact hch)
      (by rw [frameOutput_pm, hadv]; simp only [armedStep]; linarith)
    refine ⟨h1, ?_, ?_, ?_⟩
    · rw [h3, frameOutput_pm, hadv]
      simp only [armedStep]
      congr 1
      push_cast
      ring
    · rw [h4, frameOutput_pm, hadv, mainReads_frameOutput, List.append_assoc]
      congr 1
      rw [List.range_succ_eq_map, List.flatMap_cons, List.flatMap_map]
      simp only [armedStep, Nat.cast_zero, add_zero]
      congr 1
      congr 1
      funext j
      simp only [Function.comp, Nat.succ_eq_add_one]
      congr 1
      push_cast
      ring
    · rw [h5, frameOutput_gains, List.length_append, List.length_singleton]
      omega

/-- A callback during a fade-out of `T` frames of which `e` are done, on a
playable clip in which the read offsets up to the one of elapsed `T` are
inside the buffer, whatever the fade-in.  Frame `j` loads the main clip at
the cursor plus `e + j` frames; the cursor is not moved, neither while the
fade-out runs nor when it completes through `endPlayback`. -/
theorem writeNextAudioData_armed (s : PlaybackManager) (N e T : Nat)
    (hok : trackOk s.m_activeTrack = true)
    (hch : 1 ≤ numChannelsOf s.m_activeTrack)
    (hfo : s.m_fadeOutStarted = 1)
    (hT : s.m_fadeOutSamples = T)
    (he : s.m_currFadeOut = e)
    (heT : e ≤ T)
    (hroom : s.m_activeSample + T * numChannelsOf s.m_activeTrack + 1
      ≤ sampleCount s.m_activeTrack) :
    (N ≤ T - e →
      (writeNextAudioData s N).code = 0 ∧
      (writeNextAudioData s N).st.pm.m_activeSample = s.m_activeSample ∧
      (writeNextAudioData s N).st.pm.m_activeTrack = s.m_activeTrack ∧
      (writeNextAudioData s N).st.pm.m_currFadeOut = ((e + N : Nat) : Int) ∧
      mainReads (writeNextAudioData s N).st.reads =
        (List.range N).flatMap (fun (j : Nat) =>
          mainLoads s.m_activeTrack
            (s.m_activeSample + ((e : Int) + (j : Int)) * numChannelsOf s.m_activeTrack)) ∧
      (writeNextAudioData s N).st.gains.length = N) ∧
    (T - e < N →
      (writeNextAudioData s N).code = 1 ∧
      (writeNextAudioData s N).st.pm.m_activeSample = s.m_activeSample ∧
      (writeNextAudioData s N).st.pm.m_activeTrack = s.m_activeTrack ∧
      (writeNextAudioData s N).st.pm.m_fadeOutStarted = 0 ∧
      (writeNextAudioData s N).st.pm.signals = s.signals ++ [Signal.stopped] ∧
      mainReads (writeNextAudioData s N).st.reads =
        (List.range (T - e)).flatMap (fun (j : Nat) =>
          mainLoads s.m_activeTrack
            (s.m_activeSample + ((e : Int) + (j : Int)) * numChannelsOf s.m_activeTrack)) ∧
      (writeNextAudioData s N).st.gains.length = T - e) := by
  rw [writeNextAudioData_playable s N hok]
  have hloop : ∀ n : Nat, n ≤ T - e →
      (frameLoop n 0 (entry s)).code = 0 ∧
      (frameLoop n 0 (entry s)).st.pm =
        { s with
          m_currFadeOut := ((e + n : Nat) : Int),
          m_currFadeIn := (frameLoop n 0 (entry s)).st.pm.m_currFadeIn } ∧
      mainReads (frameLoop n 0 (entry s)).st.reads =
        (List.range n).flatMap (fun (j : Nat) =>
          mainLoads s.m_activeTrack
            (s.m_activeSample + ((e : Int) + (j : Int)) * numChannelsOf s.m_activeTrack)) ∧
      (frameLoop n 0 (entry s)).st.gains.length = n := by
    intro n hn
    have hnT : ((e : Int) + n) ≤ T := by exact_mod_cast (by omega : e + n ≤ T)
    obtain ⟨h1, h3, h4, h5⟩ := frameLoop_armed n 0 (entry s) hfo
      (by dsimp only; rw [he]; exact Int.ofNat_nonneg e)
      (by dsimp only; rw [he, hT]; exact hnT) hch
      (by dsimp only; rw [he]; nlinarith)
    refine ⟨h1, ?_, ?_, ?_⟩
    · rw [h3]; dsimp only; rw [he]; push_cast; rfl
    · rw [h4]; dsimp only; rw [he]; simp [mainReads]
    · rw [h5]; simp
  constructor
  · intro hN
    obtain ⟨h1, h3, h4, h5⟩ := hloop N hN
    refine ⟨h1, ?_, ?_, ?_, h4, h5⟩ <;> rw [h3]
  · intro hN
    obtain ⟨m, hm⟩ : ∃ m, N = (T - e) + (m + 1) := ⟨N - (T - e) - 1, by omega⟩
    obtain ⟨h1, h3, h4, h5⟩ := hloop (T - e) (le_refl _)
    rw [hm, frameLoop_add (T - e) (m + 1) 0 _ h1]
    generalize (frameLoop (T - e) 0 (entry s)).st = stT at h3 h4 h5
    have heq : e + (T - e) = T := by omega
    rw [heq] at h3
    have hfoT : stT.pm.m_fadeOutStarted = 1 := by rw [h3]; exact hfo
    have heT1 : ¬ stT.pm.m_currFadeOut < stT.pm.m_fadeOutSamples := by
      rw [h3]; dsimp only; rw [hT]; exact lt_irrefl _
    have hbT : readOffset stT.pm + 1 ≤ sampleCount stT.pm.m_activeTrack := by
      rw [readOffset_fadeOut _ hfoT, h3]; exact hroom
    simp only [frameLoop, frame_armed_done stT _ hfoT heT1 hbT]
    have hpm : (endPlayback (fadeInVolume stT.pm).1).m_activeSample = s.m_activeSample ∧
        (endPlayback (fadeInVolume stT.pm).1).m_activeTrack = s.m_activeTrack ∧
        (endPlayback (fadeInVolume stT.pm).1).signals = s.signals ++ [Signal.stopped] := by
      rw [fadeInVolume_fst, h3]
      exact ⟨rfl, rfl, rfl⟩
    exact ⟨trivial, hpm.1, hpm.2.1, rfl, hpm.2.2, h4, h5⟩

/-! ## C16 -/

/-- C16: a fade-out of `T` frames is armed, `e` of them are done, and the
read offsets up to the one of elapsed `T` stay inside the buffer of the
playable active clip.  Then the frame processed with fade-out counter
`e + j` loads the main clip at `m_activeSample + (e + j) * numChannels`, and
`writeNextAudioData` leaves `m_activeSample` unchanged, also when the
fade-out completes through `endPlayback`, after `T - e` written frames.  So
do successive callbacks.  And `stop(T)` with `T ≠ 0` on a running stream with
no fade-out armed arms the fade-out with counter `0` and keeps the cursor, so
the cursor at the end is the one `stop(T)` found. -/
theorem C16_cursor_frozen_during_fade_out (s : PlaybackManager) (N e T : Nat)
    (hok : trackOk s.m_activeTrack = true)
    (hch : 1 ≤ numChannelsOf s.m_activeTrack)
    (hfo : s.m_fadeOutStarted = 1)
    (hT : s.m_fadeOutSamples = T)
    (he : s.m_currFadeOut = e)
    (heT : e ≤ T)
    (hroom : s.m_activeSample + T * numChannelsOf s.m_activeTrack + 1
      ≤ sampleCount s.m_activeTrack) :
    (N ≤ T - e →
      (writeNextAudioData s N).code = 0 ∧
      (writeNextAudioData s N).st.pm.m_activeSample = s.m_activeSample ∧
      (writeNextAudioData s N).st.pm.m_currFadeOut = ((e + N : Nat) : Int) ∧
      mainReads (writeNextAudioData s N).st.reads =
        (List.range N).flatMap (fun (j : Nat) =>
          mainLoads s.m_activeTrack
            (s.m_activeSample + ((e : Int) + (j : Int)) * numChannelsOf s.m_activeTrack))) ∧
    (T - e < N →
      (writeNextAudioData s N).code = 1 ∧
      (writeNextAudioData s N).st.pm.m_activeSample = s.m_activeSample ∧
      (writeNextAudioData s N).st.pm.signals = s.signals ++ [Signal.stopped] ∧
      mainReads (writeNextAudioData s N).st.reads =
        (List.range (T - e)).flatMap (fun (j : Nat) =>
          mainLoads s.m_activeTrack
            (s.m_activeSample + ((e : Int) + (j : Int)) * numChannelsOf s.m_activeTrack)) ∧
      (writeNextAudioData s N).st.gains.length = T - e) ∧
    (∀ ns : List Nat, (playCallbacks s ns).2.m_activeSample = s.m_activeSample) ∧
    (∀ s0 : PlaybackManager, s0.m_audio.streamOpen = true → s0.m_audio.streamRunning = true →
      s0.m_fadeOutStarted = 0 → T ≠ 0 →
      stop s0 T =
        { s0 with m_fadeOutStarted := 1, m_fadeOutSamples := (T : Int), m_currFadeOut := 0 }) := by
  have h := writeNextAudioData_armed s N e T hok hch hfo hT he heT hroom
  refine ⟨fun hN => ?_, fun hN => ?_, ?_, ?_⟩
  · obtain ⟨h1, h2, _, h4, h5, _⟩ := h.1 hN
    exact ⟨h1, h2, h4, h5⟩
  · obtain ⟨h1, h2, _, _, h5, h6, h7⟩ := h.2 hN
    exact ⟨h1, h2, h5, h6, h7⟩
  · intro ns
    rw [playCallbacks_sum ns s hok]
    have hs := writeNextAudioData_armed s ns.sum e T hok hch hfo hT he heT hroom
    by_cases hc : ns.sum ≤ T - e
    · exact (hs.1 hc).2.1
    · exact (hs.2 (by omega)).2.1
  · intro s0 hopen hrun h0 hT0
    unfold stop
    have : (T : Int) ≠ 0 := by exact_mod_cast hT0
    simp [hopen, hrun, h0, this]

/-- C16 at `stop(300)` on a running stereo clip of 1000 samples at cursor
24: a callback of 256 frames and one of 100 frames complete the fade-out and
the cursor is still 24, although 300 frames after it were played; the first
two frames load the samples 24, 25, 26, 27. -/
theorem C16_cursor_frozen_during_fade_out_witness :
    stop (playing (some (stereoClip 1000 false)) none 24) 300 =
      fadingOut (some (stereoClip 1000 false)) none 24 300 0 ∧
    (playCallbacks (fadingOut (some (stereoClip 1000 false)) none 24 300 0)
      [256, 100]).2.m_activeSample = 24 ∧
    (writeNextAudioData (fadingOut (some (stereoClip 1000 false)) none 24 300 0) 356).code = 1 ∧
    (writeNextAudioData (fadingOut (some (stereoClip 1000 false)) none 24 300 0)
      356).st.gains.length = 300 - 0 ∧
    mainReads
        (writeNextAudioData (fadingOut (some (stereoClip 1000 false)) none 24 300 0) 2).st.reads =
      [⟨false, 24, 1000⟩, ⟨false, 25, 1000⟩, ⟨false, 26, 1000⟩, ⟨false, 27, 1000⟩] := by
  have h := C16_cursor_frozen_during_fade_out
    (fadingOut (some (stereoClip 1000 false)) none 24 300 0) 356 0 300
    (by decide) (by decide) rfl rfl rfl (by decide) (by decide)
  have h2 := C16_cursor_frozen_during_fade_out
    (fadingOut (some (stereoClip 1000 false)) none 24 300 0) 2 0 300
    (by decide) (by decide) rfl rfl rfl (by decide) (by decide)
  refine ⟨rfl, h.2.2.1 [256, 100], (h.2.1 (by decide)).1, (h.2.1 (by decide)).2.2.2.2, ?_⟩
  rw [(h2.1 (by decide)).2.2.2]
  decide

/-! ## The loads are inside the buffers -/

theorem BufferOk_playable (t : Option TrackData) (hb : BufferOk t) (hok : trackOk t = true) :
    1 ≤ numChannelsOf t ∧ sampleCount t % numChannelsOf t = 0 ∧ 512 < sampleCount t := by
  have h512 := sampleCount_gt_of_trackOk t hok
  cases t with
  | none => simp [trackOk] at hok
  | some tr =>
    cases hbuf : tr.buffer with
    | none => simp [trackOk, hbuf] at hok
    | some b =>
      have h := hb tr b rfl hbuf
      simp only [numChannelsOf, sampleCount, floatDataOf, hbuf] at h512 ⊢
      exact ⟨h.1, h.2, h512⟩

/-- The aux read offset is inside the aux buffer, with room for the right
sample when the aux clip has at least two channels. -/
theorem auxOffset_inBounds (frames auxch auxsize : Int)
    (hf : 0 ≤ frames) (hch : 1 ≤ auxch) (hdiv : auxsize % auxch = 0) (hpos : 0 < auxsize) :
    0 ≤ Int.tmod (frames * auxch) auxsize ∧
    Int.tmod (frames * auxch) auxsize < auxsize ∧
    (2 ≤ auxch → Int.tmod (frames * auxch) auxsize + 1 < auxsize) := by
  have hprod : 0 ≤ frames * auxch := mul_nonneg hf (by linarith)
  rw [Int.tmod_eq_emod hprod (le_of_lt hpos)]
  have h0 : 0 ≤ frames * auxch % auxsize := Int.emod_nonneg _ (ne_of_gt hpos)
  have h1 : frames * auxch % auxsize < auxsize := Int.emod_lt_of_pos _ hpos
  refine ⟨h0, h1, fun h2 => ?_⟩
  have hal : frames * auxch % auxsize % auxch = 0 := by
    rw [Int.emod_emod_of_dvd _ (Int.dvd_of_emod_eq_zero hdiv), Int.mul_emod_left]
  have := aligned_room _ _ _ hch hal hdiv (by linarith)
  linarith

theorem mainLoads_inBounds (track : Option TrackData) (sample : Int)
    (hch : 1 ≤ numChannelsOf track) (hdiv : sampleCount track % numChannelsOf track = 0)
    (h0 : 0 ≤ sample) (hal : sample % numChannelsOf track = 0)
    (hlt : sample + 1 ≤ sampleCount track) :
    ∀ r ∈ mainLoads track sample, InBounds r := by
  intro r hr
  unfold mainLoads at hr
  rcases List.mem_cons.mp hr with e | hr1
  · subst e
    exact ⟨h0, by dsimp only; linarith⟩
  · split_ifs at hr1 with h2
    · simp at hr1
    · have e := List.mem_singleton.mp hr1
      subst e
      have := aligned_room _ _ _ hch hal hdiv hlt
      exact ⟨by dsimp only; linarith, by dsimp only; linarith⟩

theorem mainOutput_reads_eq (pm : PlaybackManager) (i : Nat) (sample : Int) (volume : Rat) :
    (mainOutput pm i sample volume).2 = mainLoads pm.m_activeTrack sample := by
  rw [mainOutput_reads]
  rfl

/-- The loads of a frame are inside the buffers. -/
theorem frameOutput_inBounds (st : LoopState) (pm : PlaybackManager) (aux : Bool) (i : Nat)
    (sample : Int) (volume : Rat) (h : FramePre pm sample aux) :
    ∀ r ∈ (frameOutput st pm aux i sample volume).reads, r ∈ st.reads ∨ InBounds r := by
  obtain ⟨hok, haux, hb1, hb2, _, _, _, _, _, hs0, hsal, hslt⟩ := h
  obtain ⟨hch, hdiv, _⟩ := BufferOk_playable _ hb1 hok
  intro r hr
  rw [frameOutput_reads] at hr
  rcases List.mem_append.mp hr with hr1 | hr1
  · rcases List.mem_append.mp hr1 with hr2 | hr2
    · exact Or.inl hr2
    · rw [mainOutput_reads_eq] at hr2
      exact Or.inr (mainLoads_inBounds _ _ hch hdiv hs0 hsal hslt r hr2)
  · right
    split_ifs at hr1 with ha
    · rw [ha] at haux
      have hauxok : trackOk pm.m_activeAuxTrack = true := by
        have := haux.symm
        unfold auxPlaybackOf at this
        simp only [Bool.and_eq_true, decide_eq_true_eq] at this
        exact this.2
      obtain ⟨hach, hadiv, ha512⟩ := BufferOk_playable _ hb2 hauxok
      have hfr : 0 ≤ Int.tdiv sample (numChannelsOf pm.m_activeTrack) :=
        Int.tdiv_nonneg hs0 (by linarith)
      obtain ⟨o0, o1, o2⟩ := auxOffset_inBounds _ _ _ hfr hach hadiv (by linarith)
      rw [auxOutput_reads] at hr1
      rcases List.mem_cons.mp hr1 with e | hr3
      · subst e
        exact ⟨o0, o1⟩
      · split_ifs at hr3 with h2
        · simp at hr3
        · have e := List.mem_singleton.mp hr3
          subst e
          exact ⟨by dsimp only; unfold auxOffset; linarith,
            by dsimp only; unfold auxOffset; exact o2 (by linarith)⟩
    · simp at hr1

theorem frameVolume_currFadeOut (s : PlaybackManager) (h : 0 ≤ s.m_currFadeOut) :
    0 ≤ (frameVolume s).1.m_currFadeOut := by
  have h1 := fadeInVolume_fst s
  unfold frameVolume
  rcases hv : fadeInVolume s with ⟨s1, v⟩
  rw [hv] at h1
  simp only at h1
  subst h1
  dsimp only
  split_ifs <;> dsimp only <;> linarith

theorem BufferOk_none : BufferOk none := by
  intro t b h
  cases h

theorem FramePre_transfer (pm pm1 : PlaybackManager) (sample : Int) (aux : Bool)
    (h : FramePre pm sample aux)
    (h1 : pm1.m_activeTrack = pm.m_activeTrack)
    (h2 : pm1.m_activeAuxTrack = pm.m_activeAuxTrack)
    (h3 : pm1.m_queuedTrack = pm.m_queuedTrack)
    (h4 : pm1.m_queuedAuxTrack = pm.m_queuedAuxTrack)
    (h5 : pm1.m_outChannels = pm.m_outChannels)
    (h6 : pm1.m_activeSample = pm.m_activeSample)
    (h7 : 0 ≤ pm1.m_currFadeOut) :
    FramePre pm1 sample aux := by
  unfold FramePre at h ⊢
  unfold auxPlaybackOf at h ⊢
  rw [h1, h2, h3, h4, h5, h6]
  obtain ⟨a1, a2, a3, a4, a5, a6, a7, a8, _, a10, a11, a12⟩ := h
  exact ⟨a1, a2, a3, a4, a5, a6, a7, a8, h7, a10, a11, a12⟩

theorem advanceCursor_currFadeOut (s : PlaybackManager) :
    (advanceCursor s).m_currFadeOut = s.m_currFadeOut := by
  unfold advanceCursor
  split_ifs <;> rfl

/-- After the frame has been written the invariant holds again. -/
theorem ReadInv_frameOutput (st : LoopState) (pm : PlaybackManager) (aux : Bool) (i : Nat)
    (sample : Int) (volume : Rat) (h : FramePre pm sample aux) :
    ReadInv (frameOutput st pm aux i sample volume) := by
  obtain ⟨a1, a2, a3, a4, a5, a6, a7, a8, a9, _, _, _⟩ := h
  obtain ⟨hch, _, _⟩ := BufferOk_playable _ a3 a1
  have ht := advanceCursor_tracks pm
  unfold ReadInv
  rw [frameOutput_pm, frameOutput_auxPlayback, advanceCursor_currFadeOut]
  unfold auxPlaybackOf at a2 ⊢
  rw [ht.1, ht.2.1, ht.2.2.1, ht.2.2.2.1, ht.2.2.2.2.1]
  refine ⟨a1, a2, a3, a4, a5, a6, ?_, ?_, a9⟩
  · unfold advanceCursor
    split_ifs
    · dsimp only; linarith
    · exact a7
  · unfold advanceCursor
    split_ifs
    · dsimp only
      rw [Int.add_emod, a8, Int.emod_self]
      simp
    · exact a8

/-- What the bounds check hands to the rest of the frame satisfies
`FramePre`. -/
theorem frameBounds_pre (st : LoopState) (pm : PlaybackManager) (sample : Int) (aux : Bool)
    (h : ReadInv st)
    (hb : frameBounds st.pm st.auxPlayback = BoundsResult.goOn pm sample aux) :
    FramePre pm sample aux := by
  obtain ⟨a1, a2, a3, a4, a5, a6, a7, a8, a9⟩ := h
  obtain ⟨hch, _, _⟩ := BufferOk_playable _ a3 a1
  rcases frameBounds_goOn _ _ _ _ _ hb with ⟨hin, e1, e2, e3⟩ | ⟨_, e1, e2, e3, e4, _⟩
  · subst e1 e2 e3
    refine ⟨a1, a2, a3, a4, a5, a6, a7, a8, a9, ?_, ?_, hin⟩
    · unfold readOffset
      split_ifs
      · nlinarith
      · exact a7
    · unfold readOffset
      split_ifs
      · rw [Int.add_mul_emod_self]
        exact a8
      · exact a8
  · subst e2
    have h512 := sampleCount_gt_of_trackOk _ e4
    cases hq : st.pm.m_queuedTrack with
    | none =>
      have hx : ({ st.pm with m_activeSample := 0 } : PlaybackManager).m_queuedTrack = none := hq
      have e5 := e1.trans (checkQueue_none _ hx)
      subst e5
      simp [trackOk] at e4
    | some q =>
      have hx : ({ st.pm with m_activeSample := 0 } : PlaybackManager).m_queuedTrack = some q :=
        hq
      have e5 := e1.trans (checkQueue_some _ q hx)
      rw [hq] at a5
      rw [e5] at e3 e4 h512 ⊢
      exact ⟨e4, e3, a5, a6, BufferOk_none, BufferOk_none, le_refl _, by simp, a9, le_refl _,
        by simp, by dsimp only at h512 ⊢; linarith⟩

/-- Every frame keeps the invariant for the loads and loads inside the
buffers only; a frame that returns loads nothing. -/
theorem frame_readInv (st : LoopState) (i : Nat) (h : ReadInv st) :
    (∀ code st1, frame st i = FrameResult.ret code st1 → st1.reads = st.reads) ∧
    (∀ st1, frame st i = FrameResult.next st1 →
      ReadInv st1 ∧ ∀ r ∈ st1.reads, r ∈ st.reads ∨ InBounds r) := by
  unfold frame
  cases hb : frameBounds st.pm st.auxPlayback with
  | stopHere pm =>
    dsimp only
    constructor
    · intro code st1 hf
      injection hf with _ h2
      rw [← h2]
    · intro st1 hf; cases hf
  | goOn pm sample aux =>
    dsimp only
    have hpre := frameBounds_pre st pm sample aux h hb
    have ht := frameVolume_tracks pm
    have hcf := frameVolume_currFadeOut pm hpre.2.2.2.2.2.2.2.2.1
    rcases hv : frameVolume pm with ⟨pm1, _ | volume⟩
    · dsimp only
      constructor
      · intro code st1 hf
        injection hf with _ h2
        rw [← h2]
      · intro st1 hf; cases hf
    · rw [hv] at ht hcf
      dsimp only at ht hcf ⊢
      have hpre1 : FramePre pm1 sample aux :=
        FramePre_transfer pm pm1 sample aux hpre ht.1 ht.2.1 ht.2.2.1 ht.2.2.2.1
          ht.2.2.2.2.1 ht.2.2.2.2.2.1 hcf
      constructor
      · intro code st1 hf; cases hf
      · intro st1 hf
        injection hf with h1
        subst h1
        exact ⟨ReadInv_frameOutput st pm1 aux i sample volume hpre1,
          frameOutput_inBounds st pm1 aux i sample volume hpre1⟩

theorem frameLoop_readInv (n : Nat) :
    ∀ (i : Nat) (st : LoopState), ReadInv st →
      ∀ r ∈ (frameLoop n i st).st.reads, r ∈ st.reads ∨ InBounds r := by
  induction n with
  | zero => intro i st _ r hr; exact Or.inl hr
  | succ n ih =>
    intro i st h r hr
    obtain ⟨hret, hnext⟩ := frame_readInv st i h
    simp only [frameLoop] at hr
    cases hf : frame st i with
    | ret code st1 =>
      rw [hf] at hr
      dsimp only at hr
      rw [hret code st1 hf] at hr
      exact Or.inl hr
    | next st1 =>
      rw [hf] at hr
      dsimp only at hr
      obtain ⟨hinv1, hrs⟩ := hnext st1 hf
      rcases ih (i + 1) st1 hinv1 r hr with h1 | h1
      · exact hrs r h1
      · exact Or.inr h1

theorem BufferOk_stereoClip (n : Nat) (b : Bool) (h : (n : Int) % 2 = 0) :
    BufferOk (some (stereoClip n b)) := by
  intro t buf ht hb
  cases ht
  cases hb
  exact ⟨by norm_num, by simpa using h⟩

theorem BufferOk_monoClip (n : Nat) : BufferOk (some (monoClip n)) := by
  intro t buf ht hb
  cases ht
  cases hb
  exact ⟨by norm_num, by simp⟩

/-- With exact index arithmetic every load of `writeNextAudioData` is
inside the vector it reads, for every frame count `N`.  Assumed: the buffer
of every clip the manager holds (active, active aux, queued, queued aux) has
at least one channel and a length that is a multiple of its channel count;
the cursor is not negative and, when the active clip is playable, a multiple
of its channel count; the fade-out counter is not negative (the fade-in
counter enters no index). -/
theorem writeNextAudioData_reads_inBounds (s : PlaybackManager) (N : Nat)
    (hA : BufferOk s.m_activeTrack) (hAx : BufferOk s.m_activeAuxTrack)
    (hQ : BufferOk s.m_queuedTrack) (hQx : BufferOk s.m_queuedAuxTrack)
    (hc : 0 ≤ s.m_activeSample)
    (hal : trackOk s.m_activeTrack = true →
      s.m_activeSample % numChannelsOf s.m_activeTrack = 0)
    (hf : 0 ≤ s.m_currFadeOut) :
    ∀ r ∈ (writeNextAudioData s N).st.reads, InBounds r := by
  intro r hr
  have key : ∀ s1 : PlaybackManager, trackOk s1.m_activeTrack = true →
      ReadInv (entry s1) → r ∈ (frameLoop N 0 (entry s1)).st.reads → InBounds r := by
    intro s1 _ hinv hr1
    rcases frameLoop_readInv N 0 (entry s1) hinv r hr1 with h | h
    · simp at h
    · exact h
  cases hact : s.m_activeTrack with
  | some t =>
    by_cases hok : trackOk s.m_activeTrack = true
    · rw [writeNextAudioData_playable s N hok] at hr
      exact key s hok ⟨hok, rfl, hA, hAx, hQ, hQx, hc, hal hok, hf⟩ hr
    · simp [writeNextAudioData, hact] at hr
      rw [hact] at hok
      simp [hok] at hr
  | none =>
    cases hq : s.m_queuedTrack with
    | none =>
      have hcq := checkQueue_none s hq
      simp [writeNextAudioData, hact, hcq, trackOk] at hr
    | some q =>
      have hcq := checkQueue_some s q hq
      by_cases hok : trackOk (some q) = true
      · have hw : writeNextAudioData s N = frameLoop N 0 (entry (checkQueue s)) := by
          simp [writeNextAudioData, hact, hcq, hok, entry]
        rw [hw] at hr
        rw [hq] at hQ
        refine key (checkQueue s) (by rw [hcq]; exact hok) ?_ hr
        rw [hcq]
        exact ⟨hok, rfl, hQ, hQx, BufferOk_none, BufferOk_none, le_refl _, by simp, hf⟩
      · simp [writeNextAudioData, hact, hcq, hok] at hr

/-! ## An unplayable active clip -/

/-- The callback on an active clip that `trackOk` rejects: it returns
`endPlayback()` before the loop. -/
theorem writeNextAudioData_unplayable (s : PlaybackManager) (t : TrackData) (N : Nat)
    (ha : s.m_activeTrack = some t) (hbad : trackOk (some t) = false) :
    writeNextAudioData s N =
      ⟨1, { pm := endPlayback s, auxPlayback := false, out := [], reads := [], gains := [] }⟩ := by
  simp [writeNextAudioData, ha, hbad]

theorem hostCallback_unplayable (s : PlaybackManager) (t : TrackData) (N : Nat)
    (ha : s.m_activeTrack = some t) (hbad : trackOk (some t) = false) :
    (hostCallback s N).m_activeTrack = some t := by
  unfold hostCallback playbackCallback
  rw [writeNextAudioData_unplayable s t N ha hbad]
  simp [endPlayback, emit, ha]

theorem step_unplayable (s : PlaybackManager) (t : TrackData) (op : Op)
    (hop : op ≠ Op.clearActiveTrack)
    (ha : s.m_activeTrack = some t) (hbad : trackOk (some t) = false) :
    (step s op).m_activeTrack = some t := by
  cases op with
  | setQueuedTrack clip aux => exact (setQueuedTrack_fields s clip aux).1.trans ha
  | clearActiveTrack => exact absurd rfl hop
  | start T => exact (start_same s T).1.trans ha
  | stop T => exact (stop_same s T).1.trans ha
  | abort => exact (abort_same s).1.trans ha
  | callback N => exact hostCallback_unplayable s t N ha hbad
  | openDevice name => exact (openDevice_same s name).1.trans ha
  | close => exact (close_same s).1.trans ha
  | setVolume v => exact ha
  | setOutChannels c => exact ha

theorem run_unplayable (t : TrackData) (hbad : trackOk (some t) = false) (ops : List Op) :
    ∀ s : PlaybackManager, Op.clearActiveTrack ∉ ops → s.m_activeTrack = some t →
      (run s ops).m_activeTrack = some t := by
  induction ops with
  | nil => intro s _ ha; exact ha
  | cons op ops ih =>
    intro s hops ha
    have h1 : op ≠ Op.clearActiveTrack := fun h => hops (by rw [h]; exact List.mem_cons_self _ _)
    have h2 : Op.clearActiveTrack ∉ ops := fun h => hops (List.mem_cons_of_mem _ h)
    exact ih (step s op) h2 (step_unplayable s t op h1 ha hbad)

/-- C18: an active clip that `trackOk` rejects (null buffer, or at most 512
samples) stays active over every sequence of operations without
`clearActiveTrack` (`setQueuedTrack`, `start`, `stop`, callbacks, and the
other operations of the control surface), and every `writeNextAudioData`
after such a sequence returns `1`, stores nothing to `out`, loads nothing,
and leaves the active clip and the queued pair as they are, whatever is
queued. -/
theorem C18_unplayable_active_clip_stays (s : PlaybackManager) (t : TrackData)
    (ops : List Op) (N : Nat)
    (ha : s.m_activeTrack = some t) (hbad : trackOk (some t) = false)
    (hops : Op.clearActiveTrack ∉ ops) :
    (run s ops).m_activeTrack = some t ∧
    (writeNextAudioData (run s ops) N).code = 1 ∧
    (writeNextAudioData (run s ops) N).st.out = [] ∧
    (writeNextAudioData (run s ops) N).st.reads = [] ∧
    (writeNextAudioData (run s ops) N).st.pm.m_activeTrack = some t ∧
    (writeNextAudioData (run s ops) N).st.pm.m_queuedTrack = (run s ops).m_queuedTrack ∧
    (writeNextAudioData (run s ops) N).st.pm.m_queuedAuxTrack =
      (run s ops).m_queuedAuxTrack := by
  have hr := run_unplayable t hbad ops s hops ha
  rw [writeNextAudioData_unplayable (run s ops) t N hr hbad]
  exact ⟨hr, rfl, rfl, rfl, hr, rfl, rfl⟩

/-- C18 on `stuck` and `retry`: the callback promoted a clip of 512 samples;
after a playable clip of 1024 samples has been queued and the stream started
twice, the clip of 512 samples is still active, the playable clip is still
queued, and a callback of 256 frames returns `1` with nothing written. -/
theorem C18_unplayable_active_clip_stays_witness :
    stuck.m_activeTrack = some (stereoClip 512 false) ∧
    trackOk (some (stereoClip 512 false)) = false ∧
    Op.clearActiveTrack ∉ retry ∧
    trackOk (run stuck retry).m_queuedTrack = true ∧
    isRunning (run stuck retry) = true ∧
    ((run stuck retry).m_activeTrack = some (stereoClip 512 false) ∧
     (writeNextAudioData (run stuck retry) 256).code = 1 ∧
     (writeNextAudioData (run stuck retry) 256).st.out = [] ∧
     (writeNextAudioData (run stuck retry) 256).st.reads = [] ∧
     (writeNextAudioData (run stuck retry) 256).st.pm.m_activeTrack =
       some (stereoClip 512 false) ∧
     (writeNextAudioData (run stuck retry) 256).st.pm.m_queuedTrack =
       (run stuck retry).m_queuedTrack ∧
     (writeNextAudioData (run stuck retry) 256).st.pm.m_queuedAuxTrack =
       (run stuck retry).m_queuedAuxTrack) :=
  ⟨by decide, by decide, by simp [retry], by decide, by decide,
   C18_unplayable_active_clip_stays stuck (stereoClip 512 false) retry 256
     (by decide) (by decide) (by simp [retry])⟩

/-! ## The range of the fade products -/

theorem wrapInt32_eq_iff (x : Int) : wrapInt32 x = x ↔ FitsInt32 x := by
  unfold wrapInt32 FitsInt32
  omega

theorem wrapInt32_square_ne (T : Int) (hT : 46341 ≤ T) : wrapInt32 (T * T) ≠ T * T := by
  have h : 2147483648 ≤ T * T := by nlinarith
  intro he
  have hf := (wrapInt32_eq_iff (T * T)).mp he
  unfold FitsInt32 at hf
  omega

/-- C19: for a fade length `T ≥ 1`, the products `k * k` for `1 ≤ k ≤ T`
(`T * T` among them) all lie in the `int` range if and only if `T ≤ 46340`;
the ratio `float(k * k) / float(T * T)` the source computes is the exact
`k^2 / T^2` for every `1 ≤ k ≤ T` if and only if `T ≤ 46340`, and it then
lies in `(0, 1]`; for `T ≥ 46341` the wrapped `T * T` is not `T^2`. -/
theorem C19_fade_products_fit_up_to_46340 (T : Int) (hT : 1 ≤ T) :
    ((∀ k : Int, 1 ≤ k → k ≤ T → FitsInt32 (k * k)) ↔ T ≤ 46340) ∧
    ((∀ k : Int, 1 ≤ k → k ≤ T → wrapInt32 (k * k) = k * k) ↔ T ≤ 46340) ∧
    ((∀ k : Int, 1 ≤ k → k ≤ T → fadeRatio k T = (k : Rat) ^ 2 / (T : Rat) ^ 2) ↔ T ≤ 46340) ∧
    (T ≤ 46340 → ∀ k : Int, 1 ≤ k → k ≤ T → 0 < fadeRatio k T ∧ fadeRatio k T ≤ 1) ∧
    (46341 ≤ T → wrapInt32 (T * T) ≠ T * T) := by
  have hfit : (∀ k : Int, 1 ≤ k → k ≤ T → FitsInt32 (k * k)) ↔ T ≤ 46340 := by
    constructor
    · intro h
      have hTT := (h T hT (le_refl _)).2
      by_contra hc
      have h1 : 46341 ≤ T := by omega
      nlinarith
    · intro h k hk1 hkT
      unfold FitsInt32
      constructor <;> nlinarith
  refine ⟨hfit, ?_, ?_, ?_, wrapInt32_square_ne T⟩
  · rw [← hfit]
    constructor
    · intro h k hk1 hkT
      exact (wrapInt32_eq_iff _).mp (h k hk1 hkT)
    · intro h k hk1 hkT
      exact (wrapInt32_eq_iff _).mpr (h k hk1 hkT)
  · constructor
    · intro h
      by_contra hc
      have h1 : 46341 ≤ T := by omega
      have h2 := h 1 (le_refl _) hT
      unfold fadeRatio at h2
      have hw1 : wrapInt32 (1 * 1) = 1 := by decide
      rw [hw1] at h2
      have h3 : ((wrapInt32 (T * T) : Int) : Rat) = ((T * T : Int) : Rat) := by
        have h4 : ((wrapInt32 (T * T) : Int) : Rat)⁻¹ = ((T * T : Int) : Rat)⁻¹ := by
          push_cast at h2 ⊢
          simpa [sq] using h2
        exact inv_inj.mp h4
      exact wrapInt32_square_ne T h1 (by exact_mod_cast h3)
    · intro h k hk1 hkT
      exact fadeRatio_exact k T (by omega) hkT h
  · intro h k hk1 hkT
    rw [fadeRatio_exact k T (by omega) hkT h]
    have hk : (0 : Rat) < (k : Rat) := by exact_mod_cast (by omega : (0 : Int) < k)
    have hTq : (0 : Rat) < (T : Rat) := by exact_mod_cast (by omega : (0 : Int) < T)
    have hkTq : (k : Rat) ≤ (T : Rat) := by exact_mod_cast hkT
    have hT2 : (0 : Rat) < (T : Rat) ^ 2 := by positivity
    constructor
    · positivity
    · rw [div_le_one hT2]
      nlinarith

/-- C19 at the two sides of the bound: at `T = 46340` the last product is
`2147395600`, inside the range, and the ratio at `k = 23170` is the exact
`1/4`; at `T = 46341` the product `2147488281` wraps to `-2147479015`. -/
theorem C19_fade_products_fit_up_to_46340_witness :
    (1 : Int) ≤ 46340 ∧ (1 : Int) ≤ 46341 ∧
    wrapInt32 (46340 * 46340) = 2147395600 ∧
    fadeRatio 23170 46340 = 1 / 4 ∧
    (0 < fadeRatio 23170 46340 ∧ fadeRatio 23170 46340 ≤ 1) ∧
    wrapInt32 (46341 * 46341) = -2147479015 ∧
    wrapInt32 (46341 * 46341) ≠ 46341 * 46341 :=
  ⟨by decide, by decide, by decide,
   by
    rw [((C19_fade_products_fit_up_to_46340 46340 (by decide)).2.2.1.mpr (le_refl _)) 23170
      (by decide) (by decide)]
    norm_num,
   (C19_fade_products_fit_up_to_46340 46340 (by decide)).2.2.2.1 (le_refl _) 23170
     (by decide) (by decide),
   by decide,
   (C19_fade_products_fit_up_to_46340 46341 (by decide)).2.2.2.2 (le_refl _)⟩

/-! ## The rows of the track folder model -/

theorem mapContains_insert (m : List (String × Option TrackData)) (key name : String)
    (v : Option TrackData) :
    mapContains (mapInsert m key v) name = (decide (name = key) || mapContains m name) := by
  unfold mapContains mapInsert
  by_cases h : name = key
  · subst h
    simp
  · have hk : (key == name) = false := by simpa using fun e : key = name => h e.symm
    have hd : decide (name = key) = false := by simpa using h
    rw [List.any_cons]
    dsimp only
    rw [hk, hd, Bool.false_or, Bool.false_or]
    induction m with
    | nil => rfl
    | cons e l ih =>
      by_cases he : e.1 = key
      · have hen : (e.1 == name) = false := by
          simpa using fun e2 : e.1 = name => h (e2.symm.trans he)
        rw [List.filter_cons_of_neg (by simpa using he), ih, List.any_cons, hen, Bool.false_or]
      · rw [List.filter_cons_of_pos (by simpa using he), List.any_cons, List.any_cons, ih]

theorem mapValue_insert (m : List (String × Option TrackData)) (key name : String)
    (v : Option TrackData) :
    mapValue (mapInsert m key v) name = if name = key then v else mapValue m name := by
  unfold mapValue mapInsert
  by_cases h : name = key
  · subst h
    simp
  · have h1 : ¬ key = name := fun e => h e.symm
    rw [if_neg h, List.find?_cons_of_neg _ (by simpa using h1)]
    have hf : ∀ l : List (String × Option TrackData),
        (l.filter (fun e => e.1 != key)).find? (fun e => e.1 == name) =
          l.find? (fun e => e.1 == name) := by
      intro l
      induction l with
      | nil => rfl
      | cons e l ih =>
        by_cases he : e.1 = key
        · have hen : ¬ e.1 = name := fun e2 => h (e2.symm.trans he)
          rw [List.filter_cons_of_neg (by simpa using he), ih,
            List.find?_cons_of_neg _ (by simpa using hen)]
        · rw [List.filter_cons_of_pos (by simpa using he)]
          by_cases hen : e.1 = name
          · rw [List.find?_cons_of_pos _ (by simpa using hen),
              List.find?_cons_of_pos _ (by simpa using hen)]
          · rw [List.find?_cons_of_neg _ (by simpa using hen),
              List.find?_cons_of_neg _ (by simpa using hen), ih]
    rw [hf]

theorem mapValue_of_not_contains (m : List (String × Option TrackData)) (name : String)
    (h : mapContains m name = false) : mapValue m name = none := by
  unfold mapValue
  unfold mapContains at h
  have : m.find? (fun e => e.1 == name) = none := by
    rw [List.find?_eq_none]
    intro e he
    have := List.any_eq_false.mp h e he
    simpa using this
  rw [this]

/-- The map after the loop: the keys it had, and the names of the list that
load; the value of a new key is what the loader yields for it. -/
theorem initLoop_spec (folder : TrackFolder) (l : List String) :
    ∀ (m : List (String × Option TrackData)) (name : String),
      mapContains (initLoop folder l m) name =
        (mapContains m name ||
          (decide (name ∈ l) && (folder.fromFileName (folder.filePath name)).isSome)) ∧
      mapValue (initLoop folder l m) name =
        if mapContains m name = true then mapValue m name
        else if name ∈ l then folder.fromFileName (folder.filePath name) else none := by
  induction l with
  | nil =>
    intro m name
    simp only [initLoop, List.not_mem_nil, decide_False, Bool.false_and, Bool.or_false,
      if_false, true_and]
    by_cases h : mapContains m name = true
    · rw [if_pos h]
    · rw [if_neg h, mapValue_of_not_contains m name (by simpa using h)]
  | cons track rest ih =>
    intro m name
    unfold initLoop
    by_cases hc : mapContains m track = true
    · simp only [hc, Bool.not_true, if_false, Bool.false_eq_true]
      obtain ⟨h1, h2⟩ := ih m name
      rw [h1, h2]
      by_cases hn : name = track
      · subst hn
        simp [hc]
      · simp [hn]
    · have hc1 : mapContains m track = false := by simpa using hc
      simp only [hc1, Bool.not_false, if_true]
      cases hl : folder.fromFileName (folder.filePath track) with
      | none =>
        dsimp only
        obtain ⟨h1, h2⟩ := ih m name
        rw [h1, h2]
        by_cases hn : name = track
        · subst hn
          simp [hc1, hl]
        · simp [hn]
      | some data =>
        dsimp only
        obtain ⟨h1, h2⟩ := ih (mapInsert m track (some data)) name
        rw [h1, h2, mapContains_insert, mapValue_insert]
        by_cases hn : name = track
        · subst hn
          simp [hc1, hl]
        · simp [hn]

/-- C20: after `initTrackData`, `rowCount` (of the table, parent not valid)
is the number of names `entryList` yields, the names that fail to load
included; `m_trackDataMap` has a key exactly for the listed names that load;
for a row in `[0, rowCount)`, `getTrackData(row)` is what the loader yields
for the file of that row, so it is non-null if and only if that file
loaded; for a row `< 0` or `≥ rowCount` it is null. -/
theorem C20_rows_and_track_data (folder : TrackFolder) (s : TrackFolderModel) :
    rowCount (initTrackData folder s) false = (folder.entryList.length : Int) ∧
    (∀ name : String, mapContains (initTrackData folder s).m_trackDataMap name = true ↔
      (name ∈ folder.entryList ∧
        (folder.fromFileName (folder.filePath name)).isSome = true)) ∧
    (∀ row : Int, 0 ≤ row → row < rowCount (initTrackData folder s) false →
      getTrackData (initTrackData folder s) row =
        folder.fromFileName (folder.filePath (folder.entryList.getD row.toNat "")) ∧
      (getTrackData (initTrackData folder s) row ≠ none ↔
        folder.fromFileName (folder.filePath (folder.entryList.getD row.toNat "")) ≠ none)) ∧
    (∀ row : Int, row < 0 ∨ rowCount (initTrackData folder s) false ≤ row →
      getTrackData (initTrackData folder s) row = none) := by
  have hrc : rowCount (initTrackData folder s) false = (folder.entryList.length : Int) := rfl
  have hval : ∀ row : Int, 0 ≤ row → row < rowCount (initTrackData folder s) false →
      getTrackData (initTrackData folder s) row =
        folder.fromFileName (folder.filePath (folder.entryList.getD row.toNat "")) := by
    intro row h0 h1
    rw [hrc] at h1
    have hlt : row.toNat < folder.entryList.length := by omega
    have hmem : folder.entryList.getD row.toNat "" ∈ folder.entryList := by
      rw [List.getD_eq_getElem _ _ hlt]
      exact List.getElem_mem _
    have hno : ¬ (row < 0 ∨ row ≥ (folder.entryList.length : Int)) := by omega
    unfold getTrackData initTrackData
    dsimp only
    rw [if_neg hno, (initLoop_spec folder folder.entryList [] _).2,
      if_neg (by simp [mapContains]), if_pos hmem]
  refine ⟨hrc, ?_, ?_, ?_⟩
  · intro name
    unfold initTrackData
    dsimp only
    rw [(initLoop_spec folder folder.entryList [] name).1]
    simp [mapContains]
  · intro row h0 h1
    refine ⟨hval row h0 h1, ?_⟩
    rw [hval row h0 h1]
  · intro row h
    rw [hrc] at h
    unfold getTrackData initTrackData
    dsimp only
    rw [if_pos (by omega)]

/-- C20 on `threeFiles`, where `b.wav` does not load: three rows, keys for
`a.wav` and `c.wav` only, a null pointer for row 1 and for the rows -1 and
3, the loaded clips for the rows 0 and 2. -/
theorem C20_rows_and_track_data_witness :
    rowCount (initTrackData threeFiles ⟨[], []⟩) false = 3 ∧
    mapContains (initTrackData threeFiles ⟨[], []⟩).m_trackDataMap "a.wav" = true ∧
    mapContains (initTrackData threeFiles ⟨[], []⟩).m_trackDataMap "b.wav" = false ∧
    getTrackData (initTrackData threeFiles ⟨[], []⟩) 0 =
      some ⟨"/tracks/a.wav", none, false, false⟩ ∧
    getTrackData (initTrackData threeFiles ⟨[], []⟩) 1 = none ∧
    getTrackData (initTrackData threeFiles ⟨[], []⟩) 2 =
      some ⟨"/tracks/c.wav", none, false, false⟩ ∧
    getTrackData (initTrackData threeFiles ⟨[], []⟩) (-1) = none ∧
    getTrackData (initTrackData threeFiles ⟨[], []⟩) 3 = none ∧
    (getTrackData (initTrackData threeFiles ⟨[], []⟩) 2 ≠ none ↔
      threeFiles.fromFileName (threeFiles.filePath (threeFiles.entryList.getD 2 "")) ≠ none) :=
  ⟨by decide, by decide, by decide, by decide, by decide, by decide,
   (C20_rows_and_track_data threeFiles ⟨[], []⟩).2.2.2 (-1) (Or.inl (by decide)),
   (C20_rows_and_track_data threeFiles ⟨[], []⟩).2.2.2 3 (Or.inr (by decide)),
   ((C20_rows_and_track_data threeFiles ⟨[], []⟩).2.2.1 2 (by decide) (by decide)).2⟩

/-! ## The loads with the index arithmetic in `int` -/

theorem wrapInt32_of_fits (x : Int) (h : FitsInt32 x) : wrapInt32 x = x :=
  (wrapInt32_eq_iff x).mpr h

theorem readOffset32_eq (s : PlaybackManager) (h : ∀ x ∈ (readOffset32 s).2, FitsInt32 x) :
    (readOffset32 s).1 = readOffset s := by
  unfold readOffset32 readOffset at *
  split_ifs at h ⊢ with hf
  · dsimp only at h ⊢
    have h1 := wrapInt32_of_fits _ (h _ (List.mem_cons_self _ _))
    rw [h1] at h ⊢
    exact wrapInt32_of_fits _ (h _ (by simp))
  · rfl

theorem frameBounds32_eq (s : PlaybackManager) (aux : Bool)
    (h : ∀ x ∈ (frameBounds32 s aux).2, FitsInt32 x) :
    (frameBounds32 s aux).1 = frameBounds s aux := by
  have hints : (frameBounds32 s aux).2 = (readOffset32 s).2 ++ [(readOffset32 s).1 + 1] := by
    unfold frameBounds32
    dsimp only
    split_ifs <;> rfl
  rw [hints] at h
  have h1 := readOffset32_eq s (fun x hx => h x (List.mem_append_left _ hx))
  have h2 := wrapInt32_of_fits _ (h _ (List.mem_append_right _ (List.mem_singleton_self _)))
  unfold frameBounds32 frameBounds
  dsimp only
  rw [h2, h1]
  split_ifs <;> rfl

theorem mainOutput32_eq (s : PlaybackManager) (i : Nat) (sample : Int) (volume : Rat)
    (h : ∀ x ∈ (mainOutput32 s i sample volume).2, FitsInt32 x) :
    (mainOutput32 s i sample volume).1 = mainOutput s i sample volume := by
  unfold mainOutput32 mainOutput at *
  dsimp only at h ⊢
  split_ifs at h ⊢ with hc
  · rfl
  · dsimp only at h ⊢
    rw [wrapInt32_of_fits _ (h _ (List.mem_singleton_self _))]

theorem auxOffset32_eq (s : PlaybackManager) (sample : Int)
    (h : ∀ x ∈ (auxOffset32 s sample).2, FitsInt32 x) :
    (auxOffset32 s sample).1 = auxOffset s sample := by
  unfold auxOffset32 auxOffset at *
  dsimp only at h ⊢
  have h1 := wrapInt32_of_fits _ (h _ (List.mem_cons_self _ _))
  rw [h1] at h ⊢
  rw [wrapInt32_of_fits _ (h _ (by simp))]

theorem auxOutput32_eq (s : PlaybackManager) (i : Nat) (sample : Int) (volume : Rat)
    (h : ∀ x ∈ (auxOutput32 s i sample volume).2, FitsInt32 x) :
    (auxOutput32 s i sample volume).1 = auxOutput s i sample volume := by
  unfold auxOutput32 auxOutput at *
  dsimp only at h ⊢
  split_ifs at h ⊢ with hc
  · dsimp only at h ⊢
    rw [auxOffset32_eq s sample h]
  · dsimp only at h ⊢
    have h1 := auxOffset32_eq s sample (fun x hx => h x (List.mem_append_left _ hx))
    have h2 := wrapInt32_of_fits _ (h _ (List.mem_append_right _ (List.mem_singleton_self _)))
    rw [h2, h1]

theorem advanceCursor32_eq (s : PlaybackManager)
    (h : ∀ x ∈ (advanceCursor32 s).2, FitsInt32 x) :
    (advanceCursor32 s).1 = advanceCursor s := by
  unfold advanceCursor32 advanceCursor at *
  split_ifs at h ⊢ with hc
  · dsimp only at h ⊢
    rw [wrapInt32_of_fits _ (h _ (List.mem_singleton_self _))]
  · rfl

theorem frameOutput32_eq (st : LoopState) (pm : PlaybackManager) (aux : Bool) (i : Nat)
    (sample : Int) (volume : Rat)
    (h : ∀ x ∈ (frameOutput32 st pm aux i sample volume).2, FitsInt32 x) :
    (frameOutput32 st pm aux i sample volume).1 = frameOutput st pm aux i sample volume := by
  unfold frameOutput32 frameOutput at *
  dsimp only at h ⊢
  have h1 := mainOutput32_eq pm i sample volume
    (fun x hx => h x (List.mem_append_left _ (List.mem_append_left _ hx)))
  have h3 := advanceCursor32_eq pm (fun x hx => h x (List.mem_append_right _ hx))
  cases aux with
  | false =>
    simp only [Bool.false_eq_true, if_false] at h ⊢
    rw [h1, h3]
  | true =>
    simp only [if_true] at h ⊢
    have h2 := auxOutput32_eq pm i sample volume
      (fun x hx => h x (List.mem_append_left _ (List.mem_append_right _ hx)))
    rw [h1, h2, h3]

/-- A frame in which no index computation leaves the `int` range is the
frame of the exact loop. -/
theorem frame32_eq (st : LoopState) (i : Nat) (h : ∀ x ∈ (frame32 st i).2, FitsInt32 x) :
    (frame32 st i).1 = frame st i := by
  unfold frame32 at h ⊢
  unfold frame
  rcases hb : frameBounds32 st.pm st.auxPlayback with ⟨b, ints⟩
  rw [hb] at h
  have hbe : ∀ hh : (∀ x ∈ ints, FitsInt32 x), b = frameBounds st.pm st.auxPlayback := by
    intro hh
    have := frameBounds32_eq st.pm st.auxPlayback (by rw [hb]; exact hh)
    rw [hb] at this
    exact this
  cases b with
  | stopHere pm =>
    dsimp only at h ⊢
    rw [← hbe h]
  | goOn pm sample aux =>
    dsimp only at h ⊢
    rcases hv : frameVolume pm with ⟨pm1, _ | volume⟩
    · rw [hv] at h
      dsimp only at h ⊢
      rw [← hbe h]
      dsimp only
      rw [hv]
    · rw [hv] at h
      dsimp only at h ⊢
      rw [← hbe (fun x hx => h x (List.mem_append_left _ hx))]
      dsimp only
      rw [hv]
      dsimp only
      rw [frameOutput32_eq st pm1 aux i sample volume
        (fun x hx => h x (List.mem_append_right _ hx))]

theorem frameLoop32_eq (n : Nat) :
    ∀ (i : Nat) (st : LoopState), (∀ x ∈ (frameLoop32 n i st).2, FitsInt32 x) →
      (frameLoop32 n i st).1 = frameLoop n i st := by
  induction n with
  | zero => intro i st _; rfl
  | succ n ih =>
    intro i st h
    unfold frameLoop32 at h ⊢
    unfold frameLoop
    rcases hf : frame32 st i with ⟨r, ints⟩
    rw [hf] at h
    have hfe : ∀ hh : (∀ x ∈ ints, FitsInt32 x), r = frame st i := by
      intro hh
      have := frame32_eq st i (by rw [hf]; exact hh)
      rw [hf] at this
      exact this
    cases r with
    | ret code st1 =>
      dsimp only at h ⊢
      rw [← hfe h]
    | next st1 =>
      dsimp only at h ⊢
      rw [← hfe (fun x hx => h x (List.mem_append_left _ hx))]
      dsimp only
      exact ih (i + 1) st1 (fun x hx => h x (List.mem_append_right _ hx))

/-- A call in which no index computation leaves the `int` range is the call
with exact index arithmetic. -/
theorem writeNextAudioData32_eq (s : PlaybackManager) (N : Nat)
    (h : ∀ x ∈ (writeNextAudioData32 s N).2, FitsInt32 x) :
    (writeNextAudioData32 s N).1 = writeNextAudioData s N := by
  unfold writeNextAudioData32 at h ⊢
  unfold writeNextAudioData
  dsimp only at h ⊢
  split_ifs at h ⊢ <;> first | rfl | exact frameLoop32_eq N 0 _ h

/-- C17, refuted as stated: `fadeWrap`, a running stereo clip of 1000
samples at cursor 0 with a fade-out armed and its counter at `2^30`, meets
every assumption of the claim.  The product `m_currFadeOut * numChannels`
of line 248 is `2^31`, which wraps to `-2147483648`; `sample + 1` is not
greater than the length 1000, so the check of line 250 lets the frame
through, and the frame loads at the indices `-2147483648` and
`-2147483647`, outside the vector.  The sum `sample + 1` of line 250 can
wrap as well: `cursorWrap`, a mono clip of 1000 samples with no fade-out
armed and the cursor at `2147483647`, meets every assumption too, the sum
wraps to `-2147483648`, and the frame loads at the index `2147483647`. -/
theorem C17_counterexample :
    (BufferOk fadeWrap.m_activeTrack ∧ BufferOk fadeWrap.m_activeAuxTrack ∧
     BufferOk fadeWrap.m_queuedTrack ∧ BufferOk fadeWrap.m_queuedAuxTrack ∧
     0 ≤ fadeWrap.m_activeSample ∧
     fadeWrap.m_activeSample % numChannelsOf fadeWrap.m_activeTrack = 0 ∧
     0 ≤ fadeWrap.m_currFadeOut ∧ 0 ≤ fadeWrap.m_currFadeIn ∧
     fadeWrap.m_currFadeOut < fadeWrap.m_fadeOutSamples) ∧
    (readOffset32 fadeWrap).1 = -2147483648 ∧
    (writeNextAudioData32 fadeWrap 1).1.code = 0 ∧
    (writeNextAudioData32 fadeWrap 1).1.st.reads =
      [⟨false, -2147483648, 1000⟩, ⟨false, -2147483647, 1000⟩] ∧
    ¬ InBounds ⟨false, -2147483648, 1000⟩ ∧
    (writeNextAudioData32 fadeWrap 1).2 =
      [2147483648, -2147483648, -2147483647, -2147483647] ∧
    ¬ FitsInt32 2147483648 ∧
    (BufferOk cursorWrap.m_activeTrack ∧ BufferOk cursorWrap.m_activeAuxTrack ∧
     BufferOk cursorWrap.m_queuedTrack ∧ BufferOk cursorWrap.m_queuedAuxTrack ∧
     0 ≤ cursorWrap.m_activeSample ∧
     cursorWrap.m_activeSample % numChannelsOf cursorWrap.m_activeTrack = 0 ∧
     0 ≤ cursorWrap.m_currFadeOut ∧ 0 ≤ cursorWrap.m_currFadeIn) ∧
    (writeNextAudioData32 cursorWrap 1).1.st.reads = [⟨false, 2147483647, 1000⟩] ∧
    ¬ InBounds ⟨false, 2147483647, 1000⟩ := by
  refine ⟨⟨BufferOk_stereoClip 1000 false (by decide), BufferOk_none, BufferOk_none,
    BufferOk_none, by decide, by decide, by decide, by decide, by decide⟩, by decide,
    by decide, by decide, ?_, by decide, ?_,
    ⟨BufferOk_monoClip 1000, BufferOk_none, BufferOk_none, BufferOk_none, by decide,
      by decide, by decide, by decide⟩, by decide, ?_⟩
  · unfold InBounds
    decide
  · unfold FitsInt32
    decide
  · unfold InBounds
    decide

/-- C17, amended: in a call of `writeNextAudioData` in which no index
computation leaves the `int` range, every load is inside the vector it
reads, for every frame count `N`.  Assumed, as in the claim: the buffer of
every clip the manager holds (active, active aux, queued, queued aux) has at
least one channel and a length that is a multiple of its channel count; the
cursor is not negative and, when the active clip is playable, a multiple of
its channel count; the fade-out counter is not negative (the fade-in counter
enters no index).  Added: the exact results of the `int` computations of the
call (the product and the sum of line 248, `sample + 1`, the quotient and
the product of lines 288-289, `auxSample + 1`, the cursor advance of line
301) are `int` values.  Then every recorded load, of the main clip at
`sample` and `sample + 1` and of the aux clip at `auxSample` and
`auxSample + 1`, has `0 ≤ index < size`, whether the frame follows a
promotion or a fade-out is armed. -/
theorem C17_reads_in_bounds_without_overflow (s : PlaybackManager) (N : Nat)
    (hA : BufferOk s.m_activeTrack) (hAx : BufferOk s.m_activeAuxTrack)
    (hQ : BufferOk s.m_queuedTrack) (hQx : BufferOk s.m_queuedAuxTrack)
    (hc : 0 ≤ s.m_activeSample)
    (hal : trackOk s.m_activeTrack = true →
      s.m_activeSample % numChannelsOf s.m_activeTrack = 0)
    (hf : 0 ≤ s.m_currFadeOut)
    (hfit : ∀ x ∈ (writeNextAudioData32 s N).2, FitsInt32 x) :
    ∀ r ∈ (writeNextAudioData32 s N).1.st.reads, InBounds r := by
  rw [writeNextAudioData32_eq s N hfit]
  exact writeNextAudioData_reads_inBounds s N hA hAx hQ hQx hc hal hf

/-- C17 amended, on `auxFadeEnd`, three frames on a 4-channel device: the
first frame loads the samples 598, 599 of the clip of 600 samples and the
sample 299 of the mono aux clip; the second frame finds the fade-out offset
past the end, promotes the queued pair and loads from offset 0; the third
frame loads the promoted pair at the fade-out offset 6.  The index
computations stay below 602. -/
theorem C17_reads_in_bounds_without_overflow_witness :
    (writeNextAudioData32 auxFadeEnd 3).1.st.reads =
      [⟨false, 598, 600⟩, ⟨false, 599, 600⟩, ⟨true, 299, 513⟩,
       ⟨false, 0, 514⟩, ⟨false, 1, 514⟩, ⟨true, 0, 516⟩, ⟨true, 1, 516⟩,
       ⟨false, 6, 514⟩, ⟨false, 7, 514⟩, ⟨true, 6, 516⟩, ⟨true, 7, 516⟩] ∧
    (∀ x ∈ (writeNextAudioData32 auxFadeEnd 3).2, FitsInt32 x) ∧
    ∀ r ∈ (writeNextAudioData32 auxFadeEnd 3).1.st.reads, InBounds r :=
  ⟨by decide, by unfold FitsInt32; decide,
   C17_reads_in_bounds_without_overflow auxFadeEnd 3
    (BufferOk_stereoClip 600 false (by decide))
    (BufferOk_monoClip 513) (BufferOk_stereoClip 514 false (by decide))
    (BufferOk_stereoClip 516 false (by decide)) (by decide) (fun _ => by decide) (by decide)
    (by unfold FitsInt32; decide)⟩

/-! ## The accesses and the mutex -/

theorem unguarded_held (l : List Access) (es : List Event) :
    unguarded true (l.map Event.access ++ es) = unguarded true es := by
  induction l with
  | nil => rfl
  | cons a l ih => simpa [unguarded] using ih

theorem unguarded_free (l : List Access) :
    unguarded false (l.map Event.access) = l := by
  induction l with
  | nil => rfl
  | cons a l ih => simp [unguarded, ih]

/-- C15 against the source: `writeNextAudioData` and `clearActiveTrack` make
every access with the mutex held, and `setQueuedTrack` its two assignments;
but `setQueuedTrack` reads `m_queuedTrack` after `unlock()` (line 168), and
`start`, `stop`, `activeTrack` and `activeSample` never take the mutex, so
every access they make is made without it: `start` on an open stream that
is not running writes `m_fadeInSamples` and `m_currFadeIn`, `stop(300)` on a
running stream reads and writes `m_fadeOutStarted` and writes
`m_fadeOutSamples` and `m_currFadeOut`, the getters read `m_activeTrack` and
`m_activeSample`.  The callback accesses these members on its side: a
callback of one frame on that running stream reads `m_fadeOutStarted` and
`m_currFadeIn` and writes `m_activeSample`, and a callback that finds the
active slot empty writes `m_activeTrack` and `m_queuedTrack`. -/
theorem C15_accesses_without_the_mutex :
    (∀ (s : PlaybackManager) (N : Nat), unguarded false (writeNextAudioDataEvents s N) = []) ∧
    unguarded false clearActiveTrackEvents = [] ∧
    (∀ (s : PlaybackManager) (queuedTrack auxTrack : Option TrackData),
      Access.read Member.queuedTrack ∈
        unguarded false (setQueuedTrackEvents s queuedTrack auxTrack) ∧
      Access.write Member.queuedTrack ∉
        unguarded false (setQueuedTrackEvents s queuedTrack auxTrack) ∧
      Access.write Member.queuedAuxTrack ∉
        unguarded false (setQueuedTrackEvents s queuedTrack auxTrack)) ∧
    (∀ s : PlaybackManager, unguarded false (startEvents s) = startAccesses s) ∧
    (∀ (s : PlaybackManager) (T : Int), unguarded false (stopEvents s T) = stopAccesses s T) ∧
    unguarded false (startEvents (loaded (some (stereoClip 1000 false)))) =
      [Access.write Member.fadeInSamples, Access.write Member.currFadeIn] ∧
    unguarded false (stopEvents (playing (some (stereoClip 1000 false)) none 0) 300) =
      [Access.read Member.fadeOutStarted, Access.write Member.fadeOutStarted,
       Access.write Member.fadeOutSamples, Access.write Member.currFadeOut] ∧
    unguarded false
        (setQueuedTrackEvents (loaded none) (some ⟨"a.wav", none, true, false⟩) none) =
      [Access.read Member.queuedTrack, Access.read Member.queuedTrack,
       Access.write Member.fadeInSamples, Access.write Member.currFadeIn] ∧
    unguarded false activeTrackEvents = [Access.read Member.activeTrack] ∧
    unguarded false activeSampleEvents = [Access.read Member.activeSample] ∧
    (Access.read Member.fadeOutStarted ∈
        writeNextAudioDataAccesses (playing (some (stereoClip 1000 false)) none 0) 1 ∧
      Access.read Member.currFadeIn ∈
        writeNextAudioDataAccesses (playing (some (stereoClip 1000 false)) none 0) 1 ∧
      Access.write Member.activeSample ∈
        writeNextAudioDataAccesses (playing (some (stereoClip 1000 false)) none 0) 1) ∧
    (Access.write Member.activeTrack ∈
        writeNextAudioDataAccesses (playing none (some (stereoClip 1000 false)) 0) 1 ∧
      Access.write Member.queuedTrack ∈
        writeNextAudioDataAccesses (playing none (some (stereoClip 1000 false)) 0) 1) := by
  refine ⟨?_, rfl, ?_, fun s => unguarded_free _, fun s T => unguarded_free _, by decide,
    by decide, by decide, rfl, rfl, by decide, by decide⟩
  · intro s N
    unfold writeNextAudioDataEvents
    show unguarded true ((writeNextAudioDataAccesses s N).map Event.access ++ [Event.unlock]) = []
    rw [unguarded_held]
    rfl
  · intro s queuedTrack auxTrack
    have h : unguarded false (setQueuedTrackEvents s queuedTrack auxTrack) =
        Access.read Member.queuedTrack ::
          (match queuedTrack with
           | some t =>
             Access.read Member.queuedTrack ::
               (if t.autoPlay then
                 startAccesses
                   { s with m_queuedTrack := queuedTrack, m_queuedAuxTrack := auxTrack }
               else [])
           | none => []) := by
      unfold setQueuedTrackEvents
      cases queuedTrack with
      | none => rfl
      | some t =>
        dsimp only
        cases t.autoPlay with
        | false => rfl
        | true =>
          simp only [if_true, List.cons_append, List.nil_append, unguarded, Bool.false_eq_true,
            if_false]
          rw [startEvents, unguarded_free]
    rw [h]
    refine ⟨List.mem_cons_self _ _, ?_, ?_⟩
    · cases queuedTrack with
      | none => simp
      | some t =>
        unfold startAccesses
        dsimp only
        split_ifs <;> simp
    · cases queuedTrack with
      | none => simp
      | some t =>
        unfold startAccesses
        dsimp only
        split_ifs <;> simp

end Karaoke
